import Mathlib

/-! Interpolation between the zones of a fluid-structure interface.

A shallow embedding of `Common/src/interpolation_structure.cpp` (SU2 3.2.9): the
nearest-neighbour donor search `CNearestNeighbor::Set_TransferCoeff`, the data transfer
`CInterpolator::Interpolate_Data`, the displacement transfer
`CInterpolator::Interpolate_Deformation`, the data store of the interpolator
(`InitializeData`, `GetData`, `SetData`) and the element-based donor search
`CConsistConserve::Set_TransferCoeff`.

Conventions of the embedding.

* A finite `double` is a rational number, of type `ℚ`. The squared distances of the donor
  searches are computed in a `double` arithmetic `F : DoubleArith` that the builders take as
  a parameter: its operations may round and overflow to `+∞`; `binary64` is the IEEE 754
  arithmetic. The products and sums of the two transfer routines are taken exact.
* Every routine returns an `Option`; `none` stands for undefined behaviour of the C++ code:
  an access outside an array, a dereference of a `NULL` pointer, the use of a value that was
  never assigned.
* A memory cell that was allocated but never written holds `none`; so does a local variable
  that was declared and never assigned.
* Members of the object (`Geometry`, `nVar`, `Data`) are passed explicitly.
* The classes of the geometry and configuration collaborators are declared outside this file
  of the repository; they are modelled from the specification, their read-only queries being
  total.
* The constant `YES` of the option header is a parameter of the routines that use it.
-/

namespace SU2

/-! ## Control flow -/

/-- Counted loop `for (i = 0; i < n; i++) body`, threading the state through the
iterations; a fault in one iteration is a fault of the loop. -/
def forLoop {σ : Type} (n : Nat) (body : Nat → σ → Option σ) (s : σ) : Option σ :=
  (List.range n).foldlM (fun st i => body i st) s

/-! ## Geometry and configuration collaborators -/

/-- Modelled from the spec: the vertex class `CVertex` of the geometry collaborator, whose
declaration is outside this file of the repository. A vertex references a global mesh point
(`Node`), carries coordinates, a displacement vector (`VarCoord`), a rotation vector
(`VarRot`) and the donor record: the number of donors, one four-field donor-info tuple
(zone, point, marker, vertex) per donor and one weight per donor. A donor slot that was
allocated and never written is `none`. -/
structure CVertex where
  /-- Global point of the vertex (`GetNode`). -/
  Node : Nat
  /-- Coordinates (`GetCoord`). -/
  CartCoord : List ℚ
  /-- Displacement state (`GetVarCoord`, `SetVarCoord`). -/
  VarCoord : List ℚ
  /-- Rotation state (`GetVarRot`). -/
  VarRot : List ℚ
  /-- Number of donors (`GetnDonorPoints`). -/
  nDonor_Points : Nat := 0
  /-- Donor-info table; empty until `Allocate_DonorInfo`. -/
  Donor_Info : List (Option (List Nat)) := []
  /-- Donor weights; empty until `Allocate_DonorInfo`. -/
  Donor_Coeff : List (Option ℚ) := []
  deriving DecidableEq

namespace CVertex

/-- `GetNode()`. -/
def GetNode (v : CVertex) : Nat := v.Node

/-- `GetCoord(iDim)`, a read-only query of the collaborator. -/
def GetCoord (v : CVertex) (iDim : Nat) : ℚ := v.CartCoord.getD iDim 0

/-- `GetnDonorPoints()`. -/
def GetnDonorPoints (v : CVertex) : Nat := v.nDonor_Points

/-- `SetnDonorPoints(nDonor)`. -/
def SetnDonorPoints (v : CVertex) (n : Nat) : CVertex := { v with nDonor_Points := n }

/-- `IncrementnDonor()`: one more donor is counted for the vertex; the count is an
`unsigned short`. -/
def IncrementnDonor (v : CVertex) : CVertex :=
  { v with nDonor_Points := (v.nDonor_Points + 1) % 2 ^ 16 }

/-- `Allocate_DonorInfo()`: fresh tables with `nDonor_Points` unwritten slots. -/
def Allocate_DonorInfo (v : CVertex) : CVertex :=
  { v with Donor_Info := List.replicate v.nDonor_Points none,
           Donor_Coeff := List.replicate v.nDonor_Points none }

/-- `SetDonorInfo(iDonor, nn)`: copies the four fields of `nn` into slot `iDonor`; when `nn`
itself was never written the slot stays unwritten. -/
def SetDonorInfo (v : CVertex) (iDonor : Nat) (nn : Option (List Nat)) : Option CVertex :=
  if iDonor < v.Donor_Info.length then some { v with Donor_Info := v.Donor_Info.set iDonor nn }
  else none

/-- `SetDonorCoeff(iDonor, val)`. -/
def SetDonorCoeff (v : CVertex) (iDonor : Nat) (val : ℚ) : Option CVertex :=
  if iDonor < v.Donor_Coeff.length then
    some { v with Donor_Coeff := v.Donor_Coeff.set iDonor (some val) }
  else none

/-- `GetDonorInfo(jDonor, it)`. -/
def GetDonorInfo (v : CVertex) (jDonor it : Nat) : Option Nat :=
  match v.Donor_Info[jDonor]? with
  | some (some rec) => rec[it]?
  | _ => none

/-- `GetDonorCoeff(jDonor)`. -/
def GetDonorCoeff (v : CVertex) (jDonor : Nat) : Option ℚ :=
  match v.Donor_Coeff[jDonor]? with
  | some (some w) => some w
  | _ => none

/-- `SetVarCoord(val)`: overwrites the first `nDim` components of the displacement. -/
def SetVarCoord (v : CVertex) (nDim : Nat) (val : List ℚ) : CVertex :=
  { v with VarCoord := val.take nDim ++ v.VarCoord.drop nDim }

end CVertex

/-- Modelled from the spec: a mesh point `CPoint` of the geometry collaborator (coordinates,
incident elements, vertex index on each marker). -/
structure CPoint where
  /-- Coordinates (`GetCoord`). -/
  Coord : List ℚ
  /-- Incident elements (`GetnElem`, `GetElem`). -/
  Elem : List Nat := []
  /-- Vertex index of the point on each marker, `-1` on a marker the point is not on
  (`GetVertex`). -/
  Vertex : List Int := []
  deriving DecidableEq

/-- `GetCoord(iDim)` of a mesh point. -/
def CPoint.GetCoord (p : CPoint) (iDim : Nat) : ℚ := p.Coord.getD iDim 0

/-- `GetnElem()` of a mesh point. -/
def CPoint.GetnElem (p : CPoint) : Nat := p.Elem.length

/-- `GetVertex(val_marker)` of a mesh point, a `long`: the index of the point among the
vertices of the marker, `-1` when the point is not on the marker. -/
def CPoint.GetVertex (p : CPoint) (val_marker : Nat) : Int := p.Vertex.getD val_marker (-1)

/-- Modelled from the spec: the mesh `CGeometry` of one zone (spatial dimension, points,
the vertices of each boundary marker, the node list of each element). -/
structure CGeometry where
  /-- Spatial dimension (`GetnDim`). -/
  nDim : Nat
  /-- Mesh points. -/
  node : List CPoint
  /-- Vertices of each marker; `GetnVertex(iMarker)` is the length of `vertex[iMarker]`. -/
  vertex : List (List CVertex)
  /-- Ordered node list of each element. -/
  elem : List (List Nat) := []
  deriving DecidableEq

/-- `GetnPoint()`. -/
def CGeometry.GetnPoint (g : CGeometry) : Nat := g.node.length

/-- Modelled from the spec: the configuration `CConfig` of one zone: for each marker the
interface-pair index (`0` when the marker is not on a coupling interface) and the number of
interface marker entries. -/
structure CConfig where
  /-- Interface-pair index of each marker. -/
  Marker_All_FSIinterface : List Nat
  /-- Value of `GetMarker_n_FSIinterface()`. -/
  Marker_n_FSIinterface : Nat
  deriving DecidableEq

namespace CConfig

/-- `GetnMarker_All()`. -/
def GetnMarker_All (c : CConfig) : Nat := c.Marker_All_FSIinterface.length

/-- `GetMarker_All_FSIinterface(iMarker)`. -/
def GetMarker_All_FSIinterface (c : CConfig) (iMarker : Nat) : Nat :=
  c.Marker_All_FSIinterface.getD iMarker 0

/-- `GetMarker_n_FSIinterface()`. -/
def GetMarker_n_FSIinterface (c : CConfig) : Nat := c.Marker_n_FSIinterface

end CConfig

/-- The vertex `Geometry[iZone][MESH_0]->vertex[iMarker][iVertex]`. -/
def vertexAt (G : List CGeometry) (iZone iMarker iVertex : Nat) : Option CVertex :=
  match G[iZone]? with
  | none => none
  | some g =>
    match g.vertex[iMarker]? with
    | none => none
    | some vs => vs[iVertex]?

/-- `Geometry[iZone][MESH_0]->GetnVertex(iMarker)`. -/
def GetnVertex (G : List CGeometry) (iZone iMarker : Nat) : Option Nat :=
  match G[iZone]? with
  | none => none
  | some g =>
    match g.vertex[iMarker]? with
    | none => none
    | some vs => some vs.length

/-- A call of a mutating method `f` on `Geometry[iZone][MESH_0]->vertex[iMarker][iVertex]`. -/
def modVertex (G : List CGeometry) (iZone iMarker iVertex : Nat)
    (f : CVertex → Option CVertex) : Option (List CGeometry) :=
  match G[iZone]? with
  | none => none
  | some g =>
    match g.vertex[iMarker]? with
    | none => none
    | some vs =>
      match vs[iVertex]? with
      | none => none
      | some v =>
        match f v with
        | none => none
        | some w => some (G.set iZone { g with vertex := g.vertex.set iMarker (vs.set iVertex w) })

/-! ## Arithmetic of the distance computation -/

/-- A value of the `double` variables `distance` and `last_distance`: a rational number or
`+∞` (`⊤`). The coordinates of a mesh are finite, so that neither `-∞` nor a NaN arises in
the sum of squares of lines 261-263 and 293-295. -/
abbrev Dist := WithTop ℚ

/-- The sentinel `-1.0` that `last_distance` holds before the first candidate. -/
def sentinel : Dist := ((-1 : ℚ) : WithTop ℚ)

/-- The `double` operations of the distance computation, as the machine computes them: the
term `pow(a - b, 2.0)` of two coordinates and the sum `distance + term`. A term is never
negative and the sum of two non-negative values is never negative, whatever the rounding. -/
structure DoubleArith where
  /-- The term `pow(a - b, 2.0)` as computed. -/
  sqDiff : ℚ → ℚ → Dist
  /-- The sum `distance + term` as computed. -/
  add : Dist → Dist → Dist
  /-- A computed square is not negative. -/
  sqDiff_nonneg : ∀ a b, 0 ≤ sqDiff a b
  /-- A computed sum of non-negative values is not negative. -/
  add_nonneg : ∀ x y, 0 ≤ x → 0 ≤ y → 0 ≤ add x y

/-- The arithmetic in which every operation returns the rounding `round` of its exact
result: the difference is rounded (in magnitude, rounding being symmetric), its square is
rounded, and the sum of two finite values is rounded; an operand `+∞` gives `+∞`. -/
def DoubleArith.ofRound (round : ℚ → Dist) (hround : ∀ q, 0 ≤ q → 0 ≤ round q) :
    DoubleArith where
  sqDiff a b :=
    match round |a - b| with
    | none => ⊤
    | some m => round (m * m)
  add x y :=
    match x, y with
    | some a, some b => round (a + b)
    | _, _ => ⊤
  sqDiff_nonneg a b := by
    show (0 : Dist) ≤ (match round |a - b| with | none => ⊤ | some m => round (m * m))
    split
    · exact le_top
    · exact hround _ (mul_self_nonneg _)
  add_nonneg x y hx hy := by
    cases x with
    | none => exact (le_top : (0 : Dist) ≤ ⊤)
    | some a =>
      cases y with
      | none => exact (le_top : (0 : Dist) ≤ ⊤)
      | some b =>
        exact hround _ (Rat.add_nonneg (WithTop.coe_nonneg.mp hx) (WithTop.coe_nonneg.mp hy))

/-- The power `2 ^ e` of an integer exponent. -/
def pow2 (e : Int) : ℚ :=
  if 0 ≤ e then ((2 ^ e.toNat : Nat) : ℚ) else 1 / ((2 ^ (-e).toNat : Nat) : ℚ)

/-- Rounding of a non-negative rational to the nearest integer, ties to the even one. -/
def roundEven (n : ℚ) : Int :=
  let f := n.floor
  if n - f < 1 / 2 then f
  else if 1 / 2 < n - f then f + 1
  else if f % 2 = 0 then f else f + 1

/-- Search of the binary logarithm with `fuel` halvings. -/
def ilog2Aux : Nat → Nat → Nat
  | 0, _ => 0
  | fuel + 1, n => if n < 2 then 0 else ilog2Aux fuel (n / 2) + 1

/-- The binary logarithm of a positive natural number, rounded down. -/
def ilog2 (n : Nat) : Nat := ilog2Aux n n

/-- The multiple of the unit in the last place nearest to a positive rational `q`, ties to
even, in the IEEE 754 binary64 format: 53 significant bits, least exponent `-1074`. -/
def roundQ (q : ℚ) : ℚ :=
  let e0 : Int := (ilog2 q.num.toNat : Int) - (ilog2 q.den : Int)
  let e : Int := if q < pow2 e0 then e0 - 1 else e0
  let eu : Int := max (e - 52) (-1074)
  (roundEven (q / pow2 eu) : ℚ) * pow2 eu

/-- Rounding of a non-negative rational to binary64, to nearest, ties to even; a result of
`2 ^ 1024` or more is `+∞`. The distance computation rounds no negative value. -/
def roundMag (q : ℚ) : Dist :=
  if q ≤ 0 then ((0 : ℚ) : WithTop ℚ)
  else if pow2 1024 ≤ roundQ q then ⊤ else ((roundQ q : ℚ) : WithTop ℚ)

/-- The IEEE 754 binary64 arithmetic of a `double`, rounding to nearest, with `pow(x, 2.0)`
returning the correctly rounded square. -/
def binary64 : DoubleArith :=
  DoubleArith.ofRound roundMag (fun q hq => by
    have hpow : ∀ e : Int, 0 < pow2 e := by
      intro e
      unfold pow2
      split_ifs <;> positivity
    have heven : ∀ n : ℚ, 0 ≤ n → 0 ≤ roundEven n := by
      intro n hn
      have hf : 0 ≤ n.floor := Rat.le_floor.mpr (by simpa using hn)
      unfold roundEven
      simp only
      split_ifs <;> omega
    unfold roundMag
    split_ifs
    · exact le_refl _
    · exact le_top
    · refine WithTop.coe_le_coe.mpr ?_
      unfold roundQ
      simp only
      exact mul_nonneg (Int.cast_nonneg.mpr (heven _ (div_nonneg hq (hpow _).le)))
        (hpow _).le)

/-! ## `CNearestNeighbor::Set_TransferCoeff` -/

/-- The squared distance accumulated by `distance += pow(a[iDim] - b[iDim], 2.0)` over
`iDim < nDim`, starting from `0.0`, in the arithmetic `F`. -/
def sqDistance (F : DoubleArith) (nDim : Nat) (a b : CVertex) : Dist :=
  (List.range nDim).foldl
    (fun d iDim => F.add d (F.sqDiff (a.GetCoord iDim) (b.GetCoord iDim))) 0

/-- Body of the inner loop of the fluid-side pass (lines 259-271): candidate `jVertex` of
marker `markFEA` of zone `iZone_1` against vertex `iVertex` of marker `markFlow` of zone
`iZone_0`. The state is `(last_distance, nn)`. -/
def scanFEA (F : DoubleArith) (G : List CGeometry)
    (nDim iZone_0 iZone_1 markFlow markFEA iVertex : Nat) (jVertex : Nat)
    (st : Dist × Option (List Nat)) : Option (Dist × Option (List Nat)) :=
  match vertexAt G iZone_1 markFEA jVertex, vertexAt G iZone_0 markFlow iVertex with
  | some vj, some vi =>
    let jPoint := vj.GetNode
    let distance := sqDistance F nDim vj vi
    if st.1 = sentinel ∨ distance < st.1 then
      some (distance, some [iZone_1, jPoint, markFEA, jVertex])
    else some st
  | _, _ => none

/-- Body of the fluid-side vertex loop (lines 251-279). The state is `(nn, Geometry)`. -/
def flowVertex (F : DoubleArith) (nDim iZone_0 iZone_1 markFlow markFEA : Nat)
    (iVertex : Nat) (st : Option (List Nat) × List CGeometry) :
    Option (Option (List Nat) × List CGeometry) := do
  let G1 ← modVertex st.2 iZone_0 markFlow iVertex
    (fun v => some (v.SetnDonorPoints 1).Allocate_DonorInfo)
  let nFEA ← GetnVertex G1 iZone_1 markFEA
  let r ← forLoop nFEA (scanFEA F G1 nDim iZone_0 iZone_1 markFlow markFEA iVertex)
    (sentinel, st.1)
  let G2 ← modVertex G1 iZone_0 markFlow iVertex (fun v => v.SetDonorInfo 0 r.2)
  let G3 ← modVertex G2 iZone_0 markFlow iVertex (fun v => v.SetDonorCoeff 0 1)
  some (r.2, G3)

/-- The fluid-side pass (lines 251-279): every vertex of marker `markFlow` of zone `iZone_0`
searches marker `markFEA` of zone `iZone_1`. -/
def flowPass (F : DoubleArith) (nDim iZone_0 iZone_1 markFlow markFEA : Nat)
    (st : Option (List Nat) × List CGeometry) : Option (Option (List Nat) × List CGeometry) := do
  let nFlow ← GetnVertex st.2 iZone_0 markFlow
  forLoop nFlow (flowVertex F nDim iZone_0 iZone_1 markFlow markFEA) st

/-- Body of the inner loop of the structure-side pass (lines 291-303): candidate `jVertex` of
marker `markFlow` of zone `iZone_0` against vertex `iVertex` of marker `markFEA` of zone
`iZone_1`. -/
def scanFlow (F : DoubleArith) (G : List CGeometry)
    (nDim iZone_0 iZone_1 markFlow markFEA iVertex : Nat) (jVertex : Nat)
    (st : Dist × Option (List Nat)) : Option (Dist × Option (List Nat)) :=
  match vertexAt G iZone_0 markFlow jVertex, vertexAt G iZone_1 markFEA iVertex with
  | some vj, some vi =>
    let jPoint := vj.GetNode
    let distance := sqDistance F nDim vj vi
    if jVertex = 0 ∨ distance < st.1 then
      some (distance, some [iZone_0, jPoint, markFlow, jVertex])
    else some st
  | _, _ => none

/-- Body of the structure-side vertex loop (lines 283-309). -/
def feaVertex (F : DoubleArith) (nDim iZone_0 iZone_1 markFlow markFEA : Nat)
    (iVertex : Nat) (st : Option (List Nat) × List CGeometry) :
    Option (Option (List Nat) × List CGeometry) := do
  let G1 ← modVertex st.2 iZone_1 markFEA iVertex
    (fun v => some (v.SetnDonorPoints 1).Allocate_DonorInfo)
  let G2 ← modVertex G1 iZone_1 markFEA iVertex (fun v => v.SetDonorInfo 0 st.1)
  let nFlow ← GetnVertex G2 iZone_0 markFlow
  let r ← forLoop nFlow (scanFlow F G2 nDim iZone_0 iZone_1 markFlow markFEA iVertex)
    (sentinel, st.1)
  let G3 ← modVertex G2 iZone_1 markFEA iVertex (fun v => v.SetDonorInfo 0 r.2)
  let G4 ← modVertex G3 iZone_1 markFEA iVertex (fun v => v.SetDonorCoeff 0 1)
  some (r.2, G4)

/-- The structure-side pass (lines 283-309). -/
def feaPass (F : DoubleArith) (nDim iZone_0 iZone_1 markFlow markFEA : Nat)
    (st : Option (List Nat) × List CGeometry) : Option (Option (List Nat) × List CGeometry) := do
  let nFEA ← GetnVertex st.2 iZone_1 markFEA
  forLoop nFEA (feaVertex F nDim iZone_0 iZone_1 markFlow markFEA) st

/-- The marker scan of lines 237-241 and 243-247: the variable keeps its previous value
`mark` unless a marker of the zone carries the interface index `K`; the last such marker
wins. -/
def scanMarker (cfg : CConfig) (K : Nat) (mark : Option Nat) : Option Nat :=
  (List.range cfg.GetnMarker_All).foldl
    (fun mk iMarker => if cfg.GetMarker_All_FSIinterface iMarker = K then some iMarker else mk)
    mark

/-- Local variables of `Set_TransferCoeff` that live across interface indices, and the
geometry the routine writes to. `markFEA`, `markFlow` and the content of `nn` are `none`
until first assigned. -/
structure TransferState where
  /-- Marker of zone `iZone_1`. -/
  markFEA : Option Nat
  /-- Marker of zone `iZone_0`. -/
  markFlow : Option Nat
  /-- The scratch donor tuple `nn`. -/
  nn : Option (List Nat)
  /-- The geometry container. -/
  Geometry : List CGeometry
  deriving DecidableEq

/-- Body of the loop over interface indices (lines 234-310). Using a marker variable that
was never assigned is a fault; since a fault is absorbing, both variables are checked before
the two passes. -/
def pairStep (F : DoubleArith) (nDim iZone_0 iZone_1 : Nat) (cfg0 cfg1 : CConfig)
    (iMarkerFSIint : Nat) (st : TransferState) : Option TransferState := do
  let markFEA := scanMarker cfg1 (iMarkerFSIint + 1) st.markFEA
  let markFlow := scanMarker cfg0 (iMarkerFSIint + 1) st.markFlow
  let mFlow ← markFlow
  let mFEA ← markFEA
  let r1 ← flowPass F nDim iZone_0 iZone_1 mFlow mFEA (st.nn, st.Geometry)
  let r2 ← feaPass F nDim iZone_0 iZone_1 mFlow mFEA r1
  some ⟨markFEA, markFlow, r2.1, r2.2⟩

/-- `CNearestNeighbor::Set_TransferCoeff(Zones, config)` acting on the geometry container. -/
def CNearestNeighbor.Set_TransferCoeff (F : DoubleArith) (Geometry : List CGeometry)
    (Zones : List Nat) (config : List CConfig) : Option (List CGeometry) := do
  let g0 ← Geometry[← Zones[0]?]?
  let nDim := g0.nDim
  let iZone_0 ← Zones[0]?
  let iZone_1 ← Zones[1]?
  let cfg0 ← config[iZone_0]?
  let nMarkerFSIint := cfg0.GetMarker_n_FSIinterface / 2
  let cfg1 ← config[iZone_1]?
  let st ← forLoop nMarkerFSIint (pairStep F nDim iZone_0 iZone_1 cfg0 cfg1)
    ⟨none, none, none, Geometry⟩
  some st.Geometry

/-! ## The data store and `CInterpolator::Interpolate_Data` -/

/-- The member `double ***Data`: `none` is the `NULL` pointer; otherwise a table of zone
slots, each slot either never assigned (`none`) or a table of points, each point a row of
`nVar` values. -/
abbrev DataStore := Option (List (Option (List (List ℚ))))

/-- The read `Data[iZone][iPoint][iVar]`. -/
def readData (Data : DataStore) (iZone iPoint iVar : Nat) : Option ℚ :=
  match Data with
  | none => none
  | some T =>
    match T[iZone]? with
    | some (some pts) =>
      match pts[iPoint]? with
      | some row => row[iVar]?
      | none => none
    | _ => none

/-- The write `Data[iZone][iPoint][iVar] = val`. -/
def writeData (Data : DataStore) (iZone iPoint iVar : Nat) (val : ℚ) : Option DataStore :=
  match Data with
  | none => none
  | some T =>
    match T[iZone]? with
    | some (some pts) =>
      match pts[iPoint]? with
      | some row =>
        if iVar < row.length then
          some (some (T.set iZone (some (pts.set iPoint (row.set iVar val)))))
        else none
      | none => none
    | _ => none

/-- Body of the loop over donors (lines 100-111) for the vertex `iVertex` of marker
`iMarker`, whose point is `iPoint`. The zone id is unpacked into an `unsigned int`, the
marker into an `unsigned short`. The product and the sum of line 109 are taken in exact
arithmetic, without the rounding of a `double`. -/
def donorData (G : List CGeometry) (nVar iZone iMarker iVertex iPoint : Nat) (jDonor : Nat)
    (Data : DataStore) : Option DataStore :=
  match vertexAt G iZone iMarker iVertex with
  | none => none
  | some v =>
    match v.GetDonorInfo jDonor 0, v.GetDonorInfo jDonor 1, v.GetDonorInfo jDonor 2,
      v.GetDonorInfo jDonor 3, v.GetDonorCoeff jDonor with
    | some info0, some jPoint, some _, some _, some weight =>
      let iZone_1 := info0 % 2 ^ 32
      forLoop nVar
        (fun iVar D =>
          match readData D iZone iPoint iVar, readData D iZone_1 jPoint iVar with
          | some a, some b => writeData D iZone iPoint iVar (a + b * weight)
          | _, _ => none)
        Data
    | _, _, _, _, _ => none

/-- Body of the loop over the vertices of a marker (lines 93-112). -/
def dataVertex (G : List CGeometry) (nVar iZone iMarker : Nat) (iVertex : Nat)
    (Data : DataStore) : Option DataStore :=
  match vertexAt G iZone iMarker iVertex with
  | none => none
  | some v =>
    let iPoint := v.GetNode
    match forLoop nVar (fun iVar D => writeData D iZone iPoint iVar 0) Data with
    | none => none
    | some D1 => forLoop v.GetnDonorPoints (donorData G nVar iZone iMarker iVertex iPoint) D1

/-- Body of the loop over the markers of the zone (lines 91-114). `YES` is the constant of
the option header that the interface index of the marker is compared with. -/
def dataMarker (YES : Nat) (G : List CGeometry) (nVar : Nat) (cfg : CConfig) (iZone : Nat)
    (iMarker : Nat) (Data : DataStore) : Option DataStore :=
  if cfg.GetMarker_All_FSIinterface iMarker = YES then
    match GetnVertex G iZone iMarker with
    | none => none
    | some n => forLoop n (dataVertex G nVar iZone iMarker) Data
  else some Data

/-- `CInterpolator::Interpolate_Data(iZone, config)` acting on the member `Data`. -/
def CInterpolator.Interpolate_Data (YES : Nat) (G : List CGeometry) (nVar : Nat) (Data : DataStore)
    (iZone : Nat) (config : List CConfig) : Option DataStore :=
  match config[iZone]? with
  | none => none
  | some cfg => forLoop cfg.GetnMarker_All (dataMarker YES G nVar cfg iZone) Data

/-! ## `CInterpolator::Interpolate_Deformation` -/

/-- The write `buf[i] = x` through a `double*`; `none` is the `NULL` pointer. -/
def bufWrite (buf : Option (List ℚ)) (i : Nat) (x : ℚ) : Option (Option (List ℚ)) :=
  match buf with
  | none => none
  | some b => if i < b.length then some (some (b.set i x)) else none

/-- The read `buf[i]` through a `double*`. -/
def bufRead (buf : Option (List ℚ)) (i : Nat) : Option ℚ :=
  match buf with
  | none => none
  | some b => b[i]?

/-- The update `buf[i] += x`. -/
def bufAdd (buf : Option (List ℚ)) (i : Nat) (x : ℚ) : Option (Option (List ℚ)) :=
  match bufRead buf i with
  | none => none
  | some a => bufWrite buf i (a + x)

/-- The local pointers `NewVarCoord` and `distance` of `Interpolate_Deformation` and the
geometry the routine writes to. -/
structure DeformState where
  /-- The pointer `NewVarCoord`. -/
  NewVarCoord : Option (List ℚ)
  /-- The pointer `distance`. -/
  distance : Option (List ℚ)
  /-- The geometry container. -/
  Geometry : List CGeometry
  deriving DecidableEq

/-- The loop of lines 146-149 for one donor: `NewVarCoord[iDim] += VarCoord[iDim]*weight`
and `distance[iDim] = (coordinate of the vertex) - (coordinate of the donor point)`. The
state is `(NewVarCoord, distance)`. -/
def leverStep (v : CVertex) (VarCoord : List ℚ) (weight : ℚ) (donorPoint : Option CPoint)
    (iDim : Nat) (s : Option (List ℚ) × Option (List ℚ)) :
    Option (Option (List ℚ) × Option (List ℚ)) :=
  match bufAdd s.1 iDim (VarCoord.getD iDim 0 * weight), donorPoint with
  | some n1, some pj =>
    match bufWrite s.2 iDim (v.GetCoord iDim - pj.GetCoord iDim) with
    | some d1 => some (n1, d1)
    | none => none
  | _, _ => none

/-- The rotation term for `nDim == 2` (lines 151-154). -/
def rotation2 (VarRot : List ℚ) (weight : ℚ) (s : Option (List ℚ) × Option (List ℚ)) :
    Option (Option (List ℚ)) :=
  match bufRead s.2 1, bufRead s.2 0 with
  | some d1, some d0 =>
    match bufAdd s.1 0 (weight * (-d1 * VarRot.getD 2 0)) with
    | some n1 => bufAdd n1 1 (weight * (d0 * VarRot.getD 2 0))
    | none => none
  | _, _ => none

/-- The rotation term for `nDim == 3` (lines 155-159). -/
def rotation3 (VarRot : List ℚ) (weight : ℚ) (s : Option (List ℚ) × Option (List ℚ)) :
    Option (Option (List ℚ)) :=
  match bufRead s.2 0, bufRead s.2 1, bufRead s.2 2 with
  | some d0, some d1, some d2 =>
    match bufAdd s.1 0 (weight * (d2 * VarRot.getD 1 0 - d1 * VarRot.getD 2 0)) with
    | some n1 =>
      match bufAdd n1 1 (weight * (d0 * VarRot.getD 2 0 - d2 * VarRot.getD 0 0)) with
      | some n2 => bufAdd n2 2 (weight * (d1 * VarRot.getD 0 0 - d0 * VarRot.getD 1 0))
      | none => none
    | none => none
  | _, _, _ => none

/-- Body of the loop over donors (lines 134-160). The zone id is unpacked into an
`unsigned int`, the marker into an `unsigned short`. -/
def deformDonor (nDim iZone iMarker iVertex : Nat) (jDonor : Nat) (st : DeformState) :
    Option DeformState :=
  match vertexAt st.Geometry iZone iMarker iVertex with
  | none => none
  | some v =>
    match v.GetDonorInfo jDonor 0, v.GetDonorInfo jDonor 1, v.GetDonorInfo jDonor 2,
      v.GetDonorInfo jDonor 3, v.GetDonorCoeff jDonor with
    | some info0, some jPoint, some info2, some jVertex, some weight =>
      let iZone_1 := info0 % 2 ^ 32
      let jMarker := info2 % 2 ^ 16
      match vertexAt st.Geometry iZone_1 jMarker jVertex with
      | none => none
      | some dv =>
        match forLoop nDim (fun iDim d => bufWrite d iDim 0) st.distance with
        | none => none
        | some d0 =>
          match forLoop nDim
            (leverStep v dv.VarCoord weight
              ((st.Geometry[iZone_1]?).bind (fun g => g.node[jPoint]?)))
            (st.NewVarCoord, d0) with
          | none => none
          | some s1 =>
            match (if nDim = 2 then rotation2 dv.VarRot weight s1 else some s1.1) with
            | none => none
            | some n2 =>
              match (if nDim = 3 then rotation3 dv.VarRot weight (n2, s1.2) else some n2) with
              | none => none
              | some n3 => some { st with NewVarCoord := n3, distance := s1.2 }
    | _, _, _, _, _ => none

/-- The call `SetVarCoord(NewVarCoord)` of line 162, which copies `nDim` components from
the buffer. -/
def storeVarCoord (nDim : Nat) (NewVarCoord : Option (List ℚ)) (v : CVertex) :
    Option CVertex :=
  match NewVarCoord with
  | none => if nDim = 0 then some v else none
  | some b => if nDim ≤ b.length then some (v.SetVarCoord nDim b) else none

/-- Body of the loop over the vertices of a marker (lines 129-163). -/
def deformVertex (nDim iZone iMarker : Nat) (iVertex : Nat) (st : DeformState) :
    Option DeformState :=
  match vertexAt st.Geometry iZone iMarker iVertex with
  | none => none
  | some v =>
    match forLoop nDim (fun iDim b => bufWrite b iDim 0) st.NewVarCoord with
    | none => none
    | some n0 =>
      match forLoop v.GetnDonorPoints (deformDonor nDim iZone iMarker iVertex)
        { st with NewVarCoord := n0 } with
      | none => none
      | some st1 =>
        match modVertex st1.Geometry iZone iMarker iVertex
          (storeVarCoord nDim st1.NewVarCoord) with
        | none => none
        | some G1 => some { st1 with Geometry := G1 }

/-- Body of the loop over the markers of the zone (lines 127-165). -/
def deformMarker (YES : Nat) (nDim : Nat) (cfg : CConfig) (iZone : Nat) (iMarker : Nat)
    (st : DeformState) : Option DeformState :=
  if cfg.GetMarker_All_FSIinterface iMarker = YES then
    match GetnVertex st.Geometry iZone iMarker with
    | none => none
    | some n => forLoop n (deformVertex nDim iZone iMarker) st
  else some st

/-- `CInterpolator::Interpolate_Deformation(iZone, config)` acting on the geometry
container. The pointers `NewVarCoord` and `distance` are initialised to `NULL` (line 123) and
the routine does not assign them. -/
def CInterpolator.Interpolate_Deformation (YES : Nat) (G : List CGeometry) (iZone : Nat)
    (config : List CConfig) : Option (List CGeometry) :=
  match G[iZone]? with
  | none => none
  | some g =>
    let nDim := g.nDim
    match config[iZone]? with
    | none => none
    | some cfg =>
      match forLoop cfg.GetnMarker_All (deformMarker YES nDim cfg iZone)
        { NewVarCoord := none, distance := none, Geometry := G } with
      | none => none
      | some st => some st.Geometry

/-! ## The object `CInterpolator`: construction, `InitializeData`, `GetData`, `SetData` -/

/-- The members of `CInterpolator`. `nVar` is not assigned by the constructor. -/
structure CInterpolator where
  /-- The geometry container. -/
  Geometry : List CGeometry
  /-- The member `nZone`. -/
  nZone : Nat
  /-- The member `nVar`, `none` until `InitializeData` assigns it. -/
  nVar : Option Nat
  /-- The member `Data`. -/
  Data : DataStore
  deriving DecidableEq

namespace CInterpolator

/-- The constructor `CInterpolator(geometry_container, config, Zones, val_nZone)` (lines
41-56): it stores the geometry container and the number of zones and sets `Data = NULL`. -/
def construct (geometry_container : List CGeometry) (val_nZone : Nat) : CInterpolator :=
  { Geometry := geometry_container, nZone := val_nZone, nVar := none, Data := none }

/-- Body of the loop over `it` of `InitializeData` (lines 66-73), acting on the outer table
allocated by `new double**[nZone]`: the slot of zone `Zones[it]` receives one row of `nVar`
zeros for each point of the zone. The slot is addressed by the zone id; an id outside the
table is a fault. -/
def initZone (G : List CGeometry) (Zones : List Nat) (nVar : Nat) (it : Nat)
    (T : List (Option (List (List ℚ)))) : Option (List (Option (List (List ℚ)))) :=
  match Zones[it]? with
  | none => none
  | some iZone =>
    match G[iZone]? with
    | none => none
    | some g =>
      if iZone < T.length then
        some (T.set iZone (some (List.replicate g.GetnPoint (List.replicate nVar 0))))
      else none

/-- `CInterpolator::InitializeData(Zones, val_nVar)` (lines 58-79). The counter `it` is an
`unsigned short` compared with the `unsigned int` `nZone`: from `nZone = 65536` on it wraps
and the loop does not end, so that the routine has no result. -/
def InitializeData (self : CInterpolator) (Zones : List Nat) (val_nVar : Nat) :
    Option CInterpolator :=
  if 0 < val_nVar then
    if self.nZone < 2 ^ 16 then
      match forLoop self.nZone (initZone self.Geometry Zones val_nVar)
        (List.replicate self.nZone none) with
      | none => none
      | some T => some { self with nVar := some val_nVar, Data := some T }
    else none
  else some { self with nVar := some val_nVar, Data := none }

/-- `CInterpolator::GetData(iZone, iPoint, iVar)` (lines 172-177). -/
def GetData (self : CInterpolator) (iZone iPoint iVar : Nat) : Option ℚ :=
  match self.Data with
  | none => some 0
  | some T => readData (some T) iZone iPoint iVar

/-- The overload `CInterpolator::GetData(iZone, iPoint)` (lines 179-184), which returns the
pointer `Data[iZone][iPoint]`, here the row it points to, or `NULL`, here `none`. -/
def GetData_vec (self : CInterpolator) (iZone iPoint : Nat) : Option (Option (List ℚ)) :=
  match self.Data with
  | none => some none
  | some T =>
    match T[iZone]? with
    | some (some pts) =>
      match pts[iPoint]? with
      | some row => some (some row)
      | none => none
    | _ => none

/-- `CInterpolator::SetData(iZone, iPoint, iVar, val)` (lines 186-191). The second component
of the result tells whether the message "CInterpolator object has not been initialized" was
written to `cout`. -/
def SetData (self : CInterpolator) (iZone iPoint iVar : Nat) (val : ℚ) :
    Option (CInterpolator × Bool) :=
  match self.Data with
  | none => some (self, true)
  | some T =>
    match writeData (some T) iZone iPoint iVar val with
    | none => none
    | some D => some ({ self with Data := D }, false)

end CInterpolator

/-! ## `CConsistConserve::Set_TransferCoeff` -/

/-- The conversion of a `long` to the `unsigned long` variable `ivtx`. -/
def toUnsignedLong (x : Int) : Nat := (x % 2 ^ 64).toNat

/-- Body of the first loop over the nodes of the donor element (lines 413-418): the vertex
of marker `markFEA` at node `it` of element `donor_elem` of zone `iZone_1` counts one more
donor. -/
def countDonor (iZone_1 markFEA donor_elem : Nat) (it : Nat) (G : List CGeometry) :
    Option (List CGeometry) :=
  match G[iZone_1]? with
  | none => none
  | some g1 =>
    match g1.elem[donor_elem]? with
    | none => none
    | some nodes =>
      match nodes[it]? with
      | none => none
      | some inode =>
        match g1.node[inode]? with
        | none => none
        | some p =>
          let ivtx := toUnsignedLong (p.GetVertex markFEA)
          modVertex G iZone_1 markFEA ivtx (fun v => some v.IncrementnDonor)

/-- Body of the second loop over the nodes of the donor element (lines 421-426), which only
reads `inode` and `ivtx`: the two calls that would store the donor are commented out. -/
def readDonor (iZone_1 donor_elem : Nat) (it : Nat) (G : List CGeometry) :
    Option (List CGeometry) :=
  match G[iZone_1]? with
  | none => none
  | some g1 =>
    match g1.elem[donor_elem]? with
    | none => none
    | some nodes =>
      match nodes[it]? with
      | none => none
      | some inode =>
        match g1.node[inode]? with
        | none => none
        | some _ => some G

/-- Body of the fluid-side vertex loop (lines 378-427). The search of lines 385-397 is the
one of the nearest-neighbour builder. The loop over the elements of the nearest point (lines
400-406) reads them and leaves `donor_elem = 0`. The bounds of the two loops over the donor
points are the donor count of the vertex, set to the number `n` of nodes of the element; if
the first loop changes that count (the vertex is itself a vertex of the element), the loop
goes on to read node `n` of the element, a fault. -/
def ccFlowVertex (F : DoubleArith) (nDim iZone_0 iZone_1 markFlow markFEA : Nat)
    (iVertex : Nat) (st : Option (List Nat) × List CGeometry) :
    Option (Option (List Nat) × List CGeometry) :=
  match vertexAt st.2 iZone_0 markFlow iVertex, GetnVertex st.2 iZone_1 markFEA with
  | some _, some nFEA =>
    match forLoop nFEA (scanFEA F st.2 nDim iZone_0 iZone_1 markFlow markFEA iVertex)
      (sentinel, st.1) with
    | none => none
    | some r =>
      let donor_elem := 0
      match r.2, st.2[iZone_1]? with
      | some nn, some g1 =>
        match nn[1]?, g1.elem[donor_elem]? with
        | some jPoint, some nodes =>
          match g1.node[jPoint]? with
          | none => none
          | some _ =>
            let n := nodes.length
            match modVertex st.2 iZone_0 markFlow iVertex
              (fun v => some (v.SetnDonorPoints n).Allocate_DonorInfo) with
            | none => none
            | some G1 =>
              match forLoop n (countDonor iZone_1 markFEA donor_elem) G1 with
              | none => none
              | some G2 =>
                match vertexAt G2 iZone_0 markFlow iVertex with
                | none => none
                | some v2 =>
                  if v2.GetnDonorPoints = n then
                    match forLoop n (readDonor iZone_1 donor_elem) G2 with
                    | none => none
                    | some G3 => some (r.2, G3)
                  else none
        | _, _ => none
      | _, _ => none
  | _, _ => none

/-- Body of the structure-side vertex loop (lines 431-442): the donor tables of the vertex
are allocated; the loops over the fluid-side vertices and their donors have an empty body. -/
def ccFeaVertex (iZone_0 iZone_1 markFlow markFEA : Nat) (jVertex : Nat)
    (G : List CGeometry) : Option (List CGeometry) :=
  match modVertex G iZone_1 markFEA jVertex (fun v => some v.Allocate_DonorInfo) with
  | none => none
  | some G1 =>
    match GetnVertex G1 iZone_0 markFlow with
    | none => none
    | some _ => some G1

/-- Body of the loop over interface indices (lines 350-443). -/
def ccPairStep (F : DoubleArith) (nDim iZone_0 iZone_1 : Nat) (cfg0 cfg1 : CConfig)
    (iMarkerFSIint : Nat) (st : TransferState) : Option TransferState :=
  let markFEA := scanMarker cfg1 (iMarkerFSIint + 1) st.markFEA
  let markFlow := scanMarker cfg0 (iMarkerFSIint + 1) st.markFlow
  match markFlow, markFEA with
  | some mFlow, some mFEA =>
    match GetnVertex st.Geometry iZone_0 mFlow with
    | none => none
    | some nFlow =>
      match forLoop nFlow (ccFlowVertex F nDim iZone_0 iZone_1 mFlow mFEA)
        (st.nn, st.Geometry) with
      | none => none
      | some r1 =>
        match GetnVertex r1.2 iZone_1 mFEA with
        | none => none
        | some nFEA =>
          match forLoop nFEA (ccFeaVertex iZone_0 iZone_1 mFlow mFEA) r1.2 with
          | none => none
          | some G2 => some ⟨markFEA, markFlow, r1.1, G2⟩
  | _, _ => none

/-- `CConsistConserve::Set_TransferCoeff(Zones, config)` acting on the geometry container. -/
def CConsistConserve.Set_TransferCoeff (F : DoubleArith) (Geometry : List CGeometry)
    (Zones : List Nat) (config : List CConfig) : Option (List CGeometry) :=
  match Zones[0]?, Zones[1]? with
  | some iZone_0, some iZone_1 =>
    match Geometry[iZone_0]?, config[iZone_0]?, config[iZone_1]? with
    | some g0, some cfg0, some cfg1 =>
      match forLoop (cfg0.GetMarker_n_FSIinterface / 2)
        (ccPairStep F g0.nDim iZone_0 iZone_1 cfg0 cfg1) ⟨none, none, none, Geometry⟩ with
      | none => none
      | some st => some st.Geometry
    | _, _, _ => none
  | _, _ => none

/-! ## Predicates used in the statements -/

/-- Two geometry containers carry the same mesh: the same vertex counts and, vertex by
vertex, the same global point and the same coordinates. -/
def SameMesh (G G' : List CGeometry) : Prop :=
  (∀ z m, GetnVertex G' z m = GetnVertex G z m) ∧
  ∀ z m i, Option.map (fun v : CVertex => (v.Node, v.CartCoord)) (vertexAt G' z m i) =
    Option.map (fun v : CVertex => (v.Node, v.CartCoord)) (vertexAt G z m i)

/-- Vertex `vj`, the candidate number `j` of marker `mc` of zone `zc`, is the first nearest
candidate to `target` in the squared distances computed in the arithmetic `F`: no candidate
is closer and every earlier candidate is farther. -/
def FirstNearest (F : DoubleArith) (G : List CGeometry) (nDim zc mc : Nat) (target : CVertex)
    (j : Nat) (vj : CVertex) : Prop :=
  vertexAt G zc mc j = some vj ∧
  (∀ k vk, vertexAt G zc mc k = some vk →
    sqDistance F nDim vj target ≤ sqDistance F nDim vk target) ∧
  (∀ k vk, k < j → vertexAt G zc mc k = some vk →
    sqDistance F nDim vj target < sqDistance F nDim vk target)

/-- The record a nearest-neighbour pass leaves on a vertex: one donor, the tuple `nn`, the
weight `1.0`. -/
def SoleDonor (v : CVertex) (nn : Option (List Nat)) : Prop :=
  v.nDonor_Points = 1 ∧ v.Donor_Info = [nn] ∧ v.Donor_Coeff = [some 1]

/-- What the fluid-side pass leaves on vertex `i` of its marker: a sole donor, which is the
first nearest vertex of the structure-side marker when that marker is not empty and the stale
tuple `nn` otherwise. -/
def FlowRecord (F : DoubleArith) (G : List CGeometry) (nDim z0 z1 mFlow mFEA nFEA : Nat)
    (nn : Option (List Nat)) (i : Nat) (v' : CVertex) : Prop :=
  ∃ rec, SoleDonor v' rec ∧ (nFEA = 0 → rec = nn) ∧
    (0 < nFEA → ∃ vi j vj, vertexAt G z0 mFlow i = some vi ∧
      FirstNearest F G nDim z1 mFEA vi j vj ∧ rec = some [z1, vj.Node, mFEA, j])

/-- What the structure-side pass leaves on vertex `i` of its marker. -/
def FeaRecord (F : DoubleArith) (G : List CGeometry) (nDim z0 z1 mFlow mFEA nFlow : Nat)
    (nn : Option (List Nat)) (i : Nat) (v' : CVertex) : Prop :=
  ∃ rec, SoleDonor v' rec ∧ (nFlow = 0 → rec = nn) ∧
    (0 < nFlow → ∃ vi j vj, vertexAt G z1 mFEA i = some vi ∧
      FirstNearest F G nDim z0 mFlow vi j vj ∧ rec = some [z0, vj.Node, mFlow, j])

/-- The value of a marker variable (`markFlow` for the configuration of zone `Zones[0]`,
`markFEA` for that of zone `Zones[1]`) once the interface indices `1, ..., K` have been
scanned; `none` as long as no scan has assigned it. -/
def markAt (cfg : CConfig) : Nat → Option Nat
  | 0 => none
  | K + 1 => scanMarker cfg (K + 1) (markAt cfg K)

/-- Vertex `i` of marker `m` of zone `z` carries exactly one donor, with weight `1.0`. -/
def Sole (G : List CGeometry) (z m i : Nat) : Prop :=
  ∃ v rec, vertexAt G z m i = some v ∧ SoleDonor v rec

/-- The markers paired for every interface index `1, ..., n` exist in the two meshes: the
condition under which the loop over interface indices runs without fault. -/
def PairedMarkersExist (G : List CGeometry) (z0 z1 : Nat) (cfg0 cfg1 : CConfig) (n : Nat) :
    Prop :=
  ∀ K, 1 ≤ K → K ≤ n → ∃ mFlow mFEA nFlow nFEA, markAt cfg0 K = some mFlow ∧
    markAt cfg1 K = some mFEA ∧ GetnVertex G z0 mFlow = some nFlow ∧
    GetnVertex G z1 mFEA = some nFEA

/-- The layout of the data store: which zone slots are assigned, how many points each has and
how long each row is. -/
def shapeOf (Data : DataStore) : Option (List (Option (List Nat))) :=
  Data.map (fun T => T.map (fun slot => slot.map (fun pts => pts.map List.length)))

/-- The zone id of donor `j` of a vertex, as unpacked into an `unsigned int` by the transfer
routines. -/
def donorZone (v : CVertex) (j : Nat) : Nat := (v.GetDonorInfo j 0).getD 0 % 2 ^ 32

/-- The global point of donor `j` of a vertex. -/
def donorPoint (v : CVertex) (j : Nat) : Nat := (v.GetDonorInfo j 1).getD 0

/-- The weight of donor `j` of a vertex. -/
def donorWeight (v : CVertex) (j : Nat) : ℚ := (v.GetDonorCoeff j).getD 0

/-- Every donor slot of the vertex was written: the four fields of the tuple and the
weight. -/
def DonorsSet (v : CVertex) : Prop :=
  ∀ j, j < v.GetnDonorPoints → (∀ it, it < 4 → (v.GetDonorInfo j it).isSome) ∧
    (v.GetDonorCoeff j).isSome

/-- The entries that `Interpolate_Data` touches for a vertex `v` of zone `z` exist in the
data store: the first `nVar` entries of the row of the vertex's point and of the row of each
donor point; and the donor slots of the vertex were written. -/
def DataReady (nVar : Nat) (Data : DataStore) (z : Nat) (v : CVertex) : Prop :=
  DonorsSet v ∧ (∀ c, c < nVar → (readData Data z v.GetNode c).isSome) ∧
    ∀ j, j < v.GetnDonorPoints → ∀ c, c < nVar →
      (readData Data (donorZone v j) (donorPoint v j) c).isSome

/-- Vertex `i` of marker `m` of zone `z` is visited by `Interpolate_Data` and
`Interpolate_Deformation`: the marker is one of the zone's markers and its interface index
equals `YES`. -/
def Processed (YES : Nat) (G : List CGeometry) (cfg : CConfig) (z m i : Nat) (v : CVertex) :
    Prop :=
  m < cfg.GetnMarker_All ∧ cfg.GetMarker_All_FSIinterface m = YES ∧ vertexAt G z m i = some v

/-- The condition under which `Interpolate_Data` runs without fault: every marker whose
interface index equals `YES` exists in the mesh, and the entries touched for each of its
vertices exist. -/
def TransferReady (YES : Nat) (G : List CGeometry) (nVar : Nat) (Data : DataStore)
    (cfg : CConfig) (z : Nat) : Prop :=
  (∀ m, m < cfg.GetnMarker_All → cfg.GetMarker_All_FSIinterface m = YES →
    (GetnVertex G z m).isSome) ∧
  ∀ m i v, Processed YES G cfg z m i v → DataReady nVar Data z v

/-- Vertex `i` of marker `m` comes before vertex `i'` of marker `m'` in the order in which
the transfer routines visit the vertices of a zone. -/
def Later (m i m' i' : Nat) : Prop := m < m' ∨ (m = m' ∧ i < i')

/-- No vertex visited after vertex `i` of marker `m` shares its point. -/
def LastAtPoint (YES : Nat) (G : List CGeometry) (cfg : CConfig) (z m i : Nat) (v : CVertex) :
    Prop :=
  ∀ m' i' v', Processed YES G cfg z m' i' v' → Later m i m' i' → v'.GetNode ≠ v.GetNode

/-- The weighted sum over the donors of `v` of the donor entries of variable `c` in the
store `D0`. -/
def donorSum (D0 : DataStore) (v : CVertex) (c : Nat) : ℚ :=
  ∑ j in Finset.range v.GetnDonorPoints,
    donorWeight v j * (readData D0 (donorZone v j) (donorPoint v j) c).getD 0

/-- State of the data store when `Interpolate_Data`, started from `D0`, is about to visit
vertex `I` of marker `M`: the layout and the other zones are as in `D0`; an entry of zone
`z` not written by a vertex visited so far is as in `D0`; a vertex visited so far whose
donors lie in other zones, and whose point no later vertex shares, holds its donor sum. -/
def DataInv (YES : Nat) (G : List CGeometry) (nVar : Nat) (D0 : DataStore) (cfg : CConfig)
    (z M I : Nat) (D : DataStore) : Prop :=
  shapeOf D = shapeOf D0 ∧
  (∀ z' p c, z' ≠ z → readData D z' p c = readData D0 z' p c) ∧
  (∀ p c, (∀ m i v, Processed YES G cfg z m i v → Later m i M I →
      ¬ (v.GetNode = p ∧ c < nVar)) → readData D z p c = readData D0 z p c) ∧
  ∀ m i v, Processed YES G cfg z m i v → Later m i M I →
    (∀ j, j < v.GetnDonorPoints → donorZone v j ≠ z) → LastAtPoint YES G cfg z m i v →
    ∀ c, c < nVar → readData D z v.GetNode c = some (donorSum D0 v c)

/-- `DataReady` is a finite check. -/
instance instDecidableDataReady (nVar : Nat) (Data : DataStore) (z : Nat) (v : CVertex) :
    Decidable (DataReady nVar Data z v) := by
  unfold DataReady DonorsSet
  infer_instance

/-- The marker of donor `j` of a vertex, as unpacked into an `unsigned short` by
`Interpolate_Deformation`. -/
def donorMarker (v : CVertex) (j : Nat) : Nat := (v.GetDonorInfo j 2).getD 0 % 2 ^ 16

/-- The vertex index of donor `j` of a vertex. -/
def donorVertex (v : CVertex) (j : Nat) : Nat := (v.GetDonorInfo j 3).getD 0

/-- The rotation-induced displacement for the rotation vector `rot` and the lever arm `d`:
`(-d.y * rot.z, d.x * rot.z)` in two dimensions, the cross product `rot × d` in three. -/
def rotationTerm (nDim : Nat) (rot : List ℚ) (d : Nat → ℚ) (iDim : Nat) : ℚ :=
  if nDim = 2 then
    if iDim = 0 then -d 1 * rot.getD 2 0 else if iDim = 1 then d 0 * rot.getD 2 0 else 0
  else if nDim = 3 then
    if iDim = 0 then rot.getD 1 0 * d 2 - rot.getD 2 0 * d 1
    else if iDim = 1 then rot.getD 2 0 * d 0 - rot.getD 0 0 * d 2
    else if iDim = 2 then rot.getD 0 0 * d 1 - rot.getD 1 0 * d 0
    else 0
  else 0

/-- The contribution of donor `j` to component `iDim` of the displacement of `v`, before
weighting: the donor vertex's displacement plus the rotation term for the lever arm from the
donor point to `v`. -/
def donorMotion (G : List CGeometry) (nDim : Nat) (v : CVertex) (j iDim : Nat) : ℚ :=
  match vertexAt G (donorZone v j) (donorMarker v j) (donorVertex v j),
    (G[donorZone v j]?).bind (fun g => g.node[donorPoint v j]?) with
  | some dv, some pj =>
    dv.VarCoord.getD iDim 0 +
      rotationTerm nDim dv.VarRot (fun k => v.GetCoord k - pj.GetCoord k) iDim
  | _, _ => 0

/-- The donor vertices and donor points that `Interpolate_Deformation` reads for `v` exist in
the geometry, and the donor slots of `v` were written. -/
def DeformReady (G : List CGeometry) (v : CVertex) : Prop :=
  DonorsSet v ∧ ∀ j, j < v.GetnDonorPoints →
    (vertexAt G (donorZone v j) (donorMarker v j) (donorVertex v j)).isSome ∧
    ((G[donorZone v j]?).bind (fun g => g.node[donorPoint v j]?)).isSome

/-- The donor record of vertex `v` is consistent with marker `mOpp` of zone `zOpp`: `v` has
one donor tuple, of weight `1.0`, whose field 0 is `zOpp`, whose field 2 is `mOpp`, whose
field 3 is a vertex index `j` below the vertex count of that marker, and whose field 1 is the
global point `GetNode()` of vertex `j` of that marker. -/
def WellFormedRecord (G : List CGeometry) (zOpp mOpp : Nat) (v : CVertex) : Prop :=
  ∃ n j vj, GetnVertex G zOpp mOpp = some n ∧ j < n ∧ vertexAt G zOpp mOpp j = some vj ∧
    SoleDonor v (some [zOpp, vj.GetNode, mOpp, j])


/-- The first-minimum argmin of a list of distances, in the words of the specification: the
first index whose entry is not above any entry of the list; `none` for the empty list. -/
def firstArgmin (ds : List Dist) : Option Nat :=
  (List.range ds.length).find? (fun j => ds.all (fun d => decide (ds.getD j 0 ≤ d)))

/-- The squared distances, computed in the arithmetic `F`, from the vertices of marker `mc`
of zone `zc`, in their order, to the vertex `target`. -/
def candidateDistances (F : DoubleArith) (G : List CGeometry) (nDim zc mc : Nat)
    (target : CVertex) : List Dist :=
  match G[zc]? with
  | none => []
  | some g =>
    match g.vertex[mc]? with
    | none => []
    | some vs => vs.map (fun vj => sqDistance F nDim vj target)

/-- The exact squared Euclidean distance of two vertices over `nDim` coordinates, that is
the sum of squares without rounding. -/
def exactSqDistance (nDim : Nat) (a b : CVertex) : ℚ :=
  ((List.range nDim).map (fun iDim => (a.GetCoord iDim - b.GetCoord iDim) ^ 2)).sum

/-- The exact squared distances from the vertices of marker `mc` of zone `zc`, in their
order, to the vertex `target`. -/
def exactDistances (G : List CGeometry) (nDim zc mc : Nat) (target : CVertex) : List Dist :=
  match G[zc]? with
  | none => []
  | some g =>
    match g.vertex[mc]? with
    | none => []
    | some vs => vs.map (fun vj => ((exactSqDistance nDim vj target : ℚ) : WithTop ℚ))


/-! ## The synthetic interface of the specification

Zone 0 carries the interface points `(0,0)` and `(2,0)`, zone 1 the interface point `(1,0)`;
each zone has one marker, with interface index `1`. -/

/-- A vertex at the given point and coordinates, without displacement, rotation or donors. -/
def mkVertex (node : Nat) (coord : List ℚ) : CVertex :=
  { Node := node, CartCoord := coord, VarCoord := [0, 0, 0], VarRot := [0, 0, 0] }

/-- Zone 0 of the synthetic interface. -/
def meshA : CGeometry :=
  { nDim := 2, node := [{ Coord := [0, 0] }, { Coord := [2, 0] }],
    vertex := [[mkVertex 0 [0, 0], mkVertex 1 [2, 0]]] }

/-- Zone 1 of the synthetic interface. -/
def meshB : CGeometry :=
  { nDim := 2, node := [{ Coord := [1, 0] }], vertex := [[mkVertex 0 [1, 0]]] }

/-- Configuration of either zone of the synthetic interface: one marker, interface index 1. -/
def cfgOne : CConfig := { Marker_All_FSIinterface := [1], Marker_n_FSIinterface := 2 }

/-! ## An interface with two pairings, the second with an empty structure-side marker -/

/-- Zone 0: marker 0 (interface index 1) with the vertex `(0,0)`, marker 1 (interface
index 2) with the vertex `(5,0)`. -/
def meshTwoA : CGeometry :=
  { nDim := 2, node := [{ Coord := [0, 0] }, { Coord := [5, 0] }],
    vertex := [[mkVertex 0 [0, 0]], [mkVertex 1 [5, 0]]] }

/-- Zone 1: marker 0 (interface index 1) with the vertex `(1,0)`, marker 1 (interface
index 2) without vertices. -/
def meshTwoB : CGeometry :=
  { nDim := 2, node := [{ Coord := [1, 0] }], vertex := [[mkVertex 0 [1, 0]], []] }

/-- Configuration of either zone: markers 0 and 1 with interface indices 1 and 2. -/
def cfgTwo : CConfig := { Marker_All_FSIinterface := [1, 2], Marker_n_FSIinterface := 4 }

/-! ## Interfaces with a given donor map -/

/-- The vertex `v` with the single donor tuple `rec` of weight `w`. -/
def withDonor (v : CVertex) (rec : List Nat) (w : ℚ) : CVertex :=
  { v with nDonor_Points := 1, Donor_Info := [some rec], Donor_Coeff := [some w] }

/-- Zone 0 of the synthetic interface with the donor map of the nearest-neighbour builder. -/
def meshAMapped : CGeometry :=
  { meshA with vertex := [[withDonor (mkVertex 0 [0, 0]) [1, 0, 0, 0] 1,
                           withDonor (mkVertex 1 [2, 0]) [1, 0, 0, 0] 1]] }

/-- Zone 1 of the synthetic interface with the donor map of the nearest-neighbour builder. -/
def meshBMapped : CGeometry :=
  { meshB with vertex := [[withDonor (mkVertex 0 [1, 0]) [0, 0, 0, 0] 1]] }

/-- A data store for the synthetic interface, two variables per point. -/
def dataAB : DataStore := some [some [[9, 9], [8, 8]], some [[3, 4]]]

/-- Configuration of the zone with the junction: two markers, both of interface index 1. -/
def cfgJunction : CConfig := { Marker_All_FSIinterface := [1, 1], Marker_n_FSIinterface := 2 }

/-- Zone 0 of an interface with two pairings: marker 0 (interface index 1) with the vertex
`(0,0)`, marker 1 (interface index 2) with the vertex `(5,0)`. -/
def meshPairA : CGeometry :=
  { nDim := 2, node := [{ Coord := [0, 0] }, { Coord := [5, 0] }],
    vertex := [[mkVertex 0 [0, 0]], [mkVertex 1 [5, 0]]] }

/-- Zone 1 of an interface with two pairings: marker 0 (interface index 1) with the vertex
`(1,0)`, marker 1 (interface index 2) with the vertex `(6,0)`. -/
def meshPairB : CGeometry :=
  { nDim := 2, node := [{ Coord := [1, 0] }, { Coord := [6, 0] }],
    vertex := [[mkVertex 0 [1, 0]], [mkVertex 1 [6, 0]]] }

/-- The donor map that the nearest-neighbour builder gives `meshPairA`. -/
def meshPairAMapped : CGeometry :=
  { meshPairA with vertex := [[withDonor (mkVertex 0 [0, 0]) [1, 0, 0, 0] 1],
                              [withDonor (mkVertex 1 [5, 0]) [1, 1, 1, 0] 1]] }

/-- The donor map that the nearest-neighbour builder gives `meshPairB`. -/
def meshPairBMapped : CGeometry :=
  { meshPairB with vertex := [[withDonor (mkVertex 0 [1, 0]) [0, 0, 0, 0] 1],
                              [withDonor (mkVertex 1 [6, 0]) [0, 1, 1, 0] 1]] }

/-- A data store for the interface with two pairings, one variable per point. -/
def dataPair : DataStore := some [some [[9], [9]], some [[3], [4]]]

/-- Zone 1 of the synthetic interface, mapped, its vertex displaced by the translation
`(1, 2)` without rotation. -/
def meshBTranslated : CGeometry :=
  { meshB with vertex := [[{ withDonor (mkVertex 0 [1, 0]) [0, 0, 0, 0] 1 with
      VarCoord := [1, 2, 0], VarRot := [0, 0, 0] }]] }

/-! ## An interface for the element-based builder -/

/-- Zone 0: one marker (interface index 1) with the vertices `(0,0)` and `(0,5)`. -/
def meshElemA : CGeometry :=
  { nDim := 2, node := [{ Coord := [0, 0] }, { Coord := [0, 5] }],
    vertex := [[mkVertex 0 [0, 0], mkVertex 1 [0, 5]]] }

/-- Zone 1: the points `(1,0)` and `(1,1)`, joined by the element 0, and the point `(1,5)`,
which belongs to no element; all three are vertices of the one marker (interface index 1). -/
def meshElemB : CGeometry :=
  { nDim := 2,
    node := [{ Coord := [1, 0], Elem := [0], Vertex := [0] },
             { Coord := [1, 1], Elem := [0], Vertex := [1] },
             { Coord := [1, 5], Elem := [], Vertex := [2] }],
    vertex := [[mkVertex 0 [1, 0], mkVertex 1 [1, 1], mkVertex 2 [1, 5]]],
    elem := [[0, 1]] }

/-- Zone 1 of the synthetic interface, mapped, its vertex `(1,0)` moved by the rigid rotation
of rate `1` about the origin: displacement `(0, 1)`, rotation vector `(0, 0, 1)`. -/
def meshBRotated : CGeometry :=
  { meshB with vertex := [[{ withDonor (mkVertex 0 [1, 0]) [0, 0, 0, 0] 1 with
      VarCoord := [0, 1, 0], VarRot := [0, 0, 1] }]] }

/-- A container of three zones. -/
def threeZones : List CGeometry := [meshA, meshB, meshA]

/-- Configuration of a zone with two markers of which only marker 0 is on the interface
(index 1), while two pairings are announced: no marker of the zone has interface index 2. -/
def cfgSkip : CConfig := { Marker_All_FSIinterface := [1, 0], Marker_n_FSIinterface := 4 }

/-- The configuration `cfgSkip` with a single pairing announced. -/
def cfgSkipOne : CConfig := { Marker_All_FSIinterface := [1, 0], Marker_n_FSIinterface := 2 }

/-! ## Interfaces on which the distance computation rounds or overflows -/

/-- A zone with the interface vertices `(2^27 + 1, 0)` and `(2^27, 2^14)`. From the origin
the exact squared distances are `2^54 + 2^28 + 1` and `2^54 + 2^28`; the first needs 55
significant bits. -/
def meshRoundX : CGeometry :=
  { nDim := 2, node := [{ Coord := [134217729, 0] }, { Coord := [134217728, 16384] }],
    vertex := [[mkVertex 0 [134217729, 0], mkVertex 1 [134217728, 16384]]] }

/-- A zone with the single interface vertex `(0,0)`. -/
def meshRoundY : CGeometry :=
  { nDim := 2, node := [{ Coord := [0, 0] }], vertex := [[mkVertex 0 [0, 0]]] }

/-- A zone with the interface vertices `(2^513, 0)` and `(2^512, 0)`, whose squares exceed
the range of a `double`. -/
def meshHuge : CGeometry :=
  { nDim := 2, node := [{ Coord := [pow2 513, 0] }, { Coord := [pow2 512, 0] }],
    vertex := [[mkVertex 0 [pow2 513, 0], mkVertex 1 [pow2 512, 0]]] }

/-! ## Loop rules -/

theorem forLoop_zero {σ : Type} (body : Nat → σ → Option σ) (s : σ) :
    forLoop 0 body s = some s := rfl

theorem forLoop_succ {σ : Type} (n : Nat) (body : Nat → σ → Option σ) (s : σ) :
    forLoop (n + 1) body s = (forLoop n body s).bind (body n) := by
  unfold forLoop
  rw [List.range_succ, List.foldlM_append]
  cases h : List.foldlM (fun st i => body i st) s (List.range n) with
  | none => rfl
  | some t =>
    show (List.foldlM (fun st i => body i st) t [n]) = body n t
    rw [List.foldlM_cons]
    cases body n t <;> rfl

/-- Invariant rule for a counted loop: an invariant that holds at entry and is carried by
every iteration (which must not fault) holds at exit, and the loop does not fault. -/
theorem forLoop_inv {σ : Type} (P : Nat → σ → Prop) (n : Nat) (body : Nat → σ → Option σ)
    (s : σ) (h0 : P 0 s)
    (hstep : ∀ i st, i < n → P i st → ∃ st', body i st = some st' ∧ P (i + 1) st') :
    ∃ st', forLoop n body s = some st' ∧ P n st' := by
  induction n with
  | zero => exact ⟨s, rfl, h0⟩
  | succ n ih =>
    obtain ⟨t, ht, hP⟩ := ih (fun i st hi hp => hstep i st (Nat.lt_succ_of_lt hi) hp)
    obtain ⟨u, hu, hQ⟩ := hstep n t (Nat.lt_succ_self n) hP
    exact ⟨u, by rw [forLoop_succ, ht]; exact hu, hQ⟩

/-! ## Reading the geometry after a vertex update -/

theorem modVertex_eq_some {G : List CGeometry} {z m i : Nat} {f : CVertex → Option CVertex}
    {G' : List CGeometry} (h : modVertex G z m i f = some G') :
    ∃ g vs v w, G[z]? = some g ∧ g.vertex[m]? = some vs ∧ vs[i]? = some v ∧ f v = some w ∧
      G' = G.set z { g with vertex := g.vertex.set m (vs.set i w) } := by
  unfold modVertex at h
  cases hg : G[z]? with
  | none => simp [hg] at h
  | some g =>
    cases hvs : g.vertex[m]? with
    | none => simp [hg, hvs] at h
    | some vs =>
      cases hv : vs[i]? with
      | none => simp [hg, hvs, hv] at h
      | some v =>
        cases hw : f v with
        | none => simp [hg, hvs, hv, hw] at h
        | some w =>
          simp [hg, hvs, hv, hw] at h
          exact ⟨g, vs, v, w, rfl, hvs, hv, hw, h.symm⟩

theorem modVertex_some {G : List CGeometry} {z m i : Nat} {f : CVertex → Option CVertex}
    {v w : CVertex} (hv : vertexAt G z m i = some v) (hf : f v = some w) :
    ∃ G', modVertex G z m i f = some G' := by
  unfold vertexAt at hv
  unfold modVertex
  cases hg : G[z]? with
  | none => simp [hg] at hv
  | some g =>
    cases hvs : g.vertex[m]? with
    | none => simp [hg, hvs] at hv
    | some vs =>
      simp [hg, hvs] at hv
      simp [hvs, hv, hf]

theorem vertexAt_modVertex_same {G : List CGeometry} {z m i : Nat}
    {f : CVertex → Option CVertex} {G' : List CGeometry} (h : modVertex G z m i f = some G') :
    vertexAt G' z m i = (vertexAt G z m i).bind f := by
  obtain ⟨g, vs, v, w, hg, hvs, hv, hw, rfl⟩ := modVertex_eq_some h
  have hz : z < G.length := (List.getElem?_eq_some_iff.mp hg).1
  have hm : m < g.vertex.length := (List.getElem?_eq_some_iff.mp hvs).1
  have hi : i < vs.length := (List.getElem?_eq_some_iff.mp hv).1
  simp [vertexAt, hg, hvs, hv, hw, List.getElem?_set, hz, hm, hi]

theorem vertexAt_modVertex_ne {G : List CGeometry} {z m i : Nat}
    {f : CVertex → Option CVertex} {G' : List CGeometry} (h : modVertex G z m i f = some G')
    (z' m' i' : Nat) (hne : ¬ (z' = z ∧ m' = m ∧ i' = i)) :
    vertexAt G' z' m' i' = vertexAt G z' m' i' := by
  obtain ⟨g, vs, v, w, hg, hvs, hv, hw, rfl⟩ := modVertex_eq_some h
  have hz : z < G.length := (List.getElem?_eq_some_iff.mp hg).1
  have hm : m < g.vertex.length := (List.getElem?_eq_some_iff.mp hvs).1
  have hi : i < vs.length := (List.getElem?_eq_some_iff.mp hv).1
  unfold vertexAt
  by_cases h1 : z' = z
  · subst h1
    simp only [List.getElem?_set, if_true, hz, hg]
    by_cases h2 : m' = m
    · subst h2
      have h3 : i ≠ i' := fun e => hne ⟨rfl, rfl, e.symm⟩
      simp [List.getElem?_set, hm, hvs, h3]
    · have h2' : m ≠ m' := fun e => h2 e.symm
      simp [List.getElem?_set, h2']
  · have h1' : z ≠ z' := fun e => h1 e.symm
    simp [List.getElem?_set, h1']

theorem GetnVertex_modVertex {G : List CGeometry} {z m i : Nat}
    {f : CVertex → Option CVertex} {G' : List CGeometry} (h : modVertex G z m i f = some G')
    (z' m' : Nat) : GetnVertex G' z' m' = GetnVertex G z' m' := by
  obtain ⟨g, vs, v, w, hg, hvs, hv, hw, rfl⟩ := modVertex_eq_some h
  have hz : z < G.length := (List.getElem?_eq_some_iff.mp hg).1
  have hm : m < g.vertex.length := (List.getElem?_eq_some_iff.mp hvs).1
  unfold GetnVertex
  by_cases h1 : z' = z
  · subst h1
    simp only [List.getElem?_set, if_true, hz, hg]
    by_cases h2 : m' = m
    · subst h2
      simp [List.getElem?_set, hm, hvs]
    · have h2' : m ≠ m' := fun e => h2 e.symm
      simp [List.getElem?_set, h2']
  · have h1' : z ≠ z' := fun e => h1 e.symm
    simp [List.getElem?_set, h1']

theorem vertexAt_lt {G : List CGeometry} {z m i n : Nat} (hn : GetnVertex G z m = some n)
    (hi : i < n) : ∃ v, vertexAt G z m i = some v := by
  unfold GetnVertex at hn
  unfold vertexAt
  cases hg : G[z]? with
  | none => simp [hg] at hn
  | some g =>
    cases hvs : g.vertex[m]? with
    | none => simp [hg, hvs] at hn
    | some vs =>
      simp [hg, hvs] at hn
      subst hn
      exact ⟨vs[i], by simp [hvs, List.getElem?_eq_getElem hi]⟩

/-! ## The mesh is not changed by donor updates -/

theorem SameMesh.refl (G : List CGeometry) : SameMesh G G :=
  ⟨fun _ _ => rfl, fun _ _ _ => rfl⟩

theorem SameMesh.trans {G G' G'' : List CGeometry} (h : SameMesh G G') (h' : SameMesh G' G'') :
    SameMesh G G'' :=
  ⟨fun z m => (h'.1 z m).trans (h.1 z m), fun z m i => (h'.2 z m i).trans (h.2 z m i)⟩

theorem SameMesh.to_new {G G' : List CGeometry} (h : SameMesh G G') {z m i : Nat} {v : CVertex}
    (hv : vertexAt G z m i = some v) :
    ∃ v', vertexAt G' z m i = some v' ∧ v'.Node = v.Node ∧ v'.CartCoord = v.CartCoord := by
  have := h.2 z m i
  rw [hv] at this
  cases hv' : vertexAt G' z m i with
  | none => simp [hv'] at this
  | some v' =>
    simp [hv'] at this
    exact ⟨v', rfl, this.1, this.2⟩

theorem SameMesh.to_old {G G' : List CGeometry} (h : SameMesh G G') {z m i : Nat} {v' : CVertex}
    (hv : vertexAt G' z m i = some v') :
    ∃ v, vertexAt G z m i = some v ∧ v'.Node = v.Node ∧ v'.CartCoord = v.CartCoord := by
  have := h.2 z m i
  rw [hv] at this
  cases hv' : vertexAt G z m i with
  | none => simp [hv'] at this
  | some v =>
    simp [hv'] at this
    exact ⟨v, rfl, this.1, this.2⟩

theorem SameMesh.modVertex {G G' : List CGeometry} {z m i : Nat} {f : CVertex → Option CVertex}
    (h : modVertex G z m i f = some G')
    (hf : ∀ v w, f v = some w → w.Node = v.Node ∧ w.CartCoord = v.CartCoord) :
    SameMesh G G' := by
  refine ⟨fun z' m' => GetnVertex_modVertex h z' m', fun z' m' i' => ?_⟩
  by_cases hc : z' = z ∧ m' = m ∧ i' = i
  · obtain ⟨rfl, rfl, rfl⟩ := hc
    rw [vertexAt_modVertex_same h]
    obtain ⟨g, vs, v, w, hg, hvs, hv, hw, -⟩ := modVertex_eq_some h
    have hv' : vertexAt G z' m' i' = some v := by simp [vertexAt, hg, hvs, hv]
    rw [hv']
    simp [hw, hf v w hw]
  · rw [vertexAt_modVertex_ne h z' m' i' hc]

/-! ## The squared distance -/

/-- The sentinel `-1.0` is below every non-negative value. -/
theorem ne_sentinel_of_nonneg {x : Dist} (hx : 0 ≤ x) : x ≠ sentinel := by
  intro h
  rw [h] at hx
  have hlt : sentinel < 0 := by
    unfold sentinel
    rw [← WithTop.coe_zero, WithTop.coe_lt_coe]
    norm_num
  exact absurd hx (not_le.mpr hlt)

/-- A computed squared distance is not negative, whatever the rounding. -/
theorem sqDistance_nonneg (F : DoubleArith) (nDim : Nat) (a b : CVertex) :
    0 ≤ sqDistance F nDim a b := by
  unfold sqDistance
  induction nDim with
  | zero => exact le_refl _
  | succ n ih =>
    rw [List.range_succ, List.foldl_append]
    exact F.add_nonneg _ _ ih (F.sqDiff_nonneg _ _)

theorem sqDistance_congr {F : DoubleArith} (nDim : Nat) {a a' b b' : CVertex}
    (ha : a'.CartCoord = a.CartCoord)
    (hb : b'.CartCoord = b.CartCoord) : sqDistance F nDim a' b' = sqDistance F nDim a b := by
  simp [sqDistance, CVertex.GetCoord, ha, hb]

/-! ## The nearest-neighbour search loops -/

theorem vertexAt_lt_of_some {G : List CGeometry} {z m i n : Nat} {v : CVertex}
    (hn : GetnVertex G z m = some n) (hv : vertexAt G z m i = some v) : i < n := by
  unfold GetnVertex at hn
  unfold vertexAt at hv
  cases hg : G[z]? with
  | none => simp [hg] at hn
  | some g =>
    cases hvs : g.vertex[m]? with
    | none => simp [hg, hvs] at hn
    | some vs =>
      simp [hg, hvs] at hn hv
      subst hn
      exact (List.getElem?_eq_some_iff.mp hv).1

/-- The inner loop of the fluid-side pass returns the first nearest candidate, or leaves
`nn` as it was when there is no candidate. -/
theorem scanFEA_loop (F : DoubleArith) (H : List CGeometry) (nDim z0 z1 mFlow mFEA i nFEA : Nat)
    (nn : Option (List Nat)) (vi : CVertex) (hn : GetnVertex H z1 mFEA = some nFEA)
    (hvi : vertexAt H z0 mFlow i = some vi) :
    ∃ r, forLoop nFEA (scanFEA F H nDim z0 z1 mFlow mFEA i) (sentinel, nn) = some r ∧
      (nFEA = 0 → r.2 = nn) ∧
      (0 < nFEA → ∃ j vj, FirstNearest F H nDim z1 mFEA vi j vj ∧
        r.2 = some [z1, vj.Node, mFEA, j]) := by
  have key := forLoop_inv
    (fun k (st : Dist × Option (List Nat)) =>
      (k = 0 → st = (sentinel, nn)) ∧
      (0 < k → ∃ j vj, j < k ∧ vertexAt H z1 mFEA j = some vj ∧
        st = (sqDistance F nDim vj vi, some [z1, vj.Node, mFEA, j]) ∧
        (∀ k' vk, k' < k → vertexAt H z1 mFEA k' = some vk →
          sqDistance F nDim vj vi ≤ sqDistance F nDim vk vi) ∧
        (∀ k' vk, k' < j → vertexAt H z1 mFEA k' = some vk →
          sqDistance F nDim vj vi < sqDistance F nDim vk vi)))
    nFEA (scanFEA F H nDim z0 z1 mFlow mFEA i) (sentinel, nn)
    ⟨fun _ => rfl, fun h => absurd h (lt_irrefl 0)⟩
    (by
      intro k st hk ⟨h0, hpos⟩
      obtain ⟨vk, hvk⟩ := vertexAt_lt hn hk
      rcases Nat.eq_zero_or_pos k with hk0 | hkpos
      · subst hk0
        have hst := h0 rfl
        subst hst
        refine ⟨(sqDistance F nDim vk vi, some [z1, vk.Node, mFEA, 0]), ?_, ?_, ?_⟩
        · simp [scanFEA, hvk, hvi, CVertex.GetNode]
        · intro h; omega
        · intro _
          refine ⟨0, vk, by omega, hvk, rfl, ?_, ?_⟩
          · intro k' vk' hk' hvk'
            have : k' = 0 := by omega
            subst this
            rw [hvk] at hvk'
            cases hvk'
            exact le_refl _
          · intro k' vk' hk'
            omega
      · obtain ⟨j, vj, hj, hvj, hst, hmin, hfirst⟩ := hpos hkpos
        subst hst
        have hne : sqDistance F nDim vj vi ≠ sentinel :=
          ne_sentinel_of_nonneg (sqDistance_nonneg F nDim vj vi)
        by_cases hlt : sqDistance F nDim vk vi < sqDistance F nDim vj vi
        · refine ⟨(sqDistance F nDim vk vi, some [z1, vk.Node, mFEA, k]), ?_, ?_, ?_⟩
          · simp [scanFEA, hvk, hvi, CVertex.GetNode, hlt]
          · intro h; omega
          · intro _
            refine ⟨k, vk, by omega, hvk, rfl, ?_, ?_⟩
            · intro k' vk' hk' hvk'
              rcases Nat.lt_succ_iff_lt_or_eq.mp hk' with h1 | h1
              · exact le_of_lt (lt_of_lt_of_le hlt (hmin k' vk' h1 hvk'))
              · subst h1
                rw [hvk] at hvk'
                cases hvk'
                exact le_refl _
            · intro k' vk' hk' hvk'
              exact lt_of_lt_of_le hlt (hmin k' vk' hk' hvk')
        · refine ⟨(sqDistance F nDim vj vi, some [z1, vj.Node, mFEA, j]), ?_, ?_, ?_⟩
          · simp [scanFEA, hvk, hvi, hne, hlt]
          · intro h; omega
          · intro _
            refine ⟨j, vj, by omega, hvj, rfl, ?_, hfirst⟩
            intro k' vk' hk' hvk'
            rcases Nat.lt_succ_iff_lt_or_eq.mp hk' with h1 | h1
            · exact hmin k' vk' h1 hvk'
            · subst h1
              rw [hvk] at hvk'
              cases hvk'
              exact not_lt.mp hlt)
  obtain ⟨r, hr, h0, hpos⟩ := key
  refine ⟨r, hr, ?_, ?_⟩
  · intro h
    rw [h0 h]
  · intro h
    obtain ⟨j, vj, -, hvj, hst, hmin, hfirst⟩ := hpos h
    refine ⟨j, vj, ⟨hvj, ?_, hfirst⟩, by rw [hst]⟩
    intro k vk hvk
    exact hmin k vk (vertexAt_lt_of_some hn hvk) hvk

theorem FirstNearest.transfer {F : DoubleArith} {G H : List CGeometry} (h : SameMesh G H)
    {nDim zc mc j : Nat}
    {vi hi hj : CVertex} (hc : hi.CartCoord = vi.CartCoord)
    (hfn : FirstNearest F H nDim zc mc hi j hj) :
    ∃ vj, FirstNearest F G nDim zc mc vi j vj ∧ vj.Node = hj.Node := by
  obtain ⟨hvj, hmin, hfirst⟩ := hfn
  obtain ⟨vj, hvj', hnode, hcoord⟩ := h.to_old hvj
  refine ⟨vj, ⟨hvj', ?_, ?_⟩, hnode.symm⟩
  · intro k vk hvk
    obtain ⟨hk, hhk, -, hkc⟩ := h.to_new hvk
    have := hmin k hk hhk
    rwa [sqDistance_congr nDim hcoord hc, sqDistance_congr nDim hkc hc] at this
  · intro k vk hkj hvk
    obtain ⟨hk, hhk, -, hkc⟩ := h.to_new hvk
    have := hfirst k hk hkj hhk
    rwa [sqDistance_congr nDim hcoord hc, sqDistance_congr nDim hkc hc] at this

/-- The three record updates of a nearest-neighbour pass on one vertex: allocation of one
slot, the donor tuple, the weight. -/
theorem recordUpdates {Gc : List CGeometry} {z m i : Nat} {v : CVertex}
    (hv : vertexAt Gc z m i = some v) :
    ∃ G1, modVertex Gc z m i (fun v => some (v.SetnDonorPoints 1).Allocate_DonorInfo) = some G1 ∧
      SameMesh Gc G1 ∧
      (∀ z' m' i', ¬ (z' = z ∧ m' = m ∧ i' = i) → vertexAt G1 z' m' i' = vertexAt Gc z' m' i') ∧
      vertexAt G1 z m i = some (v.SetnDonorPoints 1).Allocate_DonorInfo ∧
      ∀ nn : Option (List Nat), ∃ G2 G3 v3,
        modVertex G1 z m i (fun v => v.SetDonorInfo 0 nn) = some G2 ∧
        modVertex G2 z m i (fun v => v.SetDonorCoeff 0 1) = some G3 ∧
        SameMesh Gc G3 ∧
        (∀ z' m' i', ¬ (z' = z ∧ m' = m ∧ i' = i) →
          vertexAt G3 z' m' i' = vertexAt Gc z' m' i') ∧
        vertexAt G3 z m i = some v3 ∧ SoleDonor v3 nn ∧
        vertexAt G2 z m i = some { (v.SetnDonorPoints 1).Allocate_DonorInfo with
          Donor_Info := [nn] } := by
  obtain ⟨G1, h1⟩ := modVertex_some (f := fun v => some (v.SetnDonorPoints 1).Allocate_DonorInfo)
    hv rfl
  have hv1 : vertexAt G1 z m i = some (v.SetnDonorPoints 1).Allocate_DonorInfo := by
    rw [vertexAt_modVertex_same h1, hv]; rfl
  have hm1 : SameMesh Gc G1 := SameMesh.modVertex h1 (by
    intro a b hab
    simp at hab
    subst hab
    exact ⟨rfl, rfl⟩)
  refine ⟨G1, h1, hm1, fun z' m' i' hne => vertexAt_modVertex_ne h1 z' m' i' hne, hv1, ?_⟩
  intro nn
  have hf2 : (v.SetnDonorPoints 1).Allocate_DonorInfo.SetDonorInfo 0 nn =
      some { (v.SetnDonorPoints 1).Allocate_DonorInfo with Donor_Info := [nn] } := by
    simp [CVertex.SetDonorInfo, CVertex.Allocate_DonorInfo, CVertex.SetnDonorPoints]
  obtain ⟨G2, h2⟩ := modVertex_some (f := fun v => v.SetDonorInfo 0 nn) hv1 hf2
  have hv2 : vertexAt G2 z m i =
      some { (v.SetnDonorPoints 1).Allocate_DonorInfo with Donor_Info := [nn] } := by
    rw [vertexAt_modVertex_same h2, hv1]; exact hf2
  have hf3 : CVertex.SetDonorCoeff
      { (v.SetnDonorPoints 1).Allocate_DonorInfo with Donor_Info := [nn] } 0 1 =
      some { (v.SetnDonorPoints 1).Allocate_DonorInfo with
        Donor_Info := [nn], Donor_Coeff := [some 1] } := by
    simp [CVertex.SetDonorCoeff, CVertex.Allocate_DonorInfo, CVertex.SetnDonorPoints]
  obtain ⟨G3, h3⟩ := modVertex_some (f := fun v => v.SetDonorCoeff 0 1) hv2 hf3
  have hv3 : vertexAt G3 z m i = some { (v.SetnDonorPoints 1).Allocate_DonorInfo with
        Donor_Info := [nn], Donor_Coeff := [some 1] } := by
    rw [vertexAt_modVertex_same h3, hv2]; exact hf3
  have hm2 : SameMesh G1 G2 := SameMesh.modVertex h2 (by
    intro a b hab
    unfold CVertex.SetDonorInfo at hab
    split at hab
    · simp at hab; subst hab; exact ⟨rfl, rfl⟩
    · simp at hab)
  have hm3 : SameMesh G2 G3 := SameMesh.modVertex h3 (by
    intro a b hab
    unfold CVertex.SetDonorCoeff at hab
    split at hab
    · simp at hab; subst hab; exact ⟨rfl, rfl⟩
    · simp at hab)
  refine ⟨G2, G3, _, h2, h3, (hm1.trans hm2).trans hm3, ?_, hv3, ?_, hv2⟩
  · intro z' m' i' hne
    rw [vertexAt_modVertex_ne h3 z' m' i' hne, vertexAt_modVertex_ne h2 z' m' i' hne,
      vertexAt_modVertex_ne h1 z' m' i' hne]
  · exact ⟨rfl, rfl, rfl⟩

/-- One iteration of the fluid-side vertex loop. -/
theorem flowVertex_spec (F : DoubleArith) {G Gc : List CGeometry} (hm : SameMesh G Gc)
    (nDim z0 z1 mFlow mFEA i nFlow nFEA : Nat) (nn : Option (List Nat))
    (hFlow : GetnVertex G z0 mFlow = some nFlow) (hFEA : GetnVertex G z1 mFEA = some nFEA)
    (hi : i < nFlow) :
    ∃ nn' G', flowVertex F nDim z0 z1 mFlow mFEA i (nn, Gc) = some (nn', G') ∧
      SameMesh G G' ∧
      (∀ z m i', ¬ (z = z0 ∧ m = mFlow ∧ i' = i) → vertexAt G' z m i' = vertexAt Gc z m i') ∧
      (∃ v', vertexAt G' z0 mFlow i = some v' ∧ SoleDonor v' nn') ∧
      (nFEA = 0 → nn' = nn) ∧
      (0 < nFEA → ∃ vi j vj, vertexAt G z0 mFlow i = some vi ∧
        FirstNearest F G nDim z1 mFEA vi j vj ∧ nn' = some [z1, vj.Node, mFEA, j]) := by
  obtain ⟨vi, hvi⟩ := vertexAt_lt hFlow hi
  obtain ⟨ci, hci, -, hcc⟩ := hm.to_new hvi
  obtain ⟨G1, h1, hm1, hfr1, hv1, hrest⟩ := recordUpdates hci
  have hn1 : GetnVertex G1 z1 mFEA = some nFEA := by rw [hm1.1, hm.1, hFEA]
  obtain ⟨r, hr, hr0, hrpos⟩ := scanFEA_loop F G1 nDim z0 z1 mFlow mFEA i nFEA nn _ hn1 hv1
  obtain ⟨G2, G3, v3, h2, h3, hm3, hfr3, hv3, hsd, -⟩ := hrest r.2
  refine ⟨r.2, G3, ?_, hm.trans hm3, hfr3, ⟨v3, hv3, hsd⟩, hr0, ?_⟩
  · simp [flowVertex, h1, hn1, hr, h2, h3]
  · intro hpos
    obtain ⟨j, hj, hfn, hrj⟩ := hrpos hpos
    have hc : ((ci.SetnDonorPoints 1).Allocate_DonorInfo).CartCoord = vi.CartCoord := hcc
    obtain ⟨vj, hfn', hnode⟩ := FirstNearest.transfer (hm.trans hm1) hc hfn
    exact ⟨vi, j, vj, hvi, hfn', by rw [hrj, hnode]⟩

/-- The fluid-side pass (lines 251-279) as a whole. -/
theorem flowPass_spec (F : DoubleArith) {G Gc : List CGeometry} (hm : SameMesh G Gc)
    (nDim z0 z1 mFlow mFEA nFlow nFEA : Nat) (nn : Option (List Nat))
    (hFlow : GetnVertex G z0 mFlow = some nFlow) (hFEA : GetnVertex G z1 mFEA = some nFEA) :
    ∃ nn' G', flowPass F nDim z0 z1 mFlow mFEA (nn, Gc) = some (nn', G') ∧
      SameMesh G G' ∧
      (∀ z m i, ¬ (z = z0 ∧ m = mFlow) → vertexAt G' z m i = vertexAt Gc z m i) ∧
      (∀ i, i < nFlow → ∃ v', vertexAt G' z0 mFlow i = some v' ∧
        FlowRecord F G nDim z0 z1 mFlow mFEA nFEA nn i v') ∧
      (nFEA = 0 ∨ nFlow = 0 → nn' = nn) ∧
      (0 < nFEA → 0 < nFlow → ∃ j vj, vertexAt G z1 mFEA j = some vj ∧
        nn' = some [z1, vj.Node, mFEA, j]) := by
  have hFlowc : GetnVertex Gc z0 mFlow = some nFlow := by rw [hm.1, hFlow]
  have key := forLoop_inv
    (fun k (st : Option (List Nat) × List CGeometry) =>
      SameMesh G st.2 ∧
      (∀ z m i, ¬ (z = z0 ∧ m = mFlow ∧ i < k) → vertexAt st.2 z m i = vertexAt Gc z m i) ∧
      (∀ i, i < k → ∃ v', vertexAt st.2 z0 mFlow i = some v' ∧
        FlowRecord F G nDim z0 z1 mFlow mFEA nFEA nn i v') ∧
      (nFEA = 0 ∨ k = 0 → st.1 = nn) ∧
      (0 < nFEA → 0 < k → ∃ j vj, vertexAt G z1 mFEA j = some vj ∧
        st.1 = some [z1, vj.Node, mFEA, j]))
    nFlow (flowVertex F nDim z0 z1 mFlow mFEA) (nn, Gc)
    ⟨hm, fun _ _ _ _ => rfl, fun i hi => absurd hi (Nat.not_lt_zero i), fun _ => rfl,
      fun _ h => absurd h (lt_irrefl 0)⟩
    (by
      rintro k ⟨nnk, Gk⟩ hk ⟨hmk, hfrk, hgoodk, hnnk, hnnk'⟩
      obtain ⟨nn', G', hstep, hm', hfr', ⟨v', hv', hsd⟩, h0, hpos⟩ :=
        flowVertex_spec F hmk nDim z0 z1 mFlow mFEA k nFlow nFEA nnk hFlow hFEA hk
      refine ⟨(nn', G'), hstep, hm', ?_, ?_, ?_, ?_⟩
      · intro z m i hne
        have hne' : ¬ (z = z0 ∧ m = mFlow ∧ i = k) := by
          rintro ⟨a, b, c⟩; exact hne ⟨a, b, by omega⟩
        have hne'' : ¬ (z = z0 ∧ m = mFlow ∧ i < k) := by
          rintro ⟨a, b, c⟩; exact hne ⟨a, b, by omega⟩
        show vertexAt G' z m i = vertexAt Gc z m i
        rw [hfr' z m i hne']
        exact hfrk z m i hne''
      · intro i hi
        rcases Nat.lt_succ_iff_lt_or_eq.mp hi with h1 | h1
        · obtain ⟨w, hw, hrec⟩ := hgoodk i h1
          refine ⟨w, ?_, hrec⟩
          show vertexAt G' z0 mFlow i = some w
          rw [hfr' z0 mFlow i (by rintro ⟨-, -, c⟩; omega)]
          exact hw
        · subst h1
          refine ⟨v', hv', nn', hsd, ?_, hpos⟩
          intro hz
          rw [h0 hz]
          exact hnnk (Or.inl hz)
      · rintro (hz | hz)
        · show nn' = nn
          rw [h0 hz]
          exact hnnk (Or.inl hz)
        · omega
      · intro hp _
        obtain ⟨vi, j, vj, -, hfn, hrec⟩ := hpos hp
        exact ⟨j, vj, hfn.1, hrec⟩)
  obtain ⟨⟨nn', G'⟩, hrun, hm', hfr, hgood, hnn, hnn'⟩ := key
  refine ⟨nn', G', ?_, hm', ?_, hgood, hnn, hnn'⟩
  · simp [flowPass, hFlowc, hrun]
  · intro z m i hne
    exact hfr z m i (by rintro ⟨a, b, -⟩; exact hne ⟨a, b⟩)

/-- The inner loop of the structure-side pass returns the first nearest candidate, or leaves
`nn` as it was when there is no candidate. -/
theorem scanFlow_loop (F : DoubleArith) (H : List CGeometry) (nDim z0 z1 mFlow mFEA i nFlow : Nat)
    (nn : Option (List Nat)) (vi : CVertex) (hn : GetnVertex H z0 mFlow = some nFlow)
    (hvi : vertexAt H z1 mFEA i = some vi) :
    ∃ r, forLoop nFlow (scanFlow F H nDim z0 z1 mFlow mFEA i) (sentinel, nn) = some r ∧
      (nFlow = 0 → r.2 = nn) ∧
      (0 < nFlow → ∃ j vj, FirstNearest F H nDim z0 mFlow vi j vj ∧
        r.2 = some [z0, vj.Node, mFlow, j]) := by
  have key := forLoop_inv
    (fun k (st : Dist × Option (List Nat)) =>
      (k = 0 → st = (sentinel, nn)) ∧
      (0 < k → ∃ j vj, j < k ∧ vertexAt H z0 mFlow j = some vj ∧
        st = (sqDistance F nDim vj vi, some [z0, vj.Node, mFlow, j]) ∧
        (∀ k' vk, k' < k → vertexAt H z0 mFlow k' = some vk →
          sqDistance F nDim vj vi ≤ sqDistance F nDim vk vi) ∧
        (∀ k' vk, k' < j → vertexAt H z0 mFlow k' = some vk →
          sqDistance F nDim vj vi < sqDistance F nDim vk vi)))
    nFlow (scanFlow F H nDim z0 z1 mFlow mFEA i) (sentinel, nn)
    ⟨fun _ => rfl, fun h => absurd h (lt_irrefl 0)⟩
    (by
      intro k st hk ⟨h0, hpos⟩
      obtain ⟨vk, hvk⟩ := vertexAt_lt hn hk
      rcases Nat.eq_zero_or_pos k with hk0 | hkpos
      · subst hk0
        refine ⟨(sqDistance F nDim vk vi, some [z0, vk.Node, mFlow, 0]), ?_, ?_, ?_⟩
        · simp [scanFlow, hvk, hvi, CVertex.GetNode]
        · intro h; omega
        · intro _
          refine ⟨0, vk, by omega, hvk, rfl, ?_, ?_⟩
          · intro k' vk' hk' hvk'
            have : k' = 0 := by omega
            subst this
            rw [hvk] at hvk'
            cases hvk'
            exact le_refl _
          · intro k' vk' hk'
            omega
      · obtain ⟨j, vj, hj, hvj, hst, hmin, hfirst⟩ := hpos hkpos
        subst hst
        have hk0 : k ≠ 0 := by omega
        by_cases hlt : sqDistance F nDim vk vi < sqDistance F nDim vj vi
        · refine ⟨(sqDistance F nDim vk vi, some [z0, vk.Node, mFlow, k]), ?_, ?_, ?_⟩
          · simp [scanFlow, hvk, hvi, CVertex.GetNode, hlt]
          · intro h; omega
          · intro _
            refine ⟨k, vk, by omega, hvk, rfl, ?_, ?_⟩
            · intro k' vk' hk' hvk'
              rcases Nat.lt_succ_iff_lt_or_eq.mp hk' with h1 | h1
              · exact le_of_lt (lt_of_lt_of_le hlt (hmin k' vk' h1 hvk'))
              · subst h1
                rw [hvk] at hvk'
                cases hvk'
                exact le_refl _
            · intro k' vk' hk' hvk'
              exact lt_of_lt_of_le hlt (hmin k' vk' hk' hvk')
        · refine ⟨(sqDistance F nDim vj vi, some [z0, vj.Node, mFlow, j]), ?_, ?_, ?_⟩
          · simp [scanFlow, hvk, hvi, hk0, hlt]
          · intro h; omega
          · intro _
            refine ⟨j, vj, by omega, hvj, rfl, ?_, hfirst⟩
            intro k' vk' hk' hvk'
            rcases Nat.lt_succ_iff_lt_or_eq.mp hk' with h1 | h1
            · exact hmin k' vk' h1 hvk'
            · subst h1
              rw [hvk] at hvk'
              cases hvk'
              exact not_lt.mp hlt)
  obtain ⟨r, hr, h0, hpos⟩ := key
  refine ⟨r, hr, ?_, ?_⟩
  · intro h
    rw [h0 h]
  · intro h
    obtain ⟨j, vj, -, hvj, hst, hmin, hfirst⟩ := hpos h
    refine ⟨j, vj, ⟨hvj, ?_, hfirst⟩, by rw [hst]⟩
    intro k vk hvk
    exact hmin k vk (vertexAt_lt_of_some hn hvk) hvk

/-- One iteration of the structure-side vertex loop. -/
theorem feaVertex_spec (F : DoubleArith) {G Gc : List CGeometry} (hm : SameMesh G Gc)
    (nDim z0 z1 mFlow mFEA i nFlow nFEA : Nat) (nn : Option (List Nat))
    (hFlow : GetnVertex G z0 mFlow = some nFlow) (hFEA : GetnVertex G z1 mFEA = some nFEA)
    (hi : i < nFEA) :
    ∃ nn' G', feaVertex F nDim z0 z1 mFlow mFEA i (nn, Gc) = some (nn', G') ∧
      SameMesh G G' ∧
      (∀ z m i', ¬ (z = z1 ∧ m = mFEA ∧ i' = i) → vertexAt G' z m i' = vertexAt Gc z m i') ∧
      (∃ v', vertexAt G' z1 mFEA i = some v' ∧ SoleDonor v' nn') ∧
      (nFlow = 0 → nn' = nn) ∧
      (0 < nFlow → ∃ vi j vj, vertexAt G z1 mFEA i = some vi ∧
        FirstNearest F G nDim z0 mFlow vi j vj ∧ nn' = some [z0, vj.Node, mFlow, j]) := by
  obtain ⟨vi, hvi⟩ := vertexAt_lt hFEA hi
  obtain ⟨ci, hci, -, hcc⟩ := hm.to_new hvi
  obtain ⟨G1, h1, hm1, hfr1, hv1, hrest⟩ := recordUpdates hci
  obtain ⟨G2, -, -, h2, -, -, -, -, -, hv2⟩ := hrest nn
  have hm2 : SameMesh G1 G2 := SameMesh.modVertex h2 (by
    intro a b hab
    unfold CVertex.SetDonorInfo at hab
    split at hab
    · simp at hab; subst hab; exact ⟨rfl, rfl⟩
    · simp at hab)
  have hn2 : GetnVertex G2 z0 mFlow = some nFlow := by rw [hm2.1, hm1.1, hm.1, hFlow]
  obtain ⟨r, hr, hr0, hrpos⟩ := scanFlow_loop F G2 nDim z0 z1 mFlow mFEA i nFlow nn _ hn2 hv2
  have hf3 : CVertex.SetDonorInfo
      { (ci.SetnDonorPoints 1).Allocate_DonorInfo with Donor_Info := [nn] } 0 r.2 =
      some { (ci.SetnDonorPoints 1).Allocate_DonorInfo with Donor_Info := [r.2] } := by
    simp [CVertex.SetDonorInfo, CVertex.Allocate_DonorInfo, CVertex.SetnDonorPoints]
  obtain ⟨G3, h3⟩ := modVertex_some (f := fun v => v.SetDonorInfo 0 r.2) hv2 hf3
  have hv3 : vertexAt G3 z1 mFEA i =
      some { (ci.SetnDonorPoints 1).Allocate_DonorInfo with Donor_Info := [r.2] } := by
    rw [vertexAt_modVertex_same h3, hv2]; exact hf3
  have hf4 : CVertex.SetDonorCoeff
      { (ci.SetnDonorPoints 1).Allocate_DonorInfo with Donor_Info := [r.2] } 0 1 =
      some { (ci.SetnDonorPoints 1).Allocate_DonorInfo with
        Donor_Info := [r.2], Donor_Coeff := [some 1] } := by
    simp [CVertex.SetDonorCoeff, CVertex.Allocate_DonorInfo, CVertex.SetnDonorPoints]
  obtain ⟨G4, h4⟩ := modVertex_some (f := fun v => v.SetDonorCoeff 0 1) hv3 hf4
  have hv4 : vertexAt G4 z1 mFEA i = some { (ci.SetnDonorPoints 1).Allocate_DonorInfo with
        Donor_Info := [r.2], Donor_Coeff := [some 1] } := by
    rw [vertexAt_modVertex_same h4, hv3]; exact hf4
  have hm3 : SameMesh G2 G3 := SameMesh.modVertex h3 (by
    intro a b hab
    unfold CVertex.SetDonorInfo at hab
    split at hab
    · simp at hab; subst hab; exact ⟨rfl, rfl⟩
    · simp at hab)
  have hm4 : SameMesh G3 G4 := SameMesh.modVertex h4 (by
    intro a b hab
    unfold CVertex.SetDonorCoeff at hab
    split at hab
    · simp at hab; subst hab; exact ⟨rfl, rfl⟩
    · simp at hab)
  refine ⟨r.2, G4, ?_, (((hm.trans hm1).trans hm2).trans hm3).trans hm4, ?_,
    ⟨_, hv4, rfl, rfl, rfl⟩, hr0, ?_⟩
  · simp [feaVertex, h1, h2, hn2, hr, h3, h4]
  · intro z m i' hne
    rw [vertexAt_modVertex_ne h4 z m i' hne, vertexAt_modVertex_ne h3 z m i' hne,
      vertexAt_modVertex_ne h2 z m i' hne, vertexAt_modVertex_ne h1 z m i' hne]
  · intro hpos
    obtain ⟨j, hj, hfn, hrj⟩ := hrpos hpos
    have hc : CVertex.CartCoord
        { (ci.SetnDonorPoints 1).Allocate_DonorInfo with Donor_Info := [nn] } =
        vi.CartCoord := hcc
    obtain ⟨vj, hfn', hnode⟩ := FirstNearest.transfer ((hm.trans hm1).trans hm2) hc hfn
    exact ⟨vi, j, vj, hvi, hfn', by rw [hrj, hnode]⟩

/-- The structure-side pass (lines 283-309) as a whole. -/
theorem feaPass_spec (F : DoubleArith) {G Gc : List CGeometry} (hm : SameMesh G Gc)
    (nDim z0 z1 mFlow mFEA nFlow nFEA : Nat) (nn : Option (List Nat))
    (hFlow : GetnVertex G z0 mFlow = some nFlow) (hFEA : GetnVertex G z1 mFEA = some nFEA) :
    ∃ nn' G', feaPass F nDim z0 z1 mFlow mFEA (nn, Gc) = some (nn', G') ∧
      SameMesh G G' ∧
      (∀ z m i, ¬ (z = z1 ∧ m = mFEA) → vertexAt G' z m i = vertexAt Gc z m i) ∧
      (∀ i, i < nFEA → ∃ v', vertexAt G' z1 mFEA i = some v' ∧
        FeaRecord F G nDim z0 z1 mFlow mFEA nFlow nn i v') ∧
      (nFlow = 0 ∨ nFEA = 0 → nn' = nn) ∧
      (0 < nFlow → 0 < nFEA → ∃ j vj, vertexAt G z0 mFlow j = some vj ∧
        nn' = some [z0, vj.Node, mFlow, j]) := by
  have hFEAc : GetnVertex Gc z1 mFEA = some nFEA := by rw [hm.1, hFEA]
  have key := forLoop_inv
    (fun k (st : Option (List Nat) × List CGeometry) =>
      SameMesh G st.2 ∧
      (∀ z m i, ¬ (z = z1 ∧ m = mFEA ∧ i < k) → vertexAt st.2 z m i = vertexAt Gc z m i) ∧
      (∀ i, i < k → ∃ v', vertexAt st.2 z1 mFEA i = some v' ∧
        FeaRecord F G nDim z0 z1 mFlow mFEA nFlow nn i v') ∧
      (nFlow = 0 ∨ k = 0 → st.1 = nn) ∧
      (0 < nFlow → 0 < k → ∃ j vj, vertexAt G z0 mFlow j = some vj ∧
        st.1 = some [z0, vj.Node, mFlow, j]))
    nFEA (feaVertex F nDim z0 z1 mFlow mFEA) (nn, Gc)
    ⟨hm, fun _ _ _ _ => rfl, fun i hi => absurd hi (Nat.not_lt_zero i), fun _ => rfl,
      fun _ h => absurd h (lt_irrefl 0)⟩
    (by
      rintro k ⟨nnk, Gk⟩ hk ⟨hmk, hfrk, hgoodk, hnnk, hnnk'⟩
      obtain ⟨nn', G', hstep, hm', hfr', ⟨v', hv', hsd⟩, h0, hpos⟩ :=
        feaVertex_spec F hmk nDim z0 z1 mFlow mFEA k nFlow nFEA nnk hFlow hFEA hk
      refine ⟨(nn', G'), hstep, hm', ?_, ?_, ?_, ?_⟩
      · intro z m i hne
        have hne' : ¬ (z = z1 ∧ m = mFEA ∧ i = k) := by
          rintro ⟨a, b, c⟩; exact hne ⟨a, b, by omega⟩
        have hne'' : ¬ (z = z1 ∧ m = mFEA ∧ i < k) := by
          rintro ⟨a, b, c⟩; exact hne ⟨a, b, by omega⟩
        show vertexAt G' z m i = vertexAt Gc z m i
        rw [hfr' z m i hne']
        exact hfrk z m i hne''
      · intro i hi
        rcases Nat.lt_succ_iff_lt_or_eq.mp hi with h1 | h1
        · obtain ⟨w, hw, hrec⟩ := hgoodk i h1
          refine ⟨w, ?_, hrec⟩
          show vertexAt G' z1 mFEA i = some w
          rw [hfr' z1 mFEA i (by rintro ⟨-, -, c⟩; omega)]
          exact hw
        · subst h1
          refine ⟨v', hv', nn', hsd, ?_, hpos⟩
          intro hz
          rw [h0 hz]
          exact hnnk (Or.inl hz)
      · rintro (hz | hz)
        · show nn' = nn
          rw [h0 hz]
          exact hnnk (Or.inl hz)
        · omega
      · intro hp _
        obtain ⟨vi, j, vj, -, hfn, hrec⟩ := hpos hp
        exact ⟨j, vj, hfn.1, hrec⟩)
  obtain ⟨⟨nn', G'⟩, hrun, hm', hfr, hgood, hnn, hnn'⟩ := key
  refine ⟨nn', G', ?_, hm', ?_, hgood, hnn, hnn'⟩
  · simp [feaPass, hFEAc, hrun]
  · intro z m i hne
    exact hfr z m i (by rintro ⟨a, b, -⟩; exact hne ⟨a, b⟩)

/-! ## The loop over interface indices -/

theorem flowPass_sole (F : DoubleArith) {G Gc : List CGeometry} (hm : SameMesh G Gc)
    (nDim z0 z1 mFlow mFEA nFlow nFEA : Nat) (nn : Option (List Nat))
    (hFlow : GetnVertex G z0 mFlow = some nFlow) (hFEA : GetnVertex G z1 mFEA = some nFEA) :
    ∃ r, flowPass F nDim z0 z1 mFlow mFEA (nn, Gc) = some r ∧ SameMesh G r.2 ∧
      (∀ i, i < nFlow → Sole r.2 z0 mFlow i) ∧
      (∀ z m i, Sole Gc z m i → Sole r.2 z m i) := by
  obtain ⟨nn', G', hrun, hm', hfr, hgood, -, -⟩ :=
    flowPass_spec F hm nDim z0 z1 mFlow mFEA nFlow nFEA nn hFlow hFEA
  have hsole : ∀ i, i < nFlow → Sole G' z0 mFlow i := by
    intro i hi
    obtain ⟨v', hv', rec, hsd, -⟩ := hgood i hi
    exact ⟨v', rec, hv', hsd⟩
  refine ⟨(nn', G'), hrun, hm', hsole, ?_⟩
  rintro z m i ⟨v, rec, hv, hsd⟩
  by_cases hc : z = z0 ∧ m = mFlow
  · obtain ⟨rfl, rfl⟩ := hc
    have hn : GetnVertex Gc z m = some nFlow := by rw [hm.1, hFlow]
    exact hsole i (vertexAt_lt_of_some hn hv)
  · exact ⟨v, rec, by rw [hfr z m i hc]; exact hv, hsd⟩

theorem feaPass_sole (F : DoubleArith) {G Gc : List CGeometry} (hm : SameMesh G Gc)
    (nDim z0 z1 mFlow mFEA nFlow nFEA : Nat) (nn : Option (List Nat))
    (hFlow : GetnVertex G z0 mFlow = some nFlow) (hFEA : GetnVertex G z1 mFEA = some nFEA) :
    ∃ r, feaPass F nDim z0 z1 mFlow mFEA (nn, Gc) = some r ∧ SameMesh G r.2 ∧
      (∀ i, i < nFEA → Sole r.2 z1 mFEA i) ∧
      (∀ z m i, Sole Gc z m i → Sole r.2 z m i) := by
  obtain ⟨nn', G', hrun, hm', hfr, hgood, -, -⟩ :=
    feaPass_spec F hm nDim z0 z1 mFlow mFEA nFlow nFEA nn hFlow hFEA
  have hsole : ∀ i, i < nFEA → Sole G' z1 mFEA i := by
    intro i hi
    obtain ⟨v', hv', rec, hsd, -⟩ := hgood i hi
    exact ⟨v', rec, hv', hsd⟩
  refine ⟨(nn', G'), hrun, hm', hsole, ?_⟩
  rintro z m i ⟨v, rec, hv, hsd⟩
  by_cases hc : z = z1 ∧ m = mFEA
  · obtain ⟨rfl, rfl⟩ := hc
    have hn : GetnVertex Gc z m = some nFEA := by rw [hm.1, hFEA]
    exact hsole i (vertexAt_lt_of_some hn hv)
  · exact ⟨v, rec, by rw [hfr z m i hc]; exact hv, hsd⟩

/-- The loop over interface indices: it does not fault when the paired markers exist, keeps
the mesh, and leaves a sole donor of weight `1.0` on every vertex of every paired marker. -/
theorem pairLoop_sole (F : DoubleArith) (G : List CGeometry) (nDim z0 z1 : Nat)
    (cfg0 cfg1 : CConfig) (n : Nat)
    (hex : PairedMarkersExist G z0 z1 cfg0 cfg1 n) :
    ∃ st, forLoop n (pairStep F nDim z0 z1 cfg0 cfg1) ⟨none, none, none, G⟩ = some st ∧
      SameMesh G st.Geometry ∧
      ∀ K, 1 ≤ K → K ≤ n →
        (∀ mFlow nFlow i, markAt cfg0 K = some mFlow → GetnVertex G z0 mFlow = some nFlow →
          i < nFlow → Sole st.Geometry z0 mFlow i) ∧
        (∀ mFEA nFEA i, markAt cfg1 K = some mFEA → GetnVertex G z1 mFEA = some nFEA →
          i < nFEA → Sole st.Geometry z1 mFEA i) := by
  have key := forLoop_inv
    (fun k (st : TransferState) =>
      st.markFEA = markAt cfg1 k ∧ st.markFlow = markAt cfg0 k ∧ SameMesh G st.Geometry ∧
      ∀ K, 1 ≤ K → K ≤ k →
        (∀ mFlow nFlow i, markAt cfg0 K = some mFlow → GetnVertex G z0 mFlow = some nFlow →
          i < nFlow → Sole st.Geometry z0 mFlow i) ∧
        (∀ mFEA nFEA i, markAt cfg1 K = some mFEA → GetnVertex G z1 mFEA = some nFEA →
          i < nFEA → Sole st.Geometry z1 mFEA i))
    n (pairStep F nDim z0 z1 cfg0 cfg1) ⟨none, none, none, G⟩
    ⟨rfl, rfl, SameMesh.refl G, fun K h1 h2 => by omega⟩
    (by
      rintro k ⟨mkFEA, mkFlow, nn, Gk⟩ hk ⟨hFEA, hFlow, hmk, hinv⟩
      simp only at hFEA hFlow hmk hinv
      obtain ⟨mFlow, mFEA, nFlow, nFEA, hmF, hmE, hnF, hnE⟩ := hex (k + 1) (by omega) (by omega)
      obtain ⟨r1, hr1, hm1, hs1, hp1⟩ :=
        flowPass_sole F hmk nDim z0 z1 mFlow mFEA nFlow nFEA nn hnF hnE
      obtain ⟨r2, hr2, hm2, hs2, hp2⟩ :=
        feaPass_sole F hm1 nDim z0 z1 mFlow mFEA nFlow nFEA r1.1 hnF hnE
      have e1 : scanMarker cfg1 (k + 1) mkFEA = some mFEA := by rw [hFEA]; exact hmE
      have e2 : scanMarker cfg0 (k + 1) mkFlow = some mFlow := by rw [hFlow]; exact hmF
      refine ⟨⟨some mFEA, some mFlow, r2.1, r2.2⟩, ?_, ?_, ?_, hm2, ?_⟩
      · simp [pairStep, e1, e2, hr1, hr2]
      · exact hmE.symm
      · exact hmF.symm
      · intro K hK1 hK2
        rcases Nat.lt_succ_iff_lt_or_eq.mp (Nat.lt_succ_of_le hK2) with h | h
        · obtain ⟨ha, hb⟩ := hinv K hK1 (by omega)
          exact ⟨fun m n' i a b c => hp2 _ _ _ (hp1 _ _ _ (ha m n' i a b c)),
            fun m n' i a b c => hp2 _ _ _ (hp1 _ _ _ (hb m n' i a b c))⟩
        · subst h
          constructor
          · intro m n' i a b c
            rw [hmF] at a
            cases a
            rw [hnF] at b
            cases b
            exact hp2 _ _ _ (hs1 i c)
          · intro m n' i a b c
            rw [hmE] at a
            cases a
            rw [hnE] at b
            cases b
            exact hs2 i c)
  obtain ⟨st, hst, -, -, hm, hinv⟩ := key
  exact ⟨st, hst, hm, hinv⟩

/-! ## Claims on the nearest-neighbour builder -/

/-- A computed distance that is exact compares as the exact distance does. -/
theorem exact_le_of_computed {x y : Dist} {a b : ℚ} (hx : x = ((a : ℚ) : WithTop ℚ))
    (hy : y = ((b : ℚ) : WithTop ℚ)) : (x ≤ y ↔ a ≤ b) ∧ (x < y ↔ a < b) := by
  subst hx
  subst hy
  exact ⟨WithTop.coe_le_coe, WithTop.coe_lt_coe⟩

/-- Counterexample to C1: zone A has the vertex `(0,0)`, zone B the vertices `(2^27 + 1, 0)`
and `(2^27, 2^14)`. Vertex 1 of zone B is strictly nearer (`2^54 + 2^28` against
`2^54 + 2^28 + 1`), but in binary64 the square of `2^27 + 1` rounds to `2^54 + 2^28`, the two
computed distances are equal, and the builder records vertex 0. -/
theorem Set_TransferCoeff_rounding_hides_nearest :
    exactSqDistance 2 (mkVertex 1 [134217728, 16384]) (mkVertex 0 [0, 0]) <
      exactSqDistance 2 (mkVertex 0 [134217729, 0]) (mkVertex 0 [0, 0]) ∧
    sqDistance binary64 2 (mkVertex 0 [134217729, 0]) (mkVertex 0 [0, 0]) =
      sqDistance binary64 2 (mkVertex 1 [134217728, 16384]) (mkVertex 0 [0, 0]) ∧
    (CNearestNeighbor.Set_TransferCoeff binary64 [meshRoundY, meshRoundX] [0, 1]
        [cfgOne, cfgOne]).bind
      (fun G => (vertexAt G 0 0 0).map (fun v => (v.GetnDonorPoints, v.Donor_Info))) =
      some (1, [some [1, 0, 0, 0]]) := by
  refine ⟨by decide!, by decide!, by decide!⟩

/-- C1, amended: the fluid-side pass of `CNearestNeighbor::Set_TransferCoeff` (lines
251-279), run from any state of the geometry on the markers `mFlow` of zone `z0 = Zones[0]`
and `mFEA` of zone `z1 = Zones[1]`, in any `double` arithmetic, does not fault and, provided
`mFEA` has at least one vertex, records for every vertex `i` of `mFlow` the donor tuple
`(z1, node of j, mFEA, j)` of a vertex `j` of `mFEA` whose squared distance to `i` as
computed is minimal over the marker, every vertex of lower index being strictly farther as
computed. Where the computed distances of the marker to `i` are the exact ones, `j` is the
first vertex at minimal exact squared distance. -/
theorem flowPass_records_first_nearest (F : DoubleArith) (G : List CGeometry)
    (nDim z0 z1 mFlow mFEA nFlow nFEA : Nat) (nn : Option (List Nat))
    (hFlow : GetnVertex G z0 mFlow = some nFlow) (hFEA : GetnVertex G z1 mFEA = some nFEA)
    (hpos : 0 < nFEA) :
    ∃ nn' G', flowPass F nDim z0 z1 mFlow mFEA (nn, G) = some (nn', G') ∧
      ∀ i, i < nFlow → ∃ vi v' j vj, vertexAt G z0 mFlow i = some vi ∧
        vertexAt G' z0 mFlow i = some v' ∧ j < nFEA ∧ vertexAt G z1 mFEA j = some vj ∧
        v'.Donor_Info = [some [z1, vj.GetNode, mFEA, j]] ∧
        (∀ k vk, vertexAt G z1 mFEA k = some vk →
          sqDistance F nDim vj vi ≤ sqDistance F nDim vk vi) ∧
        (∀ k vk, k < j → vertexAt G z1 mFEA k = some vk →
          sqDistance F nDim vj vi < sqDistance F nDim vk vi) ∧
        ((∀ k vk, vertexAt G z1 mFEA k = some vk →
            sqDistance F nDim vk vi = ((exactSqDistance nDim vk vi : ℚ) : WithTop ℚ)) →
          (∀ k vk, vertexAt G z1 mFEA k = some vk →
            exactSqDistance nDim vj vi ≤ exactSqDistance nDim vk vi) ∧
          (∀ k vk, k < j → vertexAt G z1 mFEA k = some vk →
            exactSqDistance nDim vj vi < exactSqDistance nDim vk vi)) := by
  obtain ⟨nn', G', hrun, -, -, hgood, -, -⟩ :=
    flowPass_spec F (SameMesh.refl G) nDim z0 z1 mFlow mFEA nFlow nFEA nn hFlow hFEA
  refine ⟨nn', G', hrun, fun i hi => ?_⟩
  obtain ⟨v', hv', rec, hsd, -, hrec⟩ := hgood i hi
  obtain ⟨vi, j, vj, hvi, ⟨hvj, hmin, hfirst⟩, hr⟩ := hrec hpos
  refine ⟨vi, v', j, vj, hvi, hv', vertexAt_lt_of_some hFEA hvj, hvj, ?_, hmin, hfirst, ?_⟩
  · rw [hsd.2.1, hr]; rfl
  · intro hexact
    exact ⟨fun k vk hvk =>
        (exact_le_of_computed (hexact j vj hvj) (hexact k vk hvk)).1.mp (hmin k vk hvk),
      fun k vk hkj hvk =>
        (exact_le_of_computed (hexact j vj hvj) (hexact k vk hvk)).2.mp (hfirst k vk hkj hvk)⟩

/-- Witness for C1 in binary64: the vertex `(1,0)` searches the marker with the vertices
`(0,0)` and `(2,0)`, both at computed squared distance 1, and records vertex 0. -/
theorem flowPass_records_first_nearest_witness :
    (GetnVertex [meshB, meshA] 0 0 = some 1 ∧ GetnVertex [meshB, meshA] 1 0 = some 2 ∧
    ∃ nn' G', flowPass binary64 2 0 1 0 0 (none, [meshB, meshA]) = some (nn', G') ∧
      ∀ i, i < 1 → ∃ vi v' j vj, vertexAt [meshB, meshA] 0 0 i = some vi ∧
        vertexAt G' 0 0 i = some v' ∧ j < 2 ∧ vertexAt [meshB, meshA] 1 0 j = some vj ∧
        v'.Donor_Info = [some [1, vj.GetNode, 0, j]] ∧
        (∀ k vk, vertexAt [meshB, meshA] 1 0 k = some vk →
          sqDistance binary64 2 vj vi ≤ sqDistance binary64 2 vk vi) ∧
        (∀ k vk, k < j → vertexAt [meshB, meshA] 1 0 k = some vk →
          sqDistance binary64 2 vj vi < sqDistance binary64 2 vk vi) ∧
        ((∀ k vk, vertexAt [meshB, meshA] 1 0 k = some vk →
            sqDistance binary64 2 vk vi = ((exactSqDistance 2 vk vi : ℚ) : WithTop ℚ)) →
          (∀ k vk, vertexAt [meshB, meshA] 1 0 k = some vk →
            exactSqDistance 2 vj vi ≤ exactSqDistance 2 vk vi) ∧
          (∀ k vk, k < j → vertexAt [meshB, meshA] 1 0 k = some vk →
            exactSqDistance 2 vj vi < exactSqDistance 2 vk vi))) ∧
    sqDistance binary64 2 (mkVertex 0 [0, 0]) (mkVertex 0 [1, 0]) = ((1 : ℚ) : WithTop ℚ) ∧
    sqDistance binary64 2 (mkVertex 1 [2, 0]) (mkVertex 0 [1, 0]) = ((1 : ℚ) : WithTop ℚ) ∧
    (flowPass binary64 2 0 1 0 0 (none, [meshB, meshA])).map
      (fun r => (vertexAt r.2 0 0 0).map (fun v => v.Donor_Info)) =
      some (some [some [1, 0, 0, 0]]) :=
  ⟨⟨rfl, rfl, flowPass_records_first_nearest binary64 [meshB, meshA] 2 0 1 0 0 1 2 none rfl rfl
    (by decide)⟩, by decide!, by decide!, by decide!⟩

/-- Counterexample to C2: zone A has the vertices `(2^27 + 1, 0)` and `(2^27, 2^14)`, zone B
the vertex `(0,0)`. Vertex 1 of zone A is strictly nearer, but in binary64 the two computed
distances are equal and the builder records vertex 0 of zone A for the zone-B vertex. -/
theorem Set_TransferCoeff_rounding_hides_nearest_reverse :
    exactSqDistance 2 (mkVertex 1 [134217728, 16384]) (mkVertex 0 [0, 0]) <
      exactSqDistance 2 (mkVertex 0 [134217729, 0]) (mkVertex 0 [0, 0]) ∧
    sqDistance binary64 2 (mkVertex 0 [134217729, 0]) (mkVertex 0 [0, 0]) =
      sqDistance binary64 2 (mkVertex 1 [134217728, 16384]) (mkVertex 0 [0, 0]) ∧
    (CNearestNeighbor.Set_TransferCoeff binary64 [meshRoundX, meshRoundY] [0, 1]
        [cfgOne, cfgOne]).bind
      (fun G => (vertexAt G 1 0 0).map (fun v => (v.GetnDonorPoints, v.Donor_Info))) =
      some (1, [some [0, 0, 0, 0]]) := by
  refine ⟨by decide!, by decide!, by decide!⟩

/-- C2, amended: the structure-side pass of `CNearestNeighbor::Set_TransferCoeff` (lines
283-309) is the fluid-side pass with the roles swapped: run from any state of the geometry,
in any `double` arithmetic, it does not fault and, provided the marker `mFlow` of zone
`z0 = Zones[0]` has at least one vertex, records for every vertex `i` of the marker `mFEA` of
zone `z1 = Zones[1]` the donor tuple `(z0, node of j, mFlow, j)` of the lowest-index vertex
`j` of `mFlow` among those at minimal squared distance to `i` as computed. Where the computed
distances of the marker to `i` are the exact ones, `j` is the first vertex at minimal exact
squared distance. -/
theorem feaPass_records_first_nearest (F : DoubleArith) (G : List CGeometry)
    (nDim z0 z1 mFlow mFEA nFlow nFEA : Nat) (nn : Option (List Nat))
    (hFlow : GetnVertex G z0 mFlow = some nFlow) (hFEA : GetnVertex G z1 mFEA = some nFEA)
    (hpos : 0 < nFlow) :
    ∃ nn' G', feaPass F nDim z0 z1 mFlow mFEA (nn, G) = some (nn', G') ∧
      ∀ i, i < nFEA → ∃ vi v' j vj, vertexAt G z1 mFEA i = some vi ∧
        vertexAt G' z1 mFEA i = some v' ∧ j < nFlow ∧ vertexAt G z0 mFlow j = some vj ∧
        v'.Donor_Info = [some [z0, vj.GetNode, mFlow, j]] ∧
        (∀ k vk, vertexAt G z0 mFlow k = some vk →
          sqDistance F nDim vj vi ≤ sqDistance F nDim vk vi) ∧
        (∀ k vk, k < j → vertexAt G z0 mFlow k = some vk →
          sqDistance F nDim vj vi < sqDistance F nDim vk vi) ∧
        ((∀ k vk, vertexAt G z0 mFlow k = some vk →
            sqDistance F nDim vk vi = ((exactSqDistance nDim vk vi : ℚ) : WithTop ℚ)) →
          (∀ k vk, vertexAt G z0 mFlow k = some vk →
            exactSqDistance nDim vj vi ≤ exactSqDistance nDim vk vi) ∧
          (∀ k vk, k < j → vertexAt G z0 mFlow k = some vk →
            exactSqDistance nDim vj vi < exactSqDistance nDim vk vi)) := by
  obtain ⟨nn', G', hrun, -, -, hgood, -, -⟩ :=
    feaPass_spec F (SameMesh.refl G) nDim z0 z1 mFlow mFEA nFlow nFEA nn hFlow hFEA
  refine ⟨nn', G', hrun, fun i hi => ?_⟩
  obtain ⟨v', hv', rec, hsd, -, hrec⟩ := hgood i hi
  obtain ⟨vi, j, vj, hvi, ⟨hvj, hmin, hfirst⟩, hr⟩ := hrec hpos
  refine ⟨vi, v', j, vj, hvi, hv', vertexAt_lt_of_some hFlow hvj, hvj, ?_, hmin, hfirst, ?_⟩
  · rw [hsd.2.1, hr]; rfl
  · intro hexact
    exact ⟨fun k vk hvk =>
        (exact_le_of_computed (hexact j vj hvj) (hexact k vk hvk)).1.mp (hmin k vk hvk),
      fun k vk hkj hvk =>
        (exact_le_of_computed (hexact j vj hvj) (hexact k vk hvk)).2.mp (hfirst k vk hkj hvk)⟩

/-- Witness for C2 in binary64 on the synthetic interface of the specification: the zone-1
vertex `(1,0)` is at computed squared distance 1 from both zone-0 vertices `(0,0)` and
`(2,0)`, and the pass records zone-0 vertex 0. -/
theorem feaPass_records_first_nearest_witness :
    (GetnVertex [meshA, meshB] 0 0 = some 2 ∧ GetnVertex [meshA, meshB] 1 0 = some 1 ∧
    ∃ nn' G', feaPass binary64 2 0 1 0 0 (none, [meshA, meshB]) = some (nn', G') ∧
      ∀ i, i < 1 → ∃ vi v' j vj, vertexAt [meshA, meshB] 1 0 i = some vi ∧
        vertexAt G' 1 0 i = some v' ∧ j < 2 ∧ vertexAt [meshA, meshB] 0 0 j = some vj ∧
        v'.Donor_Info = [some [0, vj.GetNode, 0, j]] ∧
        (∀ k vk, vertexAt [meshA, meshB] 0 0 k = some vk →
          sqDistance binary64 2 vj vi ≤ sqDistance binary64 2 vk vi) ∧
        (∀ k vk, k < j → vertexAt [meshA, meshB] 0 0 k = some vk →
          sqDistance binary64 2 vj vi < sqDistance binary64 2 vk vi) ∧
        ((∀ k vk, vertexAt [meshA, meshB] 0 0 k = some vk →
            sqDistance binary64 2 vk vi = ((exactSqDistance 2 vk vi : ℚ) : WithTop ℚ)) →
          (∀ k vk, vertexAt [meshA, meshB] 0 0 k = some vk →
            exactSqDistance 2 vj vi ≤ exactSqDistance 2 vk vi) ∧
          (∀ k vk, k < j → vertexAt [meshA, meshB] 0 0 k = some vk →
            exactSqDistance 2 vj vi < exactSqDistance 2 vk vi))) ∧
    sqDistance binary64 2 (mkVertex 0 [0, 0]) (mkVertex 0 [1, 0]) = ((1 : ℚ) : WithTop ℚ) ∧
    sqDistance binary64 2 (mkVertex 1 [2, 0]) (mkVertex 0 [1, 0]) = ((1 : ℚ) : WithTop ℚ) ∧
    (feaPass binary64 2 0 1 0 0 (none, [meshA, meshB])).map
      (fun r => (vertexAt r.2 1 0 0).map (fun v => v.Donor_Info)) =
      some (some [some [0, 0, 0, 0]]) :=
  ⟨⟨rfl, rfl, feaPass_records_first_nearest binary64 [meshA, meshB] 2 0 1 0 0 2 1 none rfl rfl
    (by decide)⟩, by decide!, by decide!, by decide!⟩

/-- C3: after `CNearestNeighbor::Set_TransferCoeff`, when the markers paired for the
interface indices `1, ..., nMarkerFSIint` exist in both meshes (so that the routine does not
fault), every vertex of every paired marker of either zone has donor count exactly 1 and a
single donor coefficient equal to `1.0`; so it has a donor and its weights sum to 1. -/
theorem Set_TransferCoeff_sole_donor (F : DoubleArith) (G : List CGeometry) (Zones : List Nat)
    (config : List CConfig) (z0 z1 : Nat) (g0 : CGeometry) (cfg0 cfg1 : CConfig)
    (hZ0 : Zones[0]? = some z0) (hZ1 : Zones[1]? = some z1) (hg0 : G[z0]? = some g0)
    (hc0 : config[z0]? = some cfg0) (hc1 : config[z1]? = some cfg1)
    (hex : PairedMarkersExist G z0 z1 cfg0 cfg1 (cfg0.GetMarker_n_FSIinterface / 2)) :
    ∃ G', CNearestNeighbor.Set_TransferCoeff F G Zones config = some G' ∧
      ∀ K, 1 ≤ K → K ≤ cfg0.GetMarker_n_FSIinterface / 2 →
        (∀ mFlow nFlow i, markAt cfg0 K = some mFlow → GetnVertex G z0 mFlow = some nFlow →
          i < nFlow → ∃ v, vertexAt G' z0 mFlow i = some v ∧ v.GetnDonorPoints = 1 ∧
            v.Donor_Info.length = 1 ∧ v.Donor_Coeff = [some 1] ∧
            v.GetDonorCoeff 0 = some 1 ∧
            ((List.range v.GetnDonorPoints).map (fun j => (v.GetDonorCoeff j).getD 0)).sum
              = 1) ∧
        (∀ mFEA nFEA i, markAt cfg1 K = some mFEA → GetnVertex G z1 mFEA = some nFEA →
          i < nFEA → ∃ v, vertexAt G' z1 mFEA i = some v ∧ v.GetnDonorPoints = 1 ∧
            v.Donor_Info.length = 1 ∧ v.Donor_Coeff = [some 1] ∧
            v.GetDonorCoeff 0 = some 1 ∧
            ((List.range v.GetnDonorPoints).map (fun j => (v.GetDonorCoeff j).getD 0)).sum
              = 1) := by
  obtain ⟨st, hst, -, hinv⟩ := pairLoop_sole F G g0.nDim z0 z1 cfg0 cfg1 _ hex
  have hsole : ∀ z m i, Sole st.Geometry z m i → ∃ v, vertexAt st.Geometry z m i = some v ∧
      v.GetnDonorPoints = 1 ∧ v.Donor_Info.length = 1 ∧ v.Donor_Coeff = [some 1] ∧
      v.GetDonorCoeff 0 = some 1 ∧
      ((List.range v.GetnDonorPoints).map (fun j => (v.GetDonorCoeff j).getD 0)).sum = 1 := by
    rintro z m i ⟨v, rec, hv, h1, h2, h3⟩
    refine ⟨v, hv, h1, by rw [h2]; rfl, h3, by simp [CVertex.GetDonorCoeff, h3], ?_⟩
    simp [CVertex.GetnDonorPoints, h1, CVertex.GetDonorCoeff, h3, List.range_succ]
  refine ⟨st.Geometry, ?_, ?_⟩
  · simp [CNearestNeighbor.Set_TransferCoeff, hZ0, hZ1, hg0, hc0, hc1, hst]
  · intro K hK1 hK2
    obtain ⟨ha, hb⟩ := hinv K hK1 hK2
    exact ⟨fun m n i a b c => hsole _ _ _ (ha m n i a b c),
      fun m n i a b c => hsole _ _ _ (hb m n i a b c)⟩

/-- Witness for C3 on the synthetic interface of the specification. -/
theorem Set_TransferCoeff_sole_donor_witness :
    PairedMarkersExist [meshA, meshB] 0 1 cfgOne cfgOne (cfgOne.GetMarker_n_FSIinterface / 2) ∧
    ∃ G', CNearestNeighbor.Set_TransferCoeff binary64 [meshA, meshB] [0, 1] [cfgOne, cfgOne] =
        some G' ∧
      ∀ K, 1 ≤ K → K ≤ cfgOne.GetMarker_n_FSIinterface / 2 →
        (∀ mFlow nFlow i, markAt cfgOne K = some mFlow →
          GetnVertex [meshA, meshB] 0 mFlow = some nFlow →
          i < nFlow → ∃ v, vertexAt G' 0 mFlow i = some v ∧ v.GetnDonorPoints = 1 ∧
            v.Donor_Info.length = 1 ∧ v.Donor_Coeff = [some 1] ∧
            v.GetDonorCoeff 0 = some 1 ∧
            ((List.range v.GetnDonorPoints).map (fun j => (v.GetDonorCoeff j).getD 0)).sum
              = 1) ∧
        (∀ mFEA nFEA i, markAt cfgOne K = some mFEA →
          GetnVertex [meshA, meshB] 1 mFEA = some nFEA →
          i < nFEA → ∃ v, vertexAt G' 1 mFEA i = some v ∧ v.GetnDonorPoints = 1 ∧
            v.Donor_Info.length = 1 ∧ v.Donor_Coeff = [some 1] ∧
            v.GetDonorCoeff 0 = some 1 ∧
            ((List.range v.GetnDonorPoints).map (fun j => (v.GetDonorCoeff j).getD 0)).sum
              = 1) :=
  have hex : PairedMarkersExist [meshA, meshB] 0 1 cfgOne cfgOne
      (cfgOne.GetMarker_n_FSIinterface / 2) := fun K h1 h2 => by
    have h3 : K ≤ 1 := h2
    have : K = 1 := by omega
    subst this
    exact ⟨0, 0, 2, 1, by decide, by decide, rfl, rfl⟩
  ⟨hex, Set_TransferCoeff_sole_donor binary64 [meshA, meshB] [0, 1] [cfgOne, cfgOne] 0 1 meshA
    cfgOne cfgOne rfl rfl rfl rfl rfl hex⟩

/-- Failing input for C4: on an interface with two pairings whose second structure-side
marker has no vertex, `CNearestNeighbor::Set_TransferCoeff` leaves on the vertex of marker 1
of zone 0 the tuple left over from the structure-side pass of the first pairing, whose zone
field is 0, the zone of the vertex itself. -/
theorem Set_TransferCoeff_stale_donor_in_own_zone :
    (CNearestNeighbor.Set_TransferCoeff binary64 [meshTwoA, meshTwoB] [0, 1] [cfgTwo, cfgTwo]).map
      (fun G' => (vertexAt G' 0 1 0).map
        (fun v => (v.GetnDonorPoints, v.Donor_Info, v.GetDonorInfo 0 0))) =
      some (some (1, [some [0, 0, 0, 0]], some 0)) := by
  decide!

/-! ## Reading the data store after a write -/

theorem writeData_spec {Data : DataStore} {z p c : Nat} {a : ℚ}
    (h : readData Data z p c = some a) (x : ℚ) :
    ∃ D', writeData Data z p c x = some D' ∧ shapeOf D' = shapeOf Data ∧
      ∀ z' p' c', readData D' z' p' c' =
        if z' = z ∧ p' = p ∧ c' = c then some x else readData Data z' p' c' := by
  unfold readData at h
  cases Data with
  | none => simp at h
  | some T =>
    cases hT : T[z]? with
    | none => simp [hT] at h
    | some slot =>
      cases slot with
      | none => simp [hT] at h
      | some pts =>
        cases hp : pts[p]? with
        | none => simp [hT, hp] at h
        | some row =>
          simp only [hT, hp] at h
          have hc : c < row.length := (List.getElem?_eq_some_iff.mp h).1
          have hz : z < T.length := (List.getElem?_eq_some_iff.mp hT).1
          have hpl : p < pts.length := (List.getElem?_eq_some_iff.mp hp).1
          refine ⟨some (T.set z (some (pts.set p (row.set c x)))), ?_, ?_, ?_⟩
          · simp [writeData, hT, hp, hc]
          · simp only [shapeOf, Option.map_some', Option.some.injEq]
            apply List.ext_getElem?
            intro n
            simp only [List.getElem?_map, List.getElem?_set]
            by_cases hn : z = n
            · subst hn
              simp only [if_true, hz, hT, Option.map_some']
              congr 1
              congr 1
              apply List.ext_getElem?
              intro k
              simp only [List.getElem?_map, List.getElem?_set]
              by_cases hk : p = k
              · subst hk
                simp [hpl, hp]
              · simp [hk]
            · simp [hn]
          · intro z' p' c'
            unfold readData
            by_cases h1 : z' = z
            · subst h1
              simp only [List.getElem?_set, if_true, hz, hT]
              by_cases h2 : p' = p
              · subst h2
                simp only [List.getElem?_set, if_true, hpl, hp, true_and]
                by_cases h3 : c' = c
                · subst h3
                  simp [hc]
                · have h3' : c ≠ c' := fun e => h3 e.symm
                  simp [h3, h3']
              · have h2' : p ≠ p' := fun e => h2 e.symm
                simp [List.getElem?_set, h2, h2']
            · have h1' : z ≠ z' := fun e => h1 e.symm
              simp [List.getElem?_set, h1, h1']

/-- Whether an entry exists is decided by the layout of the store. -/
theorem readData_isSome_shape {D D' : DataStore} (h : shapeOf D = shapeOf D') (z p c : Nat) :
    (readData D' z p c).isSome = (readData D z p c).isSome := by
  have key : ∀ E : DataStore, (readData E z p c).isSome =
      (match shapeOf E with
        | none => false
        | some S =>
          match S[z]? with
          | some (some ls) =>
            match ls[p]? with
            | some n => decide (c < n)
            | none => false
          | _ => false) := by
    intro E
    unfold readData shapeOf
    cases E with
    | none => rfl
    | some T =>
      simp only [Option.map_some', List.getElem?_map]
      cases hT : T[z]? with
      | none => rfl
      | some slot =>
        cases slot with
        | none => rfl
        | some pts =>
          simp only [Option.map_some', List.getElem?_map]
          cases hp : pts[p]? with
          | none => rfl
          | some row =>
            simp only [Option.map_some']
            by_cases hc : c < row.length
            · simp [hc, List.getElem?_eq_getElem hc]
            · simp [hc, List.getElem?_eq_none (not_lt.mp hc)]
  rw [key D, key D', h]

/-- Two stores with the same layout and the same entries are equal. -/
theorem dataStore_ext {D D' : DataStore} (h : shapeOf D = shapeOf D')
    (hr : ∀ z p c, readData D z p c = readData D' z p c) : D = D' := by
  cases D with
  | none =>
    cases D' with
    | none => rfl
    | some T' => simp [shapeOf] at h
  | some T =>
    cases D' with
    | none => simp [shapeOf] at h
    | some T' =>
      simp only [shapeOf, Option.map_some', Option.some.injEq] at h
      congr 1
      apply List.ext_getElem?
      intro z
      have hz := congrArg (fun l => l[z]?) h
      simp only [List.getElem?_map] at hz
      cases hT : T[z]? with
      | none =>
        cases hT' : T'[z]? with
        | none => rfl
        | some s' => simp [hT, hT'] at hz
      | some slot =>
        cases hT' : T'[z]? with
        | none => simp [hT, hT'] at hz
        | some slot' =>
          simp only [hT, hT', Option.map_some', Option.some.injEq] at hz
          cases slot with
          | none =>
            cases slot' with
            | none => rfl
            | some pts' => simp at hz
          | some pts =>
            cases slot' with
            | none => simp at hz
            | some pts' =>
              simp only [Option.map_some', Option.some.injEq] at hz
              congr 2
              apply List.ext_getElem?
              intro p
              have hp := congrArg (fun l => l[p]?) hz
              simp only [List.getElem?_map] at hp
              cases hP : pts[p]? with
              | none =>
                cases hP' : pts'[p]? with
                | none => rfl
                | some r' => simp [hP, hP'] at hp
              | some row =>
                cases hP' : pts'[p]? with
                | none => simp [hP, hP'] at hp
                | some row' =>
                  congr 1
                  apply List.ext_getElem?
                  intro c
                  have := hr z p c
                  simpa [readData, hT, hT', hP, hP'] using this

/-! ## The loops of `Interpolate_Data` on one vertex -/

/-- The loop that zeroes the entry of a point (lines 96-98). -/
theorem zeroLoop_spec {D : DataStore} {z p nVar : Nat}
    (hdef : ∀ c, c < nVar → (readData D z p c).isSome) :
    ∃ D1, forLoop nVar (fun iVar D => writeData D z p iVar 0) D = some D1 ∧
      shapeOf D1 = shapeOf D ∧
      ∀ z' p' c', readData D1 z' p' c' =
        if z' = z ∧ p' = p ∧ c' < nVar then some 0 else readData D z' p' c' := by
  have key := forLoop_inv
    (fun k (Dk : DataStore) => shapeOf Dk = shapeOf D ∧
      ∀ z' p' c', readData Dk z' p' c' =
        if z' = z ∧ p' = p ∧ c' < k then some 0 else readData D z' p' c')
    nVar (fun iVar D => writeData D z p iVar 0) D
    ⟨rfl, fun z' p' c' => by simp⟩
    (by
      intro k Dk hk ⟨hsh, hrd⟩
      have hcur : readData Dk z p k = readData D z p k := by
        rw [hrd]; simp
      obtain ⟨a, ha⟩ := Option.isSome_iff_exists.mp (hdef k hk)
      rw [← hcur] at ha
      obtain ⟨D', hw, hsh', hrd'⟩ := writeData_spec ha 0
      refine ⟨D', hw, hsh'.trans hsh, ?_⟩
      intro z' p' c'
      rw [hrd', hrd]
      by_cases h1 : z' = z ∧ p' = p
      · obtain ⟨rfl, rfl⟩ := h1
        by_cases h2 : c' = k
        · subst h2; simp
        · by_cases h3 : c' < k
          · have : c' < k + 1 := by omega
            simp [h2, h3, this]
          · have : ¬ c' < k + 1 := by omega
            simp [h2, h3, this]
      · have e1 : ¬ (z' = z ∧ p' = p ∧ c' = k) := fun h => h1 ⟨h.1, h.2.1⟩
        have e2 : ¬ (z' = z ∧ p' = p ∧ c' < k) := fun h => h1 ⟨h.1, h.2.1⟩
        have e3 : ¬ (z' = z ∧ p' = p ∧ c' < k + 1) := fun h => h1 ⟨h.1, h.2.1⟩
        simp only [e1, e2, e3, if_false])
  exact key

/-- The loop that adds the contribution of one donor (lines 108-110). -/
theorem accLoop_spec {D : DataStore} {z p zd pd nVar : Nat} (w : ℚ)
    (hdef : ∀ c, c < nVar → (readData D z p c).isSome)
    (hdefd : ∀ c, c < nVar → (readData D zd pd c).isSome) :
    ∃ D1, forLoop nVar
        (fun iVar D =>
          match readData D z p iVar, readData D zd pd iVar with
          | some a, some b => writeData D z p iVar (a + b * w)
          | _, _ => none) D = some D1 ∧
      shapeOf D1 = shapeOf D ∧
      ∀ z' p' c', readData D1 z' p' c' =
        if z' = z ∧ p' = p ∧ c' < nVar then
          some ((readData D z p c').getD 0 + (readData D zd pd c').getD 0 * w)
        else readData D z' p' c' := by
  have key := forLoop_inv
    (fun k (Dk : DataStore) => shapeOf Dk = shapeOf D ∧
      ∀ z' p' c', readData Dk z' p' c' =
        if z' = z ∧ p' = p ∧ c' < k then
          some ((readData D z p c').getD 0 + (readData D zd pd c').getD 0 * w)
        else readData D z' p' c')
    nVar (fun iVar D =>
          match readData D z p iVar, readData D zd pd iVar with
          | some a, some b => writeData D z p iVar (a + b * w)
          | _, _ => none) D
    ⟨rfl, fun z' p' c' => by simp⟩
    (by
      intro k Dk hk ⟨hsh, hrd⟩
      have hcur : readData Dk z p k = readData D z p k := by
        rw [hrd]; simp
      have hcurd : readData Dk zd pd k = readData D zd pd k := by
        rw [hrd]; simp
      obtain ⟨a, ha⟩ := Option.isSome_iff_exists.mp (hdef k hk)
      obtain ⟨b, hb⟩ := Option.isSome_iff_exists.mp (hdefd k hk)
      have ha' := ha
      rw [← hcur] at ha'
      obtain ⟨D', hw, hsh', hrd'⟩ := writeData_spec ha' (a + b * w)
      refine ⟨D', ?_, hsh'.trans hsh, ?_⟩
      · simp only [hcur, hcurd, ha, hb]
        exact hw
      · intro z' p' c'
        rw [hrd', hrd]
        by_cases h1 : z' = z ∧ p' = p
        · obtain ⟨rfl, rfl⟩ := h1
          by_cases h2 : c' = k
          · subst h2; simp [ha, hb]
          · by_cases h3 : c' < k
            · have : c' < k + 1 := by omega
              simp [h2, h3, this]
            · have : ¬ c' < k + 1 := by omega
              simp [h2, h3, this]
        · have e1 : ¬ (z' = z ∧ p' = p ∧ c' = k) := fun h => h1 ⟨h.1, h.2.1⟩
          have e2 : ¬ (z' = z ∧ p' = p ∧ c' < k) := fun h => h1 ⟨h.1, h.2.1⟩
          have e3 : ¬ (z' = z ∧ p' = p ∧ c' < k + 1) := fun h => h1 ⟨h.1, h.2.1⟩
          simp only [e1, e2, e3, if_false])
  exact key

/-- One donor of a vertex (lines 100-111). -/
theorem donorData_spec {G : List CGeometry} {nVar z m i j : Nat} {v : CVertex}
    {D : DataStore} (hv : vertexAt G z m i = some v) (hj : j < v.GetnDonorPoints)
    (hset : DonorsSet v) (hdef : ∀ c, c < nVar → (readData D z v.GetNode c).isSome)
    (hdefd : ∀ c, c < nVar → (readData D (donorZone v j) (donorPoint v j) c).isSome) :
    ∃ D1, donorData G nVar z m i v.GetNode j D = some D1 ∧ shapeOf D1 = shapeOf D ∧
      ∀ z' p' c', readData D1 z' p' c' =
        if z' = z ∧ p' = v.GetNode ∧ c' < nVar then
          some ((readData D z v.GetNode c').getD 0 +
            (readData D (donorZone v j) (donorPoint v j) c').getD 0 * donorWeight v j)
        else readData D z' p' c' := by
  obtain ⟨hinfo, hco⟩ := hset j hj
  obtain ⟨i0, h0⟩ := Option.isSome_iff_exists.mp (hinfo 0 (by omega))
  obtain ⟨i1, h1⟩ := Option.isSome_iff_exists.mp (hinfo 1 (by omega))
  obtain ⟨i2, h2⟩ := Option.isSome_iff_exists.mp (hinfo 2 (by omega))
  obtain ⟨i3, h3⟩ := Option.isSome_iff_exists.mp (hinfo 3 (by omega))
  obtain ⟨w, hw⟩ := Option.isSome_iff_exists.mp hco
  have ez : donorZone v j = i0 % 2 ^ 32 := by simp [donorZone, h0]
  have ep : donorPoint v j = i1 := by simp [donorPoint, h1]
  have ew : donorWeight v j = w := by simp [donorWeight, hw]
  rw [ez, ep] at hdefd
  obtain ⟨D1, hrun, hsh, hrd⟩ := accLoop_spec w hdef hdefd
  refine ⟨D1, ?_, hsh, ?_⟩
  · simp only [donorData, hv, h0, h1, h2, h3, hw]
    exact hrun
  · rw [ez, ep, ew]
    exact hrd

/-- One vertex of `Interpolate_Data` (lines 93-112): when the entries it touches exist, the
iteration does not fault, keeps the layout, changes only the first `nVar` entries of the
vertex's point and, unless a donor is that very point, leaves there the weighted sum of the
donor entries. -/
theorem dataVertex_spec {G : List CGeometry} {nVar z m i : Nat} {v : CVertex} {D : DataStore}
    (hv : vertexAt G z m i = some v) (hready : DataReady nVar D z v) :
    ∃ D', dataVertex G nVar z m i D = some D' ∧ shapeOf D' = shapeOf D ∧
      (∀ z' p' c', ¬ (z' = z ∧ p' = v.GetNode ∧ c' < nVar) →
        readData D' z' p' c' = readData D z' p' c') ∧
      ((∀ j, j < v.GetnDonorPoints → ¬ (donorZone v j = z ∧ donorPoint v j = v.GetNode)) →
        ∀ c, c < nVar → readData D' z v.GetNode c =
          some (∑ j in Finset.range v.GetnDonorPoints,
            donorWeight v j * (readData D (donorZone v j) (donorPoint v j) c).getD 0)) := by
  obtain ⟨hset, hdef, hdefd⟩ := hready
  obtain ⟨D1, hz, hsh1, hrd1⟩ := zeroLoop_spec hdef
  have key := forLoop_inv
    (fun k (Dk : DataStore) => shapeOf Dk = shapeOf D ∧
      (∀ z' p' c', ¬ (z' = z ∧ p' = v.GetNode ∧ c' < nVar) →
        readData Dk z' p' c' = readData D z' p' c') ∧
      ((∀ j, j < v.GetnDonorPoints → ¬ (donorZone v j = z ∧ donorPoint v j = v.GetNode)) →
        ∀ c, c < nVar → readData Dk z v.GetNode c =
          some (∑ j in Finset.range k,
            donorWeight v j * (readData D (donorZone v j) (donorPoint v j) c).getD 0)))
    v.GetnDonorPoints (donorData G nVar z m i v.GetNode) D1
    ⟨hsh1, fun z' p' c' hne => by rw [hrd1]; simp [hne], fun _ c hc => by
      rw [hrd1]; simp [hc]⟩
    (by
      intro k Dk hk ⟨hsh, hfr, hval⟩
      have hdefk : ∀ c, c < nVar → (readData Dk z v.GetNode c).isSome := by
        intro c hc
        rw [readData_isSome_shape hsh.symm]
        exact hdef c hc
      have hdefdk : ∀ c, c < nVar →
          (readData Dk (donorZone v k) (donorPoint v k) c).isSome := by
        intro c hc
        rw [readData_isSome_shape hsh.symm]
        exact hdefd k hk c hc
      obtain ⟨D', hrun, hsh', hrd'⟩ := donorData_spec hv hk hset hdefk hdefdk
      refine ⟨D', hrun, hsh'.trans hsh, ?_, ?_⟩
      · intro z' p' c' hne
        rw [hrd']
        simp only [hne, if_false]
        exact hfr z' p' c' hne
      · intro hns c hc
        rw [hrd']
        simp only [hc, and_self, if_true]
        rw [hval hns c hc]
        have hne : ¬ (donorZone v k = z ∧ donorPoint v k = v.GetNode ∧ c < nVar) :=
          fun h => hns k hk ⟨h.1, h.2.1⟩
        rw [hfr _ _ _ hne, Finset.sum_range_succ]
        simp only [Option.getD_some]
        congr 1
        ring)
  obtain ⟨D', hrun, hsh, hfr, hval⟩ := key
  refine ⟨D', ?_, hsh, hfr, hval⟩
  simp only [dataVertex, hv, hz]
  exact hrun

/-! ## `Interpolate_Data` as a whole -/

theorem DataReady.of_shape {nVar : Nat} {D D' : DataStore} {z : Nat} {v : CVertex}
    (h : shapeOf D = shapeOf D') (hr : DataReady nVar D z v) : DataReady nVar D' z v := by
  obtain ⟨hset, hdef, hdefd⟩ := hr
  refine ⟨hset, fun c hc => ?_, fun j hj c hc => ?_⟩
  · rw [readData_isSome_shape h]; exact hdef c hc
  · rw [readData_isSome_shape h]; exact hdefd j hj c hc

/-- One vertex carries the invariant of `Interpolate_Data` forward. -/
theorem dataVertex_inv {YES : Nat} {G : List CGeometry} {nVar : Nat} {D0 D : DataStore}
    {cfg : CConfig} {z M I : Nat} {v : CVertex}
    (hready : TransferReady YES G nVar D0 cfg z) (hp : Processed YES G cfg z M I v)
    (hinv : DataInv YES G nVar D0 cfg z M I D) :
    ∃ D', dataVertex G nVar z M I D = some D' ∧ DataInv YES G nVar D0 cfg z M (I + 1) D' := by
  obtain ⟨hsh, hoz, hfr, hval⟩ := hinv
  have hr : DataReady nVar D z v := (hready.2 M I v hp).of_shape hsh.symm
  obtain ⟨D', hrun, hsh', hfr', hval'⟩ := dataVertex_spec hp.2.2 hr
  have hlat : ∀ m i, Later m i M (I + 1) → Later m i M I ∨ (m = M ∧ i = I) := by
    intro m i h
    rcases h with h | ⟨h1, h2⟩
    · exact Or.inl (Or.inl h)
    · rcases Nat.lt_succ_iff_lt_or_eq.mp h2 with h3 | h3
      · exact Or.inl (Or.inr ⟨h1, h3⟩)
      · exact Or.inr ⟨h1, h3⟩
  refine ⟨D', hrun, hsh'.trans hsh, ?_, ?_, ?_⟩
  · intro z' p c hne
    rw [hfr' z' p c (fun h => hne h.1)]
    exact hoz z' p c hne
  · intro p c hnone
    have h1 : ¬ (z = z ∧ p = v.GetNode ∧ c < nVar) := by
      rintro ⟨-, h2, h3⟩
      exact hnone M I v hp (Or.inr ⟨rfl, Nat.lt_succ_self I⟩) ⟨h2.symm, h3⟩
    rw [hfr' z p c h1]
    apply hfr p c
    intro m i w hw hl
    exact hnone m i w hw (by
      rcases hl with h | ⟨h, h'⟩
      · exact Or.inl h
      · exact Or.inr ⟨h, Nat.lt_succ_of_lt h'⟩)
  · intro m i w hw hl hdon hlast c hc
    rcases hlat m i hl with h | ⟨rfl, rfl⟩
    · have hne : v.GetNode ≠ w.GetNode := hlast M I v hp h
      rw [hfr' z w.GetNode c (fun h' => hne h'.2.1.symm)]
      exact hval m i w hw h hdon hlast c hc
    · have hwv : w = v := by
        have := hw.2.2
        rw [hp.2.2] at this
        exact (Option.some.inj this).symm
      subst hwv
      rw [hval' (fun j hj h' => hdon j hj h'.1) c hc]
      congr 1
      unfold donorSum
      apply Finset.sum_congr rfl
      intro j hj
      rw [hoz _ _ _ (hdon j (Finset.mem_range.mp hj))]

/-- One marker carries the invariant of `Interpolate_Data` forward. -/
theorem dataMarker_inv {YES : Nat} {G : List CGeometry} {nVar : Nat} {D0 D : DataStore}
    {cfg : CConfig} {z M : Nat} (hready : TransferReady YES G nVar D0 cfg z)
    (hM : M < cfg.GetnMarker_All) (hinv : DataInv YES G nVar D0 cfg z M 0 D) :
    ∃ D', dataMarker YES G nVar cfg z M D = some D' ∧
      DataInv YES G nVar D0 cfg z (M + 1) 0 D' := by
  by_cases hflag : cfg.GetMarker_All_FSIinterface M = YES
  · obtain ⟨n, hn⟩ := Option.isSome_iff_exists.mp (hready.1 M hM hflag)
    have key := forLoop_inv (fun I D => DataInv YES G nVar D0 cfg z M I D) n
      (dataVertex G nVar z M) D hinv
      (by
        intro I DI hI hDI
        obtain ⟨v, hv⟩ := vertexAt_lt hn hI
        exact dataVertex_inv hready ⟨hM, hflag, hv⟩ hDI)
    obtain ⟨D', hrun, hsh, hoz, hfr, hval⟩ := key
    have hlat : ∀ m i v, Processed YES G cfg z m i v → Later m i (M + 1) 0 → Later m i M n := by
      intro m i v hp h
      rcases h with h | ⟨-, h⟩
      · rcases Nat.lt_succ_iff_lt_or_eq.mp h with h' | h'
        · exact Or.inl h'
        · subst h'
          exact Or.inr ⟨rfl, vertexAt_lt_of_some hn hp.2.2⟩
      · omega
    refine ⟨D', ?_, hsh, hoz, ?_, ?_⟩
    · simp only [dataMarker, hflag, if_true, hn]
      exact hrun
    · intro p c hnone
      apply hfr p c
      intro m i v hp hl
      apply hnone m i v hp
      rcases hl with h | ⟨h, -⟩
      · exact Or.inl (Nat.lt_succ_of_lt h)
      · exact Or.inl (by omega)
    · intro m i v hp hl
      exact hval m i v hp (hlat m i v hp hl)
  · obtain ⟨hsh, hoz, hfr, hval⟩ := hinv
    have hlat : ∀ m i v, Processed YES G cfg z m i v → Later m i (M + 1) 0 → Later m i M 0 := by
      intro m i v hp h
      rcases h with h | ⟨-, h⟩
      · rcases Nat.lt_succ_iff_lt_or_eq.mp h with h' | h'
        · exact Or.inl h'
        · subst h'
          exact absurd hp.2.1 hflag
      · omega
    refine ⟨D, ?_, hsh, hoz, ?_, ?_⟩
    · simp [dataMarker, hflag]
    · intro p c hnone
      apply hfr p c
      intro m i v hp hl
      apply hnone m i v hp
      rcases hl with h | ⟨h, -⟩
      · exact Or.inl (Nat.lt_succ_of_lt h)
      · exact Or.inl (by omega)
    · intro m i v hp hl
      exact hval m i v hp (hlat m i v hp hl)

/-- `Interpolate_Data` runs without fault when the entries it touches exist, and leaves the
data store in the state described by `DataInv` after the last marker. -/
theorem Interpolate_Data_inv {YES : Nat} {G : List CGeometry} {nVar : Nat} {D0 : DataStore}
    {config : List CConfig} {cfg : CConfig} {z : Nat} (hcfg : config[z]? = some cfg)
    (hready : TransferReady YES G nVar D0 cfg z) :
    ∃ D', CInterpolator.Interpolate_Data YES G nVar D0 z config = some D' ∧
      DataInv YES G nVar D0 cfg z cfg.GetnMarker_All 0 D' := by
  have key := forLoop_inv (fun M D => DataInv YES G nVar D0 cfg z M 0 D) cfg.GetnMarker_All
    (dataMarker YES G nVar cfg z) D0
    ⟨rfl, fun _ _ _ _ => rfl, fun _ _ _ => rfl, fun m i v _ hl => by
      rcases hl with h | ⟨-, h⟩ <;> omega⟩
    (fun M D hM hD => dataMarker_inv hready hM hD)
  obtain ⟨D', hrun, hinv⟩ := key
  refine ⟨D', ?_, hinv⟩
  simp only [CInterpolator.Interpolate_Data, hcfg]
  exact hrun

/-! ## Two runs of `Interpolate_Data` side by side -/

/-- Invariant rule for two runs of the same counted loop from two states. -/
theorem forLoop_rel {σ : Type} (R : σ → σ → Prop) (n : Nat) (body : Nat → σ → Option σ)
    (s t : σ) (h0 : R s t)
    (hstep : ∀ i a b, i < n → R a b → ∃ a' b', body i a = some a' ∧ body i b = some b' ∧
      R a' b') :
    ∃ a b, forLoop n body s = some a ∧ forLoop n body t = some b ∧ R a b := by
  induction n with
  | zero => exact ⟨s, t, rfl, rfl, h0⟩
  | succ n ih =>
    obtain ⟨a, b, ha, hb, hR⟩ := ih (fun i a b hi h => hstep i a b (Nat.lt_succ_of_lt hi) h)
    obtain ⟨a', b', ha', hb', hR'⟩ := hstep n a b (Nat.lt_succ_self n) hR
    exact ⟨a', b', by rw [forLoop_succ, ha]; exact ha', by rw [forLoop_succ, hb]; exact hb', hR'⟩

/-- The relation kept between a run of `Interpolate_Data` from `D0` (state `D`) and a run
from `D1` (state `E`), when the donors of the visited vertices lie outside zone `z`: either
the two states agree on an entry, or the second run has not written it yet. -/
theorem dataVertex_rel {YES : Nat} {G : List CGeometry} {nVar : Nat} {D0 D1 D E : DataStore}
    {cfg : CConfig} {z M I : Nat} {v : CVertex}
    (hready : TransferReady YES G nVar D0 cfg z) (hp : Processed YES G cfg z M I v)
    (hdon : ∀ j, j < v.GetnDonorPoints → donorZone v j ≠ z)
    (hR : shapeOf D = shapeOf D0 ∧ shapeOf E = shapeOf D0 ∧
      (∀ z' p c, z' ≠ z → readData D z' p c = readData D0 z' p c ∧
        readData E z' p c = readData D0 z' p c) ∧
      ∀ p c, readData E z p c = readData D z p c ∨ readData E z p c = readData D1 z p c) :
    ∃ D' E', dataVertex G nVar z M I D = some D' ∧ dataVertex G nVar z M I E = some E' ∧
      (shapeOf D' = shapeOf D0 ∧ shapeOf E' = shapeOf D0 ∧
      (∀ z' p c, z' ≠ z → readData D' z' p c = readData D0 z' p c ∧
        readData E' z' p c = readData D0 z' p c) ∧
      ∀ p c, readData E' z p c = readData D' z p c ∨
        readData E' z p c = readData D1 z p c) := by
  obtain ⟨hshD, hshE, hoz, hdis⟩ := hR
  have hrD : DataReady nVar D z v := (hready.2 M I v hp).of_shape hshD.symm
  have hrE : DataReady nVar E z v := (hready.2 M I v hp).of_shape hshE.symm
  obtain ⟨D', hrunD, hshD', hfrD, hvalD⟩ := dataVertex_spec hp.2.2 hrD
  obtain ⟨E', hrunE, hshE', hfrE, hvalE⟩ := dataVertex_spec hp.2.2 hrE
  have hns : ∀ j, j < v.GetnDonorPoints → ¬ (donorZone v j = z ∧ donorPoint v j = v.GetNode) :=
    fun j hj h => hdon j hj h.1
  refine ⟨D', E', hrunD, hrunE, hshD'.trans hshD, hshE'.trans hshE, ?_, ?_⟩
  · intro z' p c hne
    rw [hfrD z' p c (fun h => hne h.1), hfrE z' p c (fun h => hne h.1)]
    exact hoz z' p c hne
  · intro p c
    by_cases hw : p = v.GetNode ∧ c < nVar
    · obtain ⟨rfl, hc⟩ := hw
      left
      rw [hvalD hns c hc, hvalE hns c hc]
      congr 1
      apply Finset.sum_congr rfl
      intro j hj
      have hz := hoz (donorZone v j) (donorPoint v j) c (hdon j (Finset.mem_range.mp hj))
      rw [hz.1, hz.2]
    · have hne : ¬ (z = z ∧ p = v.GetNode ∧ c < nVar) := fun h => hw ⟨h.2.1, h.2.2⟩
      rw [hfrD z p c hne, hfrE z p c hne]
      exact hdis p c

theorem Interpolate_Data_rel {YES : Nat} {G : List CGeometry} {nVar : Nat} {D0 D1 : DataStore}
    {config : List CConfig} {cfg : CConfig} {z : Nat} (hcfg : config[z]? = some cfg)
    (hready : TransferReady YES G nVar D0 cfg z)
    (hdon : ∀ m i v, Processed YES G cfg z m i v → ∀ j, j < v.GetnDonorPoints →
      donorZone v j ≠ z)
    (hsh : shapeOf D1 = shapeOf D0)
    (hoz : ∀ z' p c, z' ≠ z → readData D1 z' p c = readData D0 z' p c) :
    ∃ D' E', CInterpolator.Interpolate_Data YES G nVar D0 z config = some D' ∧
      CInterpolator.Interpolate_Data YES G nVar D1 z config = some E' ∧
      shapeOf E' = shapeOf D0 ∧
      (∀ z' p c, z' ≠ z → readData E' z' p c = readData D0 z' p c) ∧
      ∀ p c, readData E' z p c = readData D' z p c ∨ readData E' z p c = readData D1 z p c := by
  have key := forLoop_rel
    (fun (D E : DataStore) => shapeOf D = shapeOf D0 ∧ shapeOf E = shapeOf D0 ∧
      (∀ z' p c, z' ≠ z → readData D z' p c = readData D0 z' p c ∧
        readData E z' p c = readData D0 z' p c) ∧
      ∀ p c, readData E z p c = readData D z p c ∨ readData E z p c = readData D1 z p c)
    cfg.GetnMarker_All (dataMarker YES G nVar cfg z) D0 D1
    ⟨rfl, hsh, fun z' p c hne => ⟨rfl, hoz z' p c hne⟩, fun p c => Or.inr rfl⟩
    (by
      intro M D E hM hR
      by_cases hflag : cfg.GetMarker_All_FSIinterface M = YES
      · obtain ⟨n, hn⟩ := Option.isSome_iff_exists.mp (hready.1 M hM hflag)
        have inner := forLoop_rel
          (fun (D E : DataStore) => shapeOf D = shapeOf D0 ∧ shapeOf E = shapeOf D0 ∧
            (∀ z' p c, z' ≠ z → readData D z' p c = readData D0 z' p c ∧
              readData E z' p c = readData D0 z' p c) ∧
            ∀ p c, readData E z p c = readData D z p c ∨
              readData E z p c = readData D1 z p c)
          n (dataVertex G nVar z M) D E hR
          (by
            intro I A B hI hAB
            obtain ⟨v, hv⟩ := vertexAt_lt hn hI
            exact dataVertex_rel hready ⟨hM, hflag, hv⟩ (hdon M I v ⟨hM, hflag, hv⟩) hAB)
        obtain ⟨A, B, hA, hB, hAB⟩ := inner
        refine ⟨A, B, ?_, ?_, hAB⟩
        · simp only [dataMarker, hflag, if_true, hn]; exact hA
        · simp only [dataMarker, hflag, if_true, hn]; exact hB
      · exact ⟨D, E, by simp [dataMarker, hflag], by simp [dataMarker, hflag], hR⟩)
  obtain ⟨D', E', hD', hE', -, hshE, hoz', hdis⟩ := key
  refine ⟨D', E', ?_, ?_, hshE, fun z' p c hne => (hoz' z' p c hne).2, hdis⟩
  · simp only [CInterpolator.Interpolate_Data, hcfg]; exact hD'
  · simp only [CInterpolator.Interpolate_Data, hcfg]; exact hE'

/-! ## Claims on `Interpolate_Data` -/

/-- `TransferReady` follows from a check marker by marker. -/
theorem transferReady_of_markers {YES : Nat} {G : List CGeometry} {nVar : Nat}
    {Data : DataStore} {cfg : CConfig} {z : Nat}
    (h : ∀ m, m < cfg.GetnMarker_All → cfg.GetMarker_All_FSIinterface m = YES →
      ∃ g vs, G[z]? = some g ∧ g.vertex[m]? = some vs ∧ ∀ v ∈ vs, DataReady nVar Data z v) :
    TransferReady YES G nVar Data cfg z := by
  constructor
  · intro m hm hf
    obtain ⟨g, vs, hg, hvs, -⟩ := h m hm hf
    simp [GetnVertex, hg, hvs]
  · rintro m i v ⟨hm, hf, hv⟩
    obtain ⟨g, vs, hg, hvs, hall⟩ := h m hm hf
    simp only [vertexAt, hg, hvs] at hv
    exact hall v (List.getElem?_mem hv)

/-- Failing input for C6: on the interface with two pairings, mapped by the nearest-neighbour
builder, `Interpolate_Data(0)` leaves the data of an interface vertex untouched whatever the
value of the constant `YES` is: the vertex of marker 1 (interface index 2) when `YES = 1`,
the vertex of marker 0 (interface index 1) otherwise. The entry keeps the value 9 it had
before the call; the donor sum of the vertex is 3 or 4. -/
theorem Interpolate_Data_skips_interface_marker (YES : Nat) :
    CNearestNeighbor.Set_TransferCoeff binary64 [meshPairA, meshPairB] [0, 1]
        [cfgTwo, cfgTwo] =
      some [meshPairAMapped, meshPairBMapped] ∧
    ∃ D' m v, CInterpolator.Interpolate_Data YES [meshPairAMapped, meshPairBMapped] 1 dataPair 0
        [cfgTwo, cfgTwo] = some D' ∧
      m < cfgTwo.GetnMarker_All ∧ cfgTwo.GetMarker_All_FSIinterface m ≠ 0 ∧
      vertexAt [meshPairAMapped, meshPairBMapped] 0 m 0 = some v ∧
      donorSum dataPair v 0 ≠ 9 ∧ readData dataPair 0 v.GetNode 0 = some 9 ∧
      readData D' 0 v.GetNode 0 = some 9 := by
  refine ⟨by decide!, ?_⟩
  by_cases h1 : YES = 1
  · subst h1
    exact ⟨some [some [[3], [9]], some [[3], [4]]], 1, _, by decide!, by decide, by decide, rfl,
      by decide!, by decide!, by decide!⟩
  · by_cases h2 : YES = 2
    · subst h2
      exact ⟨some [some [[9], [4]], some [[3], [4]]], 0, _, by decide!, by decide, by decide,
        rfl, by decide!, by decide!, by decide!⟩
    · refine ⟨dataPair, 0, _, ?_, by decide, by decide, rfl, by decide!, by decide!,
        by decide!⟩
      have e1 : ¬ (1 = YES) := fun h => h1 h.symm
      have e2 : ¬ (2 = YES) := fun h => h2 h.symm
      have hlen : cfgTwo.GetnMarker_All = 2 := rfl
      have hm0 : cfgTwo.GetMarker_All_FSIinterface 0 = 1 := rfl
      have hm1 : cfgTwo.GetMarker_All_FSIinterface 1 = 2 := rfl
      have hc : [cfgTwo, cfgTwo][0]? = some cfgTwo := rfl
      simp only [CInterpolator.Interpolate_Data, hc, hlen, forLoop_succ, forLoop_zero, Option.bind,
        dataMarker, hm0, hm1, e1, e2, if_false]

/-- C8: idempotence of `Interpolate_Data`. When the entries the call touches exist and the
donors of the vertices it visits lie in zones other than `z`, calling `Interpolate_Data(z)`
on the store left by a first call returns that very store. -/
theorem Interpolate_Data_idempotent (YES : Nat) (G : List CGeometry) (nVar : Nat)
    (D0 : DataStore) (config : List CConfig) (cfg : CConfig) (z : Nat)
    (hcfg : config[z]? = some cfg) (hready : TransferReady YES G nVar D0 cfg z)
    (hdon : ∀ m i v, Processed YES G cfg z m i v → ∀ j, j < v.GetnDonorPoints →
      donorZone v j ≠ z) :
    ∃ D1, CInterpolator.Interpolate_Data YES G nVar D0 z config = some D1 ∧
      CInterpolator.Interpolate_Data YES G nVar D1 z config = some D1 := by
  obtain ⟨D1, hrun, hsh, hoz, -, -⟩ := Interpolate_Data_inv hcfg hready
  obtain ⟨D', E', hD', hE', hshE, hozE, hdis⟩ :=
    Interpolate_Data_rel hcfg hready hdon hsh hoz
  rw [hrun] at hD'
  cases hD'
  refine ⟨D1, hrun, ?_⟩
  rw [hE']
  congr 1
  apply dataStore_ext (hshE.trans hsh.symm)
  intro z' p c
  by_cases hz : z' = z
  · subst hz
    rcases hdis p c with h | h <;> exact h
  · rw [hozE z' p c hz, hoz z' p c hz]

/-- Witness for C8 on the synthetic interface with the donor map of the nearest-neighbour
builder; the store after either call is shown. -/
theorem Interpolate_Data_idempotent_witness :
    ([cfgOne, cfgOne][0]? = some cfgOne ∧
    TransferReady 1 [meshAMapped, meshBMapped] 2 dataAB cfgOne 0 ∧
    (∀ m i v, Processed 1 [meshAMapped, meshBMapped] cfgOne 0 m i v →
      ∀ j, j < v.GetnDonorPoints → donorZone v j ≠ 0) ∧
    ∃ D1, CInterpolator.Interpolate_Data 1 [meshAMapped, meshBMapped] 2 dataAB 0
        [cfgOne, cfgOne] = some D1 ∧
      CInterpolator.Interpolate_Data 1 [meshAMapped, meshBMapped] 2 D1 0 [cfgOne, cfgOne] =
        some D1) ∧
    CInterpolator.Interpolate_Data 1 [meshAMapped, meshBMapped] 2 dataAB 0 [cfgOne, cfgOne] =
      some (some [some [[3, 4], [3, 4]], some [[3, 4]]]) :=
  have hready : TransferReady 1 [meshAMapped, meshBMapped] 2 dataAB cfgOne 0 :=
    transferReady_of_markers (fun m hm _ => by
      have : m = 0 := by
        have : m < 1 := hm
        omega
      subst this
      exact ⟨_, _, rfl, rfl, by decide!⟩)
  have hdon : ∀ m i v, Processed 1 [meshAMapped, meshBMapped] cfgOne 0 m i v →
      ∀ j, j < v.GetnDonorPoints → donorZone v j ≠ 0 := by
    rintro m i v ⟨hm, -, hv⟩ j hj
    have hm0 : m = 0 := by
      have : m < 1 := hm
      omega
    subst hm0
    have hi : i < 2 := vertexAt_lt_of_some (G := [meshAMapped, meshBMapped]) (z := 0) (m := 0)
      rfl hv
    have hv' : v ∈ [withDonor (mkVertex 0 [0, 0]) [1, 0, 0, 0] 1,
        withDonor (mkVertex 1 [2, 0]) [1, 0, 0, 0] 1] := List.getElem?_mem hv
    simp only [List.mem_cons, List.mem_singleton, List.not_mem_nil, or_false] at hv'
    rcases hv' with rfl | rfl
    · have : j = 0 := by
        have : j < 1 := hj
        omega
      subst this
      decide
    · have : j = 0 := by
        have : j < 1 := hj
        omega
      subst this
      decide
  ⟨⟨rfl, hready, hdon,
    Interpolate_Data_idempotent 1 [meshAMapped, meshBMapped] 2 dataAB [cfgOne, cfgOne] cfgOne 0
      rfl hready hdon⟩, by decide!⟩

/-! ## Claims on `Interpolate_Deformation` -/

theorem forLoop_first_none {σ : Type} (n : Nat) (body : Nat → σ → Option σ) (s : σ)
    (hn : 0 < n) (h : body 0 s = none) : forLoop n body s = none := by
  induction n with
  | zero => omega
  | succ n ih =>
    rw [forLoop_succ]
    rcases Nat.eq_zero_or_pos n with h0 | h0
    · subst h0
      rw [forLoop_zero]
      exact h
    · rw [ih h0]
      rfl

/-- A loop whose iterations, from a state satisfying `P`, either fault or keep `P`, and one
of whose iterations always faults from such a state, faults. -/
theorem forLoop_none_of_faulting {σ : Type} (P : σ → Prop) (n : Nat)
    (body : Nat → σ → Option σ) (s : σ) (hs : P s)
    (hkeep : ∀ i t, i < n → P t → body i t = none ∨ ∃ t', body i t = some t' ∧ P t')
    (k : Nat) (hk : k < n) (hfault : ∀ t, P t → body k t = none) :
    forLoop n body s = none := by
  induction n with
  | zero => omega
  | succ n ih =>
    rw [forLoop_succ]
    rcases Nat.lt_succ_iff_lt_or_eq.mp hk with h | h
    · rw [ih (fun i t hi ht => hkeep i t (Nat.lt_succ_of_lt hi) ht) h]
      rfl
    · subst h
      have hpre : forLoop k body s = none ∨ ∃ t, forLoop k body s = some t ∧ P t := by
        clear ih hfault hk
        have : ∀ j, j ≤ k → forLoop j body s = none ∨ ∃ t, forLoop j body s = some t ∧ P t := by
          intro j
          induction j with
          | zero => intro _; exact Or.inr ⟨s, rfl, hs⟩
          | succ j ihj =>
            intro hj
            rw [forLoop_succ]
            rcases ihj (by omega) with h1 | ⟨t, h1, h2⟩
            · left; rw [h1]; rfl
            · rw [h1]
              exact hkeep j t (by omega) h2
        exact this k (le_refl k)
      rcases hpre with h1 | ⟨t, h1, h2⟩
      · rw [h1]; rfl
      · rw [h1]
        exact hfault t h2

/-- With the pointer `NewVarCoord` equal to `NULL` and a positive dimension, the body of the
vertex loop faults at the write `NewVarCoord[0] = 0.0` of line 132. -/
theorem deformVertex_null (nDim z m i : Nat) (st : DeformState) (hdim : 0 < nDim)
    (hnull : st.NewVarCoord = none) : deformVertex nDim z m i st = none := by
  unfold deformVertex
  cases vertexAt st.Geometry z m i with
  | none => rfl
  | some v =>
    have : forLoop nDim (fun iDim b => bufWrite b iDim 0) st.NewVarCoord = none := by
      rw [hnull]
      exact forLoop_first_none nDim _ none hdim rfl
    simp only [this]

/-- C9 (the code departs from the claim): whenever the zone has a positive dimension and
`Interpolate_Deformation(z)` has a vertex to visit, the routine faults: it writes through the
pointer `NewVarCoord`, which is `NULL`, before any donor is read, so that no displacement is
written at all. -/
theorem Interpolate_Deformation_null_buffer (YES : Nat) (G : List CGeometry) (z : Nat)
    (config : List CConfig) (cfg : CConfig) (g : CGeometry) (m i : Nat) (v : CVertex)
    (hg : G[z]? = some g) (hcfg : config[z]? = some cfg) (hdim : 0 < g.nDim)
    (hp : Processed YES G cfg z m i v) :
    CInterpolator.Interpolate_Deformation YES G z config = none := by
  obtain ⟨hm, hflag, hv⟩ := hp
  have hloop : forLoop cfg.GetnMarker_All (deformMarker YES g.nDim cfg z)
      { NewVarCoord := none, distance := none, Geometry := G } = none := by
    apply forLoop_none_of_faulting
      (fun st : DeformState => st.NewVarCoord = none ∧ st.Geometry = G) _ _ _ ⟨rfl, rfl⟩ _ m hm
    · rintro t ⟨hnull, hgeo⟩
      simp only [deformMarker, hflag, if_true, hgeo]
      cases hn : GetnVertex G z m with
      | none => rfl
      | some n =>
        have hi : i < n := vertexAt_lt_of_some hn hv
        exact forLoop_first_none n _ t (by omega) (deformVertex_null _ _ _ _ _ hdim hnull)
    · rintro M t - ⟨hnull, hgeo⟩
      unfold deformMarker
      split
      · cases hn : GetnVertex t.Geometry z M with
        | none => exact Or.inl rfl
        | some n =>
          rcases Nat.eq_zero_or_pos n with h0 | h0
          · subst h0
            exact Or.inr ⟨t, rfl, hnull, hgeo⟩
          · left
            exact forLoop_first_none n _ t h0 (deformVertex_null _ _ _ _ _ hdim hnull)
      · exact Or.inr ⟨t, rfl, hnull, hgeo⟩
  simp only [CInterpolator.Interpolate_Deformation, hg, hcfg, hloop]

/-- Witness for C9 on the synthetic interface mapped by the nearest-neighbour builder. -/
theorem Interpolate_Deformation_null_buffer_witness :
    [meshAMapped, meshBMapped][0]? = some meshAMapped ∧ [cfgOne, cfgOne][0]? = some cfgOne ∧
    0 < meshAMapped.nDim ∧
    Processed 1 [meshAMapped, meshBMapped] cfgOne 0 0 0
      (withDonor (mkVertex 0 [0, 0]) [1, 0, 0, 0] 1) ∧
    CInterpolator.Interpolate_Deformation 1 [meshAMapped, meshBMapped] 0 [cfgOne, cfgOne] = none :=
  ⟨rfl, rfl, by decide, ⟨by decide, by decide, rfl⟩,
    Interpolate_Deformation_null_buffer 1 [meshAMapped, meshBMapped] 0 [cfgOne, cfgOne] cfgOne
      meshAMapped 0 0 _ rfl rfl (by decide) ⟨by decide, by decide, rfl⟩⟩

/-- Failing input for C10: the single donor of either vertex of zone 0 is displaced by the
translation `(1, 2)` and has no rotation, and its weight is 1; `Interpolate_Deformation(0)`
faults and returns no geometry, so the displacement `(1, 2)` is not written. -/
theorem Interpolate_Deformation_translation_faults :
    (vertexAt [meshAMapped, meshBTranslated] 1 0 0).map (fun v => (v.VarCoord, v.VarRot)) =
      some ([1, 2, 0], [0, 0, 0]) ∧
    (vertexAt [meshAMapped, meshBTranslated] 0 0 0).map
      (fun v => (v.GetnDonorPoints, v.Donor_Info, v.Donor_Coeff)) =
      some (1, [some [1, 0, 0, 0]], [some 1]) ∧
    CInterpolator.Interpolate_Deformation 1 [meshAMapped, meshBTranslated] 0 [cfgOne, cfgOne] =
      none := by
  refine ⟨by decide!, by decide!, by decide!⟩

/-! ## The arithmetic of `Interpolate_Deformation` with allocated scratch buffers

The routine as written faults at its first write. The lemmas of this section describe the
body of its vertex loop when it is entered with the two scratch pointers pointing to buffers
of at least `nDim` entries. -/

theorem bufWrite_some {b : List ℚ} {i : Nat} (x : ℚ) (hi : i < b.length) :
    bufWrite (some b) i x = some (some (b.set i x)) := by
  simp [bufWrite, hi]

theorem bufAdd_some {b : List ℚ} {i : Nat} (x : ℚ) (hi : i < b.length) :
    bufAdd (some b) i x = some (some (b.set i (b.getD i 0 + x))) := by
  simp [bufAdd, bufRead, bufWrite, hi, List.getElem?_eq_getElem hi, List.getD_eq_getElem?_getD]

theorem getD_set (b : List ℚ) (i k : Nat) (x : ℚ) (hi : i < b.length) :
    (b.set i x).getD k 0 = if k = i then x else b.getD k 0 := by
  simp only [List.getD_eq_getElem?_getD, List.getElem?_set]
  by_cases h : i = k
  · subst h; simp [hi]
  · have h' : ¬ k = i := fun e => h e.symm
    simp [h, h']

/-- The loop that zeroes a scratch buffer (lines 132 and 144). -/
theorem bufZero_spec (nDim : Nat) (b : List ℚ) (hlen : nDim ≤ b.length) :
    ∃ b', forLoop nDim (fun iDim d => bufWrite d iDim 0) (some b) = some (some b') ∧
      b'.length = b.length ∧
      ∀ k, b'.getD k 0 = if k < nDim then 0 else b.getD k 0 := by
  have key := forLoop_inv
    (fun n (s : Option (List ℚ)) => ∃ b', s = some b' ∧ b'.length = b.length ∧
      ∀ k, b'.getD k 0 = if k < n then 0 else b.getD k 0)
    nDim (fun iDim d => bufWrite d iDim 0) (some b)
    ⟨b, rfl, rfl, fun k => by simp⟩
    (by
      rintro n s hn ⟨b', rfl, hl, hb⟩
      have hn' : n < b'.length := by omega
      refine ⟨some (b'.set n 0), bufWrite_some 0 hn', b'.set n 0, rfl, by simp [hl], ?_⟩
      intro k
      rw [getD_set _ _ _ _ hn', hb]
      by_cases h1 : k = n
      · subst h1; simp
      · by_cases h2 : k < n
        · have : k < n + 1 := by omega
          simp [h1, h2, this]
        · have : ¬ k < n + 1 := by omega
          simp [h1, h2, this])
  obtain ⟨s, hs, b', rfl, hl, hb⟩ := key
  exact ⟨b', hs, hl, hb⟩

/-- The loop of lines 146-149 for one donor. -/
theorem leverLoop_spec (nDim : Nat) (v : CVertex) (u : List ℚ) (w : ℚ) (pj : CPoint)
    (bn bd : List ℚ) (hn : nDim ≤ bn.length) (hd : nDim ≤ bd.length) :
    ∃ bn' bd', forLoop nDim (leverStep v u w (some pj)) (some bn, some bd) =
        some (some bn', some bd') ∧
      bn'.length = bn.length ∧ bd'.length = bd.length ∧
      (∀ k, bn'.getD k 0 = if k < nDim then bn.getD k 0 + u.getD k 0 * w else bn.getD k 0) ∧
      ∀ k, bd'.getD k 0 =
        if k < nDim then v.GetCoord k - pj.GetCoord k else bd.getD k 0 := by
  have key := forLoop_inv
    (fun n (s : Option (List ℚ) × Option (List ℚ)) => ∃ bn' bd', s = (some bn', some bd') ∧
      bn'.length = bn.length ∧ bd'.length = bd.length ∧
      (∀ k, bn'.getD k 0 = if k < n then bn.getD k 0 + u.getD k 0 * w else bn.getD k 0) ∧
      ∀ k, bd'.getD k 0 = if k < n then v.GetCoord k - pj.GetCoord k else bd.getD k 0)
    nDim (leverStep v u w (some pj)) (some bn, some bd)
    ⟨bn, bd, rfl, rfl, rfl, fun k => by simp, fun k => by simp⟩
    (by
      rintro n s hlt ⟨bn', bd', rfl, hl1, hl2, h1, h2⟩
      have hn1 : n < bn'.length := by omega
      have hn2 : n < bd'.length := by omega
      refine ⟨(some (bn'.set n (bn'.getD n 0 + u.getD n 0 * w)),
        some (bd'.set n (v.GetCoord n - pj.GetCoord n))), ?_, _, _, rfl, by simp [hl1],
        by simp [hl2], ?_, ?_⟩
      · simp only [leverStep, bufAdd_some _ hn1, bufWrite_some _ hn2]
      · intro k
        rw [getD_set _ _ _ _ hn1, h1 n, h1 k]
        by_cases e1 : k = n
        · subst e1; simp
        · by_cases e2 : k < n
          · have : k < n + 1 := by omega
            simp [e1, e2, this]
          · have : ¬ k < n + 1 := by omega
            simp [e1, e2, this]
      · intro k
        rw [getD_set _ _ _ _ hn2, h2 k]
        by_cases e1 : k = n
        · subst e1; simp
        · by_cases e2 : k < n
          · have : k < n + 1 := by omega
            simp [e1, e2, this]
          · have : ¬ k < n + 1 := by omega
            simp [e1, e2, this])
  obtain ⟨s, hs, bn', bd', rfl, h⟩ := key
  exact ⟨bn', bd', hs, h⟩

theorem bufRead_some {b : List ℚ} {i : Nat} (hi : i < b.length) :
    bufRead (some b) i = some (b.getD i 0) := by
  simp [bufRead, List.getElem?_eq_getElem hi, List.getD_eq_getElem?_getD]

theorem bufAdd_spec (b : List ℚ) (i : Nat) (x : ℚ) (hi : i < b.length) :
    ∃ b', bufAdd (some b) i x = some (some b') ∧ b'.length = b.length ∧
      ∀ k, b'.getD k 0 = if k = i then b.getD i 0 + x else b.getD k 0 :=
  ⟨b.set i (b.getD i 0 + x), bufAdd_some x hi, by simp, fun k => getD_set b i k _ hi⟩

/-- The rotation term of lines 151-154 on allocated buffers. -/
theorem rotation2_spec (rot : List ℚ) (w : ℚ) (bn bd : List ℚ) (hn : 2 ≤ bn.length)
    (hd : 2 ≤ bd.length) :
    ∃ bn', rotation2 rot w (some bn, some bd) = some (some bn') ∧ bn'.length = bn.length ∧
      ∀ k, bn'.getD k 0 = bn.getD k 0 + w * rotationTerm 2 rot (fun c => bd.getD c 0) k := by
  obtain ⟨b1, hb1, hl1, hg1⟩ :=
    bufAdd_spec bn 0 (w * (-bd.getD 1 0 * rot.getD 2 0)) (by omega)
  obtain ⟨b2, hb2, hl2, hg2⟩ :=
    bufAdd_spec b1 1 (w * (bd.getD 0 0 * rot.getD 2 0)) (by omega)
  refine ⟨b2, ?_, by omega, ?_⟩
  · simp only [rotation2, bufRead_some (show 1 < bd.length by omega),
      bufRead_some (show 0 < bd.length by omega), hb1, hb2]
  · intro k
    rw [hg2, hg1 1, hg1 k]
    unfold rotationTerm
    split_ifs <;> first | omega | contradiction | (subst_vars; ring)

/-- The rotation term of lines 155-159 on allocated buffers. -/
theorem rotation3_spec (rot : List ℚ) (w : ℚ) (bn bd : List ℚ) (hn : 3 ≤ bn.length)
    (hd : 3 ≤ bd.length) :
    ∃ bn', rotation3 rot w (some bn, some bd) = some (some bn') ∧ bn'.length = bn.length ∧
      ∀ k, bn'.getD k 0 = bn.getD k 0 + w * rotationTerm 3 rot (fun c => bd.getD c 0) k := by
  obtain ⟨b1, hb1, hl1, hg1⟩ :=
    bufAdd_spec bn 0 (w * (bd.getD 2 0 * rot.getD 1 0 - bd.getD 1 0 * rot.getD 2 0)) (by omega)
  obtain ⟨b2, hb2, hl2, hg2⟩ :=
    bufAdd_spec b1 1 (w * (bd.getD 0 0 * rot.getD 2 0 - bd.getD 2 0 * rot.getD 0 0)) (by omega)
  obtain ⟨b3, hb3, hl3, hg3⟩ :=
    bufAdd_spec b2 2 (w * (bd.getD 1 0 * rot.getD 0 0 - bd.getD 0 0 * rot.getD 1 0)) (by omega)
  refine ⟨b3, ?_, by omega, ?_⟩
  · simp only [rotation3, bufRead_some (show 0 < bd.length by omega),
      bufRead_some (show 1 < bd.length by omega), bufRead_some (show 2 < bd.length by omega),
      hb1, hb2, hb3]
  · intro k
    rw [hg3, hg2 2, hg2 k, hg1 1, hg1 2, hg1 k]
    unfold rotationTerm
    split_ifs <;> first | omega | contradiction | (subst_vars; ring)

/-- One donor of `Interpolate_Deformation` (lines 134-160) on allocated buffers: the buffer
`NewVarCoord` grows, component by component, by the weighted motion of the donor. -/
theorem deformDonor_spec (nDim z m i j : Nat) (G : List CGeometry) (v : CVertex)
    (bn bd : List ℚ) (hdim : nDim = 2 ∨ nDim = 3) (hn : nDim ≤ bn.length)
    (hd : nDim ≤ bd.length) (hv : vertexAt G z m i = some v) (hj : j < v.GetnDonorPoints)
    (hready : DeformReady G v) :
    ∃ bn' bd', deformDonor nDim z m i j ⟨some bn, some bd, G⟩ = some ⟨some bn', some bd', G⟩ ∧
      bn'.length = bn.length ∧ bd'.length = bd.length ∧
      ∀ k, k < nDim → bn'.getD k 0 = bn.getD k 0 + donorWeight v j * donorMotion G nDim v j k := by
  obtain ⟨hset, hex⟩ := hready
  obtain ⟨hinfo, hco⟩ := hset j hj
  obtain ⟨i0, h0⟩ := Option.isSome_iff_exists.mp (hinfo 0 (by omega))
  obtain ⟨i1, h1⟩ := Option.isSome_iff_exists.mp (hinfo 1 (by omega))
  obtain ⟨i2, h2⟩ := Option.isSome_iff_exists.mp (hinfo 2 (by omega))
  obtain ⟨i3, h3⟩ := Option.isSome_iff_exists.mp (hinfo 3 (by omega))
  obtain ⟨w, hw⟩ := Option.isSome_iff_exists.mp hco
  obtain ⟨hdv, hpj⟩ := hex j hj
  obtain ⟨dv, hdv⟩ := Option.isSome_iff_exists.mp hdv
  obtain ⟨pj, hpj⟩ := Option.isSome_iff_exists.mp hpj
  have ez : donorZone v j = i0 % 2 ^ 32 := by simp [donorZone, h0]
  have ep : donorPoint v j = i1 := by simp [donorPoint, h1]
  have em : donorMarker v j = i2 % 2 ^ 16 := by simp [donorMarker, h2]
  have ev : donorVertex v j = i3 := by simp [donorVertex, h3]
  have ew : donorWeight v j = w := by simp [donorWeight, hw]
  have hmot : ∀ k, donorMotion G nDim v j k = dv.VarCoord.getD k 0 +
      rotationTerm nDim dv.VarRot (fun c => v.GetCoord c - pj.GetCoord c) k := by
    intro k
    simp only [donorMotion, hdv, hpj]
  rw [ez, em, ev] at hdv
  rw [ez, ep] at hpj
  obtain ⟨bd0, hz, hl0, -⟩ := bufZero_spec nDim bd hd
  obtain ⟨bn1, bd1, hlev, hln1, hld1, hbn1, hbd1⟩ :=
    leverLoop_spec nDim v dv.VarCoord w pj bn bd0 hn (by omega)
  have hrot : ∀ k, k < nDim →
      rotationTerm nDim dv.VarRot (fun c => bd1.getD c 0) k =
        rotationTerm nDim dv.VarRot (fun c => v.GetCoord c - pj.GetCoord c) k := by
    intro k _
    rcases hdim with rfl | rfl
    · simp only [rotationTerm, if_true, hbd1 0, hbd1 1]
      simp
    · simp only [rotationTerm, hbd1 0, hbd1 1, hbd1 2]
      simp
  rcases hdim with rfl | rfl
  · obtain ⟨bn2, hr, hl2, hb2⟩ := rotation2_spec dv.VarRot w bn1 bd1 (by omega) (by omega)
    refine ⟨bn2, bd1, ?_, by omega, by omega, ?_⟩
    · simp only [deformDonor, hv, h0, h1, h2, h3, hw, hdv, hz, hpj, hlev, if_true, hr]
      simp
    · intro k hk
      rw [hb2, hbn1, hrot k hk, ew, hmot]
      simp only [hk, if_true]
      ring
  · obtain ⟨bn2, hr, hl2, hb2⟩ := rotation3_spec dv.VarRot w bn1 bd1 (by omega) (by omega)
    refine ⟨bn2, bd1, ?_, by omega, by omega, ?_⟩
    · simp only [deformDonor, hv, h0, h1, h2, h3, hw, hdv, hz, hpj, hlev]
      simp [hr]
    · intro k hk
      rw [hb2, hbn1, hrot k hk, ew, hmot]
      simp only [hk, if_true]
      ring

theorem getD_take_append (l r : List ℚ) (n k : Nat) (hk : k < n) (hn : n ≤ l.length) :
    (l.take n ++ r).getD k 0 = l.getD k 0 := by
  have h1 : k < (l.take n).length := by simp; omega
  simp only [List.getD_eq_getElem?_getD, List.getElem?_append_left h1, List.getElem?_take, hk,
    if_true]

/-- One vertex of `Interpolate_Deformation` (lines 129-163) entered with allocated scratch
buffers, in dimension 2 or 3: the body does not fault when the donor vertices and points
exist, touches no other vertex, and writes to the vertex, component by component, the sum
over its donors of `weight_j * (u_j + r_j(d_j))`. -/
theorem deformVertex_allocated (nDim z m i : Nat) (G : List CGeometry) (v : CVertex)
    (bn bd : List ℚ) (hdim : nDim = 2 ∨ nDim = 3) (hn : nDim ≤ bn.length)
    (hd : nDim ≤ bd.length) (hv : vertexAt G z m i = some v) (hready : DeformReady G v) :
    ∃ bn' bd' G', deformVertex nDim z m i ⟨some bn, some bd, G⟩ = some ⟨some bn', some bd', G'⟩ ∧
      bn'.length = bn.length ∧ bd'.length = bd.length ∧
      (∀ z' m' i', ¬ (z' = z ∧ m' = m ∧ i' = i) → vertexAt G' z' m' i' = vertexAt G z' m' i') ∧
      ∃ v', vertexAt G' z m i = some v' ∧ ∀ k, k < nDim → v'.VarCoord.getD k 0 =
        ∑ j in Finset.range v.GetnDonorPoints, donorWeight v j * donorMotion G nDim v j k := by
  obtain ⟨bn0, hz, hl0, hb0⟩ := bufZero_spec nDim bn hn
  have key := forLoop_inv
    (fun n (st : DeformState) => ∃ bn' bd', st = ⟨some bn', some bd', G⟩ ∧
      bn'.length = bn.length ∧ bd'.length = bd.length ∧
      ∀ k, k < nDim → bn'.getD k 0 =
        ∑ j in Finset.range n, donorWeight v j * donorMotion G nDim v j k)
    v.GetnDonorPoints (deformDonor nDim z m i) ⟨some bn0, some bd, G⟩
    ⟨bn0, bd, rfl, hl0, rfl, fun k hk => by rw [hb0]; simp [hk]⟩
    (by
      rintro n st hlt ⟨bn', bd', rfl, hl1, hl2, hsum⟩
      obtain ⟨bn'', bd'', hrun, hl1', hl2', hval⟩ :=
        deformDonor_spec nDim z m i n G v bn' bd' hdim (by omega) (by omega) hv hlt hready
      refine ⟨_, hrun, bn'', bd'', rfl, by omega, by omega, ?_⟩
      intro k hk
      rw [hval k hk, hsum k hk, Finset.sum_range_succ])
  obtain ⟨st, hrun, bn', bd', rfl, hl1, hl2, hsum⟩ := key
  have hstore : storeVarCoord nDim (some bn') v = some (v.SetVarCoord nDim bn') := by
    simp only [storeVarCoord]
    rw [if_pos (by omega)]
  obtain ⟨G', hG'⟩ := modVertex_some (f := storeVarCoord nDim (some bn')) hv hstore
  refine ⟨bn', bd', G', ?_, hl1, hl2, fun z' m' i' hne => vertexAt_modVertex_ne hG' z' m' i' hne,
    v.SetVarCoord nDim bn', ?_, ?_⟩
  · simp only [deformVertex, hv, hz, hrun, hG']
  · rw [vertexAt_modVertex_same hG', hv]
    exact hstore
  · intro k hk
    rw [← hsum k hk]
    exact getD_take_append bn' _ nDim k hk (by omega)

/-- Rigid translation on allocated scratch buffers: when every donor of the vertex is
displaced by the same vector `t` without rotation and the donor weights sum to 1, the body of
the vertex loop writes exactly `t`, whatever the coordinates are. -/
theorem deformVertex_allocated_translation (nDim z m i : Nat) (G : List CGeometry)
    (v : CVertex) (bn bd : List ℚ) (t : Nat → ℚ) (hdim : nDim = 2 ∨ nDim = 3)
    (hn : nDim ≤ bn.length) (hd : nDim ≤ bd.length) (hv : vertexAt G z m i = some v)
    (hready : DeformReady G v)
    (htrans : ∀ j dv, j < v.GetnDonorPoints →
      vertexAt G (donorZone v j) (donorMarker v j) (donorVertex v j) = some dv →
      (∀ k, k < nDim → dv.VarCoord.getD k 0 = t k) ∧ ∀ c, dv.VarRot.getD c 0 = 0)
    (hsum : ∑ j in Finset.range v.GetnDonorPoints, donorWeight v j = 1) :
    ∃ bn' bd' G' v', deformVertex nDim z m i ⟨some bn, some bd, G⟩ =
        some ⟨some bn', some bd', G'⟩ ∧
      vertexAt G' z m i = some v' ∧ ∀ k, k < nDim → v'.VarCoord.getD k 0 = t k := by
  obtain ⟨bn', bd', G', hrun, -, -, -, v', hv', hval⟩ :=
    deformVertex_allocated nDim z m i G v bn bd hdim hn hd hv hready
  refine ⟨bn', bd', G', v', hrun, hv', fun k hk => ?_⟩
  rw [hval k hk]
  have hterm : ∀ j ∈ Finset.range v.GetnDonorPoints,
      donorWeight v j * donorMotion G nDim v j k = donorWeight v j * t k := by
    intro j hj
    have hj' := Finset.mem_range.mp hj
    obtain ⟨hdv, hpj⟩ := hready.2 j hj'
    obtain ⟨dv, hdv⟩ := Option.isSome_iff_exists.mp hdv
    obtain ⟨pj, hpj⟩ := Option.isSome_iff_exists.mp hpj
    obtain ⟨hu, hr⟩ := htrans j dv hj' hdv
    congr 1
    simp only [donorMotion, hdv, hpj, hu k hk, rotationTerm, hr]
    split_ifs <;> ring
  rw [Finset.sum_congr rfl hterm, ← Finset.sum_mul, hsum, one_mul]

/-! ## Rigid rotation -/

/-- The rotation term is additive in the lever arm. -/
theorem rotationTerm_add (nDim : Nat) (rot : List ℚ) (d e : Nat → ℚ) (k : Nat) :
    rotationTerm nDim rot d k + rotationTerm nDim rot e k =
      rotationTerm nDim rot (fun c => d c + e c) k := by
  unfold rotationTerm
  split_ifs <;> ring

/-- Rigid rotation on allocated scratch buffers: when every donor carries the rotation vector
`rot` and the displacement `rot × (x_j - ctr)` of its point `x_j` in a rigid rotation about
`ctr`, and the donor weights sum to 1, the body of the vertex loop writes
`rot × (x_i - ctr)` for the vertex at `x_i`, in dimension 2 and in dimension 3. -/
theorem deformVertex_allocated_rotation (nDim z m i : Nat) (G : List CGeometry)
    (v : CVertex) (bn bd : List ℚ) (rot : List ℚ) (ctr : Nat → ℚ)
    (hdim : nDim = 2 ∨ nDim = 3) (hn : nDim ≤ bn.length) (hd : nDim ≤ bd.length)
    (hv : vertexAt G z m i = some v) (hready : DeformReady G v)
    (hrigid : ∀ j dv pj, j < v.GetnDonorPoints →
      vertexAt G (donorZone v j) (donorMarker v j) (donorVertex v j) = some dv →
      (G[donorZone v j]?).bind (fun g => g.node[donorPoint v j]?) = some pj →
      dv.VarRot = rot ∧ ∀ k, k < nDim →
        dv.VarCoord.getD k 0 = rotationTerm nDim rot (fun c => pj.GetCoord c - ctr c) k)
    (hsum : ∑ j in Finset.range v.GetnDonorPoints, donorWeight v j = 1) :
    ∃ bn' bd' G' v', deformVertex nDim z m i ⟨some bn, some bd, G⟩ =
        some ⟨some bn', some bd', G'⟩ ∧
      vertexAt G' z m i = some v' ∧ ∀ k, k < nDim →
        v'.VarCoord.getD k 0 = rotationTerm nDim rot (fun c => v.GetCoord c - ctr c) k := by
  obtain ⟨bn', bd', G', hrun, -, -, -, v', hv', hval⟩ :=
    deformVertex_allocated nDim z m i G v bn bd hdim hn hd hv hready
  refine ⟨bn', bd', G', v', hrun, hv', fun k hk => ?_⟩
  rw [hval k hk]
  have hterm : ∀ j ∈ Finset.range v.GetnDonorPoints,
      donorWeight v j * donorMotion G nDim v j k =
        donorWeight v j * rotationTerm nDim rot (fun c => v.GetCoord c - ctr c) k := by
    intro j hj
    have hj' := Finset.mem_range.mp hj
    obtain ⟨hdv, hpj⟩ := hready.2 j hj'
    obtain ⟨dv, hdv⟩ := Option.isSome_iff_exists.mp hdv
    obtain ⟨pj, hpj⟩ := Option.isSome_iff_exists.mp hpj
    obtain ⟨hr, hu⟩ := hrigid j dv pj hj' hdv hpj
    congr 1
    simp only [donorMotion, hdv, hpj, hu k hk, hr]
    rw [rotationTerm_add]
    congr 1
    funext c
    ring
  rw [Finset.sum_congr rfl hterm, ← Finset.sum_mul, hsum, one_mul]

/-- Failing input for C11: the donor of either vertex of zone 0 is the zone-1 vertex `(1,0)`,
moved by the rigid rotation of rate 1 about the origin (displacement `(0, 1)`, rotation
vector `(0, 0, 1)`), with weight 1; `Interpolate_Deformation(0)` faults and returns no
geometry, so the displacements `(0, 0)` and `(0, 2)` of the rotation are not written. -/
theorem Interpolate_Deformation_rotation_faults :
    (vertexAt [meshAMapped, meshBRotated] 1 0 0).map
      (fun v => (v.VarCoord, v.VarRot,
        (List.range 2).map (rotationTerm 2 v.VarRot (fun c => v.GetCoord c - 0)))) =
      some ([0, 1, 0], [0, 0, 1], [0, 1]) ∧
    (vertexAt [meshAMapped, meshBRotated] 0 0 1).map
      (fun v => (v.GetnDonorPoints, v.Donor_Info, v.Donor_Coeff,
        (List.range 2).map (rotationTerm 2 [0, 0, 1] (fun c => v.GetCoord c - 0)))) =
      some (1, [some [1, 0, 0, 0]], [some 1], [0, 2]) ∧
    CInterpolator.Interpolate_Deformation 1 [meshAMapped, meshBRotated] 0 [cfgOne, cfgOne] =
      none := by
  refine ⟨by decide!, by decide!, by decide!⟩

/-! ## Claims on the data store accessors -/

/-- C12: when the storage is unallocated, that is after the constructor or after
`InitializeData(Zones, 0)` (whatever the store held before), `GetData(zone, point, var)`
returns `0.0` for every zone, point and variable, and `SetData` does not fault, writes its
message and leaves the object as it was, so that the storage is still unallocated and a
read after the write still returns `0.0`. -/
theorem unallocated_GetData_SetData (geometry_container : List CGeometry) (val_nZone : Nat)
    (self : CInterpolator) (Zones : List Nat) (iZone iPoint iVar : Nat) (val : ℚ) :
    (CInterpolator.construct geometry_container val_nZone).Data = none ∧
    (∃ s, self.InitializeData Zones 0 = some s ∧ s.Data = none) ∧
    ∀ s : CInterpolator, s.Data = none →
      s.GetData iZone iPoint iVar = some 0 ∧ s.GetData_vec iZone iPoint = some none ∧
      s.SetData iZone iPoint iVar val = some (s, true) ∧
      (s.SetData iZone iPoint iVar val).bind (fun r => r.1.GetData iZone iPoint iVar) =
        some 0 := by
  refine ⟨rfl, ⟨{ self with nVar := some 0, Data := none },
    by simp [CInterpolator.InitializeData], rfl⟩, ?_⟩
  intro s hs
  have h1 : s.GetData iZone iPoint iVar = some 0 := by simp [CInterpolator.GetData, hs]
  have h2 : s.SetData iZone iPoint iVar val = some (s, true) := by
    simp [CInterpolator.SetData, hs]
  refine ⟨h1, by simp [CInterpolator.GetData_vec, hs], h2, ?_⟩
  rw [h2]
  exact h1

/-- Witness for C12: a freshly constructed interpolator of the synthetic interface. -/
theorem unallocated_GetData_SetData_witness :
    (CInterpolator.construct [meshA, meshB] 2).GetData 1 0 1 = some 0 ∧
    (CInterpolator.construct [meshA, meshB] 2).SetData 1 0 1 5 =
      some (CInterpolator.construct [meshA, meshB] 2, true) :=
  have h := (unallocated_GetData_SetData [meshA, meshB] 2
    (CInterpolator.construct [meshA, meshB] 2) [0, 1] 1 0 1 5).2.2
    (CInterpolator.construct [meshA, meshB] 2) rfl
  ⟨h.1, h.2.2.1⟩

/-- C17: write/read round trip with frame. When the storage is allocated and the entry
`(z, p, c)` exists, `SetData(z, p, c, x)` does not fault and writes no message; afterwards
`GetData(z, p, c)` returns `x`, the vector `GetData(z, p)` has `x` at position `c`, and
every other entry reads as before the write. -/
theorem SetData_GetData_round_trip (self : CInterpolator) (z p c : Nat) (a x : ℚ)
    (hin : readData self.Data z p c = some a) :
    ∃ s, self.SetData z p c x = some (s, false) ∧
      s.GetData z p c = some x ∧
      (∃ row, s.GetData_vec z p = some (some row) ∧ row[c]? = some x) ∧
      ∀ z' p' c', ¬ (z' = z ∧ p' = p ∧ c' = c) →
        s.GetData z' p' c' = self.GetData z' p' c' := by
  obtain ⟨D', hw, hsh, hrd⟩ := writeData_spec hin x
  cases hD : self.Data with
  | none => rw [hD] at hin; simp [readData] at hin
  | some T =>
    rw [hD] at hw hrd
    cases hD' : D' with
    | none =>
      have := hrd z p c
      rw [hD'] at this
      simp [readData] at this
    | some T' =>
      have hget : ∀ z' p' c', CInterpolator.GetData { self with Data := some T' } z' p' c' =
          readData (some T') z' p' c' := fun _ _ _ => rfl
      have hget0 : ∀ z' p' c', self.GetData z' p' c' = readData (some T) z' p' c' := by
        intro z' p' c'
        simp [CInterpolator.GetData, hD]
      refine ⟨{ self with Data := some T' }, ?_, ?_, ?_, ?_⟩
      · simp [CInterpolator.SetData, hD, hw, hD']
      · rw [hget, ← hD', hrd]; simp
      · have h1 := hrd z p c
        rw [hD'] at h1
        simp only [true_and, and_self, if_true] at h1
        simp only [readData] at h1
        simp only [CInterpolator.GetData_vec]
        cases hz : T'[z]? with
        | none => simp [hz] at h1
        | some slot =>
          cases slot with
          | none => simp [hz] at h1
          | some pts =>
            cases hp : pts[p]? with
            | none => simp [hz, hp] at h1
            | some row =>
              simp only [hz, hp] at h1
              exact ⟨row, by simp [hp], h1⟩
      · intro z' p' c' hne
        rw [hget, hget0, ← hD', hrd]
        simp [hne]

/-- Witness for C17 on a store of the synthetic interface. -/
theorem SetData_GetData_round_trip_witness :
    readData (CInterpolator.mk [meshA, meshB] 2 (some 2) dataAB).Data 0 1 1 = some 8 ∧
    ∃ s, (CInterpolator.mk [meshA, meshB] 2 (some 2) dataAB).SetData 0 1 1 7 =
        some (s, false) ∧
      s.GetData 0 1 1 = some 7 ∧
      (∃ row, s.GetData_vec 0 1 = some (some row) ∧ row[1]? = some 7) ∧
      ∀ z' p' c', ¬ (z' = 0 ∧ p' = 1 ∧ c' = 1) →
        s.GetData z' p' c' =
          (CInterpolator.mk [meshA, meshB] 2 (some 2) dataAB).GetData z' p' c' :=
  ⟨by decide!, SetData_GetData_round_trip (CInterpolator.mk [meshA, meshB] 2 (some 2) dataAB)
    0 1 1 8 7 (by decide!)⟩

/-! ## `InitializeData` -/

/-- Reading a block of zeros. -/
theorem readData_zero_block (T : List (Option (List (List ℚ)))) (z nPoint n p c : Nat)
    (hT : T[z]? = some (some (List.replicate nPoint (List.replicate n 0))))
    (hp : p < nPoint) (hc : c < n) : readData (some T) z p c = some 0 := by
  simp [readData, hT, List.getElem?_replicate, hp, hc]

/-- Counterexample to C13: in a container of three zones with `nZone = 2`, the call
`InitializeData([1, 2], 2)` addresses slot 2 of an outer table of two slots: the call faults
and no entry of the listed zones can be read. -/
theorem InitializeData_zone_id_out_of_table :
    (CInterpolator.construct threeZones 2).InitializeData [1, 2] 2 = none := by
  decide!

/-- C13, amended: when `n > 0`, `nZone` fits the loop counter, and every one of the first
`nZone` entries of `Zones` is the id, below `nZone`, of a zone of the container, then
`InitializeData(Zones, n)` succeeds, and for the zone at each of these positions, every point
index below the zone's point count and every variable index below `n`, the entry exists in
the allocated storage and holds `0.0`, and `GetData` returns `0.0`. -/
theorem InitializeData_zeroed (self : CInterpolator) (Zones : List Nat) (n : Nat)
    (hn : 0 < n) (hshort : self.nZone < 2 ^ 16)
    (hZ : ∀ it, it < self.nZone →
      ∃ z g, Zones[it]? = some z ∧ z < self.nZone ∧ self.Geometry[z]? = some g) :
    ∃ s, self.InitializeData Zones n = some s ∧ s.nVar = some n ∧
      ∀ it z g, it < self.nZone → Zones[it]? = some z → self.Geometry[z]? = some g →
        ∀ p c, p < g.GetnPoint → c < n →
          readData s.Data z p c = some 0 ∧ s.GetData z p c = some 0 := by
  have key := forLoop_inv
    (fun k (T : List (Option (List (List ℚ)))) => T.length = self.nZone ∧
      ∀ it z g, it < k → Zones[it]? = some z → self.Geometry[z]? = some g →
        T[z]? = some (some (List.replicate g.GetnPoint (List.replicate n 0))))
    self.nZone (CInterpolator.initZone self.Geometry Zones n) (List.replicate self.nZone none)
    ⟨by simp, fun it z g h => absurd h (Nat.not_lt_zero it)⟩
    (by
      intro k T hk ⟨hlen, hinv⟩
      obtain ⟨z, g, hz, hlt, hg⟩ := hZ k hk
      refine ⟨T.set z (some (List.replicate g.GetnPoint (List.replicate n 0))), ?_, ?_, ?_⟩
      · simp [CInterpolator.initZone, hz, hg, hlen, hlt]
      · simp [hlen]
      · intro it z' g' hit hz' hg'
        by_cases hzz : z' = z
        · subst hzz
          rw [hg] at hg'
          cases hg'
          simp [List.getElem?_set, hlen, hlt]
        · rw [List.getElem?_set_ne (Ne.symm hzz)]
          have hit' : it < k := by
            rcases Nat.lt_succ_iff_lt_or_eq.mp hit with h | h
            · exact h
            · subst h
              rw [hz] at hz'
              cases hz'
              exact absurd rfl hzz
          exact hinv it z' g' hit' hz' hg')
  obtain ⟨T, hrun, -, hT⟩ := key
  refine ⟨{ self with nVar := some n, Data := some T }, ?_, rfl, ?_⟩
  · have hshort2 : self.nZone < 65536 := hshort
    simp [CInterpolator.InitializeData, hn, hshort2, hrun]
  · intro it z g hit hz hg p c hp hc
    have hread := readData_zero_block T z g.GetnPoint n p c (hT it z g hit hz hg) hp hc
    exact ⟨hread, hread⟩

/-- Witness for C13 (amended) on the synthetic interface: zones `[0, 1]`, two variables. -/
theorem InitializeData_zeroed_witness :
    ∃ s, (CInterpolator.construct [meshA, meshB] 2).InitializeData [0, 1] 2 = some s ∧
      s.nVar = some 2 ∧
      ∀ it z g, it < (CInterpolator.construct [meshA, meshB] 2).nZone →
        [0, 1][it]? = some z →
        (CInterpolator.construct [meshA, meshB] 2).Geometry[z]? = some g →
        ∀ p c, p < g.GetnPoint → c < 2 →
          readData s.Data z p c = some 0 ∧ s.GetData z p c = some 0 :=
  InitializeData_zeroed (CInterpolator.construct [meshA, meshB] 2) [0, 1] 2 (by decide)
    (by decide) (by
      intro it hit
      have h2 : it < 2 := hit
      interval_cases it
      · exact ⟨0, meshA, rfl, by decide, rfl⟩
      · exact ⟨1, meshB, rfl, by decide, rfl⟩)

/-! ## Shape of the nearest-neighbour map -/

/-- C18: on the synthetic interface (zone 0 with the vertices `(0,0)` and `(2,0)`, zone 1
with the vertex `(1,0)`) the nearest-neighbour builder gives the two distinct vertices of
zone 0 the same donor, vertex 0 of zone 1, and gives that vertex the donor vertex 0 of
zone 0: vertex 1 of zone 0 has the vertex of zone 1 as donor, but is not its donor. -/
theorem Set_TransferCoeff_not_injective_not_symmetric :
    ∃ G', CNearestNeighbor.Set_TransferCoeff binary64 [meshA, meshB] [0, 1] [cfgOne, cfgOne] =
        some G' ∧
      (vertexAt G' 0 0 0).map (fun v => (v.CartCoord, v.GetnDonorPoints, v.Donor_Info)) =
        some ([0, 0], 1, [some [1, 0, 0, 0]]) ∧
      (vertexAt G' 0 0 1).map (fun v => (v.CartCoord, v.GetnDonorPoints, v.Donor_Info)) =
        some ([2, 0], 1, [some [1, 0, 0, 0]]) ∧
      (vertexAt G' 1 0 0).map (fun v => (v.CartCoord, v.GetnDonorPoints, v.Donor_Info)) =
        some ([1, 0], 1, [some [0, 0, 0, 0]]) :=
  ⟨[meshAMapped, meshBMapped], by decide!, by decide!, by decide!, by decide!⟩

/-- The records of a fluid-side pass over non-empty markers are consistent with the
structure-side marker, in every container of the same mesh. -/
theorem flowRecord_wellFormed {F : DoubleArith} {G G' : List CGeometry} (hm : SameMesh G G')
    {nDim z0 z1 mFlow mFEA nFEA : Nat} {nn : Option (List Nat)} {i : Nat} {v : CVertex}
    (hFEA : GetnVertex G z1 mFEA = some nFEA) (hpos : 0 < nFEA)
    (h : FlowRecord F G nDim z0 z1 mFlow mFEA nFEA nn i v) : WellFormedRecord G' z1 mFEA v := by
  obtain ⟨rec, hsd, -, hrec⟩ := h
  obtain ⟨vi, j, vj, -, hfn, hr⟩ := hrec hpos
  obtain ⟨vj', hvj', hnode, -⟩ := hm.to_new hfn.1
  refine ⟨nFEA, j, vj', by rw [hm.1, hFEA], vertexAt_lt_of_some hFEA hfn.1, hvj', ?_⟩
  rw [hr] at hsd
  simpa [CVertex.GetNode, hnode] using hsd

/-- The records of a structure-side pass over non-empty markers are consistent with the
fluid-side marker, in every container of the same mesh. -/
theorem feaRecord_wellFormed {F : DoubleArith} {G G' : List CGeometry} (hm : SameMesh G G')
    {nDim z0 z1 mFlow mFEA nFlow : Nat} {nn : Option (List Nat)} {i : Nat} {v : CVertex}
    (hFlow : GetnVertex G z0 mFlow = some nFlow) (hpos : 0 < nFlow)
    (h : FeaRecord F G nDim z0 z1 mFlow mFEA nFlow nn i v) : WellFormedRecord G' z0 mFlow v := by
  obtain ⟨rec, hsd, -, hrec⟩ := h
  obtain ⟨vi, j, vj, -, hfn, hr⟩ := hrec hpos
  obtain ⟨vj', hvj', hnode, -⟩ := hm.to_new hfn.1
  refine ⟨nFlow, j, vj', by rw [hm.1, hFlow], vertexAt_lt_of_some hFlow hfn.1, hvj', ?_⟩
  rw [hr] at hsd
  simpa [CVertex.GetNode, hnode] using hsd

/-- Consistency of a record does not depend on the donor records of the container. -/
theorem wellFormedRecord_sameMesh {G G' : List CGeometry} (hm : SameMesh G G') {z m : Nat}
    {v : CVertex} (h : WellFormedRecord G z m v) : WellFormedRecord G' z m v := by
  obtain ⟨n, j, vj, hn, hj, hvj, hsd⟩ := h
  obtain ⟨vj', hvj', hnode, -⟩ := hm.to_new hvj
  refine ⟨n, j, vj', by rw [hm.1, hn], hj, hvj', ?_⟩
  simpa [CVertex.GetNode, hnode] using hsd

/-- C19: when the two markers paired for an interface index exist and are not empty, the
body of the loop over interface indices does not fault and leaves, on every vertex of the
fluid-side marker, a record whose field 0 is the structure-side zone, whose field 2 is the
structure-side marker, whose field 3 is a vertex index below that marker's vertex count and
whose field 1 is `GetNode()` of that vertex; and the same on every vertex of the
structure-side marker with respect to the fluid-side marker. -/
theorem pairStep_records_well_formed (F : DoubleArith) (nDim z0 z1 : Nat)
    (cfg0 cfg1 : CConfig) (K : Nat)
    (st : TransferState) (mFlow mFEA nFlow nFEA : Nat)
    (hmF : scanMarker cfg0 (K + 1) st.markFlow = some mFlow)
    (hmS : scanMarker cfg1 (K + 1) st.markFEA = some mFEA)
    (hFlow : GetnVertex st.Geometry z0 mFlow = some nFlow)
    (hFEA : GetnVertex st.Geometry z1 mFEA = some nFEA)
    (hposF : 0 < nFlow) (hposS : 0 < nFEA) :
    ∃ st', pairStep F nDim z0 z1 cfg0 cfg1 K st = some st' ∧
      (∀ i, i < nFlow → ∃ v, vertexAt st'.Geometry z0 mFlow i = some v ∧
        WellFormedRecord st'.Geometry z1 mFEA v) ∧
      (∀ i, i < nFEA → ∃ v, vertexAt st'.Geometry z1 mFEA i = some v ∧
        WellFormedRecord st'.Geometry z0 mFlow v) := by
  obtain ⟨nn1, G1, hrun1, hm1, -, hrec1, -, -⟩ :=
    flowPass_spec F (SameMesh.refl st.Geometry) nDim z0 z1 mFlow mFEA nFlow nFEA st.nn hFlow hFEA
  obtain ⟨nn2, G2, hrun2, hm2, hfr2, hrec2, -, -⟩ :=
    feaPass_spec F hm1 nDim z0 z1 mFlow mFEA nFlow nFEA nn1 hFlow hFEA
  have hfea : ∀ i, i < nFEA → ∃ v, vertexAt G2 z1 mFEA i = some v ∧
      WellFormedRecord G2 z0 mFlow v := by
    intro i hi
    obtain ⟨v, hv, hr⟩ := hrec2 i hi
    exact ⟨v, hv, feaRecord_wellFormed hm2 hFlow hposF hr⟩
  refine ⟨⟨scanMarker cfg1 (K + 1) st.markFEA, scanMarker cfg0 (K + 1) st.markFlow, nn2, G2⟩,
    ?_, ?_, hfea⟩
  · simp [pairStep, hmF, hmS, hrun1, hrun2]
  · intro i hi
    by_cases hsame : z0 = z1 ∧ mFlow = mFEA
    · obtain ⟨hz, hmk⟩ := hsame
      subst hz
      subst hmk
      have hn : nFlow = nFEA := Option.some.inj (hFlow.symm.trans hFEA)
      subst hn
      exact hfea i hi
    · obtain ⟨v, hv, hr⟩ := hrec1 i hi
      refine ⟨v, ?_, wellFormedRecord_sameMesh ?_ (flowRecord_wellFormed hm1 hFEA hposS hr)⟩
      · rw [hfr2 z0 mFlow i hsame]
        exact hv
      · exact ⟨fun z m => (hm2.1 z m).trans (hm1.1 z m).symm,
          fun z m i => (hm2.2 z m i).trans (hm1.2 z m i).symm⟩

/-- Witness for C19: the first pairing of the synthetic interface. -/
theorem pairStep_records_well_formed_witness :
    ∃ st', pairStep binary64 2 0 1 cfgOne cfgOne 0 ⟨none, none, none, [meshA, meshB]⟩ = some st' ∧
      (∀ i, i < 2 → ∃ v, vertexAt st'.Geometry 0 0 i = some v ∧
        WellFormedRecord st'.Geometry 1 0 v) ∧
      (∀ i, i < 1 → ∃ v, vertexAt st'.Geometry 1 0 i = some v ∧
        WellFormedRecord st'.Geometry 0 0 v) :=
  pairStep_records_well_formed binary64 2 0 1 cfgOne cfgOne 0 ⟨none, none, none, [meshA, meshB]⟩
    0 0 2 1 (by decide) (by decide) (by decide) (by decide) (by decide) (by decide)

/-! ## Frame of `Interpolate_Data` -/

/-- C20: under the condition that lets `Interpolate_Data(z)` run without fault, the call
keeps the layout of the store, changes no entry of a zone other than `z`, and within zone `z`
changes no entry except the first `nVar` variables of the points that are the node of a
vertex of a processed marker. The geometry, hence every donor record and weight, is only
read: the routine returns nothing but the store. -/
theorem Interpolate_Data_frame {YES : Nat} {G : List CGeometry} {nVar : Nat} {D0 : DataStore}
    {config : List CConfig} {cfg : CConfig} {z : Nat} (hcfg : config[z]? = some cfg)
    (hready : TransferReady YES G nVar D0 cfg z) :
    ∃ D', CInterpolator.Interpolate_Data YES G nVar D0 z config = some D' ∧
      shapeOf D' = shapeOf D0 ∧
      (∀ z' p c, z' ≠ z → readData D' z' p c = readData D0 z' p c) ∧
      ∀ p c, (∀ m i v, Processed YES G cfg z m i v → ¬ (v.GetNode = p ∧ c < nVar)) →
        readData D' z p c = readData D0 z p c := by
  obtain ⟨D', hrun, hshape, hother, hframe, -⟩ := Interpolate_Data_inv hcfg hready
  exact ⟨D', hrun, hshape, hother, fun p c h => hframe p c (fun m i v hp _ => h m i v hp)⟩

/-- Witness for C20 on the synthetic interface with the donor map of the nearest-neighbour
builder. -/
theorem Interpolate_Data_frame_witness :
    ∃ D', CInterpolator.Interpolate_Data 1 [meshAMapped, meshBMapped] 2 dataAB 0
        [cfgOne, cfgOne] = some D' ∧
      shapeOf D' = shapeOf dataAB ∧
      (∀ z' p c, z' ≠ 0 → readData D' z' p c = readData dataAB z' p c) ∧
      ∀ p c, (∀ m i v, Processed 1 [meshAMapped, meshBMapped] cfgOne 0 m i v →
          ¬ (v.GetNode = p ∧ c < 2)) →
        readData D' 0 p c = readData dataAB 0 p c :=
  @Interpolate_Data_frame 1 [meshAMapped, meshBMapped] 2 dataAB [cfgOne, cfgOne] cfgOne 0 rfl
    (transferReady_of_markers (fun m hm _ => by
      have : m = 0 := by
        have : m < 1 := hm
        omega
      subst this
      exact ⟨_, _, rfl, rfl, by decide!⟩))

/-! ## Pairing without a matching marker -/

/-- A scan that meets no marker of the interface index leaves the marker variable as it
was. -/
theorem scanMarker_no_match (cfg : CConfig) (K : Nat) (mark : Option Nat)
    (hno : ∀ m, m < cfg.GetnMarker_All → cfg.GetMarker_All_FSIinterface m ≠ K) :
    scanMarker cfg K mark = mark := by
  unfold scanMarker
  generalize cfg.GetnMarker_All = n at hno
  induction n with
  | zero => rfl
  | succ n ih =>
    rw [List.range_succ, List.foldl_append, ih (fun m hm => hno m (Nat.lt_succ_of_lt hm))]
    simp [hno n (Nat.lt_succ_self n)]

/-- Counterexample to C14: zone 0 announces two pairings and has no marker of interface
index 2. The build returns a geometry, and compared with the build of the first pairing
alone it has created records for index 2 with marker 0 of zone 0, carried over from index 1:
the vertex of marker 1 of zone 1 has received a donor, and the donor of the vertex of
marker 0 of zone 0 has changed from vertex 0 of marker 0 to vertex 0 of marker 1. -/
theorem Set_TransferCoeff_missing_marker_not_reported :
    (∀ m, m < cfgSkip.GetnMarker_All → cfgSkip.GetMarker_All_FSIinterface m ≠ 2) ∧
    (CNearestNeighbor.Set_TransferCoeff binary64 [meshPairA, meshPairB] [0, 1]
        [cfgSkipOne, cfgTwo]).map
      (fun G => G.map (fun g => g.vertex.map (fun vs => vs.map (fun v => v.Donor_Info)))) =
      some [[[[some [1, 0, 0, 0]]], [[]]], [[[some [0, 0, 0, 0]]], [[]]]] ∧
    (CNearestNeighbor.Set_TransferCoeff binary64 [meshPairA, meshPairB] [0, 1]
        [cfgSkip, cfgTwo]).map
      (fun G => G.map (fun g => g.vertex.map (fun vs => vs.map (fun v => v.Donor_Info)))) =
      some [[[[some [1, 1, 1, 0]]], [[]]], [[[some [0, 0, 0, 0]]], [[some [0, 0, 0, 0]]]]] := by
  refine ⟨by decide, by decide!, by decide!⟩

/-- C14, amended: the body of the loop over interface indices does not validate the
pairing. When a zone has no marker of the interface index in process, and the marker
variables hold markers of the two meshes (that of the zone being carried over from an earlier
index), the body does not fault and reports nothing, the marker variable of that zone keeps
its value, and every vertex of the two markers in use receives one donor of weight `1.0`. -/
theorem pairStep_missing_marker_proceeds (F : DoubleArith) (nDim z0 z1 : Nat)
    (cfg0 cfg1 : CConfig) (K : Nat)
    (st : TransferState) (mFlow mFEA nFlow nFEA : Nat)
    (hmF : scanMarker cfg0 (K + 1) st.markFlow = some mFlow)
    (hmS : scanMarker cfg1 (K + 1) st.markFEA = some mFEA)
    (hFlow : GetnVertex st.Geometry z0 mFlow = some nFlow)
    (hFEA : GetnVertex st.Geometry z1 mFEA = some nFEA) :
    ∃ st', pairStep F nDim z0 z1 cfg0 cfg1 K st = some st' ∧
      ((∀ m, m < cfg0.GetnMarker_All → cfg0.GetMarker_All_FSIinterface m ≠ K + 1) →
        st.markFlow = some mFlow ∧ st'.markFlow = some mFlow) ∧
      ((∀ m, m < cfg1.GetnMarker_All → cfg1.GetMarker_All_FSIinterface m ≠ K + 1) →
        st.markFEA = some mFEA ∧ st'.markFEA = some mFEA) ∧
      (∀ i, i < nFlow → Sole st'.Geometry z0 mFlow i) ∧
      (∀ i, i < nFEA → Sole st'.Geometry z1 mFEA i) := by
  obtain ⟨r1, hrun1, hm1, hsole1, -⟩ :=
    flowPass_sole F (SameMesh.refl st.Geometry) nDim z0 z1 mFlow mFEA nFlow nFEA st.nn hFlow hFEA
  obtain ⟨r2, hrun2, -, hsole2, hkeep2⟩ :=
    feaPass_sole F hm1 nDim z0 z1 mFlow mFEA nFlow nFEA r1.1 hFlow hFEA
  refine ⟨⟨scanMarker cfg1 (K + 1) st.markFEA, scanMarker cfg0 (K + 1) st.markFlow, r2.1, r2.2⟩,
    ?_, ?_, ?_, ?_, hsole2⟩
  · simp [pairStep, hmF, hmS, hrun1, hrun2]
  · intro h
    have := scanMarker_no_match cfg0 (K + 1) st.markFlow h
    exact ⟨by rw [← this, hmF], hmF⟩
  · intro h
    have := scanMarker_no_match cfg1 (K + 1) st.markFEA h
    exact ⟨by rw [← this, hmS], hmS⟩
  · intro i hi
    exact hkeep2 z0 mFlow i (hsole1 i hi)

/-- Witness for C14 (amended): the second interface index on a zone without a marker of
index 2, the marker variables holding the markers of the first index. -/
theorem pairStep_missing_marker_proceeds_witness :
    ∃ st', pairStep binary64 2 0 1 cfgSkip cfgTwo 1
        ⟨some 0, some 0, none, [meshPairA, meshPairB]⟩ = some st' ∧
      ((∀ m, m < cfgSkip.GetnMarker_All → cfgSkip.GetMarker_All_FSIinterface m ≠ 1 + 1) →
        (TransferState.mk (some 0) (some 0) none [meshPairA, meshPairB]).markFlow = some 0 ∧
          st'.markFlow = some 0) ∧
      ((∀ m, m < cfgTwo.GetnMarker_All → cfgTwo.GetMarker_All_FSIinterface m ≠ 1 + 1) →
        (TransferState.mk (some 0) (some 0) none [meshPairA, meshPairB]).markFEA = some 1 ∧
          st'.markFEA = some 1) ∧
      (∀ i, i < 1 → Sole st'.Geometry 0 0 i) ∧
      (∀ i, i < 1 → Sole st'.Geometry 1 1 i) :=
  pairStep_missing_marker_proceeds binary64 2 0 1 cfgSkip cfgTwo 1
    ⟨some 0, some 0, none, [meshPairA, meshPairB]⟩ 0 1 1 1
    (by decide) (by decide) (by decide) (by decide)

/-! ## The element-based builder -/

/-- Failing input for C15: zone 0 with the vertices `(0,0)` and `(0,5)`, zone 1 with the
vertices `(1,0)`, `(1,1)`, `(1,5)` and the element joining the first two.
`CConsistConserve::Set_TransferCoeff` returns; every vertex of zone 0 and the two vertices of
the element in zone 1 have two donor slots, and no coefficient of any of them was written, so
that no sum of coefficients is 1. -/
theorem CConsistConserve_coefficients_never_set :
    (CConsistConserve.Set_TransferCoeff binary64 [meshElemA, meshElemB] [0, 1]
        [cfgOne, cfgOne]).bind
      (fun G => (vertexAt G 0 0 0).map (fun v => (v.GetnDonorPoints, v.Donor_Coeff))) =
      some (2, [none, none]) ∧
    (CConsistConserve.Set_TransferCoeff binary64 [meshElemA, meshElemB] [0, 1]
        [cfgOne, cfgOne]).bind
      (fun G => (vertexAt G 0 0 1).map (fun v => (v.GetnDonorPoints, v.Donor_Coeff))) =
      some (2, [none, none]) ∧
    (CConsistConserve.Set_TransferCoeff binary64 [meshElemA, meshElemB] [0, 1]
        [cfgOne, cfgOne]).bind
      (fun G => (vertexAt G 1 0 0).map (fun v => (v.GetnDonorPoints, v.Donor_Coeff))) =
      some (2, [none, none]) ∧
    (CConsistConserve.Set_TransferCoeff binary64 [meshElemA, meshElemB] [0, 1]
        [cfgOne, cfgOne]).bind
      (fun G => (vertexAt G 1 0 1).map (fun v => (v.GetnDonorPoints, v.Donor_Coeff))) =
      some (2, [none, none]) ∧
    (CConsistConserve.Set_TransferCoeff binary64 [meshElemA, meshElemB] [0, 1]
        [cfgOne, cfgOne]).bind
      (fun G => (vertexAt G 1 0 2).map (fun v => (v.GetnDonorPoints, v.Donor_Coeff))) =
      some (0, []) := by
  refine ⟨by decide!, by decide!, by decide!, by decide!, by decide!⟩

/-- Failing input for C16: the zone-1 vertex nearest to the zone-0 vertex `(0,5)` is vertex 2,
at `(1,5)`, whose point has no incident element; after `CConsistConserve::Set_TransferCoeff`
the vertex `(0,5)` has two donor slots, the number of nodes of element 0, neither with a
donor tuple or a weight, instead of the single donor `(1,5)` of weight `1.0`. -/
theorem CConsistConserve_isolated_point_no_fallback :
    forLoop 3 (scanFEA binary64 [meshElemA, meshElemB] 2 0 1 0 0 1) (-1, none) =
      some (1, some [1, 2, 0, 2]) ∧
    (meshElemB.node[2]?).map CPoint.GetnElem = some 0 ∧
    (CConsistConserve.Set_TransferCoeff binary64 [meshElemA, meshElemB] [0, 1]
        [cfgOne, cfgOne]).bind
      (fun G => (vertexAt G 0 0 1).map
        (fun v => (v.GetnDonorPoints, v.Donor_Info, v.Donor_Coeff, v.CartCoord))) =
      some (2, [none, none], [none, none], [0, 5]) := by
  refine ⟨by decide!, by decide, by decide!⟩

/-! ## The two search loops -/

/-- Searching a range for the first index with a property. -/
theorem find?_range_first (p : Nat → Bool) (n j : Nat) (hj : j < n) (hp : p j = true)
    (hfirst : ∀ k, k < j → p k = false) : (List.range n).find? p = some j := by
  induction n with
  | zero => exact absurd hj (Nat.not_lt_zero j)
  | succ n ih =>
    rw [List.range_succ, List.find?_append]
    rcases Nat.lt_succ_iff_lt_or_eq.mp hj with h | h
    · rw [ih h]
      rfl
    · subst h
      have hnone : (List.range j).find? p = none := by
        rw [List.find?_eq_none]
        intro k hk
        simp [hfirst k (List.mem_range.mp hk)]
      rw [hnone]
      simp [List.find?, hp]

/-- The list of candidate distances, entry by entry. -/
theorem candidateDistances_spec (F : DoubleArith) {G : List CGeometry} {zc mc n : Nat} (nDim : Nat)
    (target : CVertex) (hn : GetnVertex G zc mc = some n) :
    (candidateDistances F G nDim zc mc target).length = n ∧
    (∀ k vk, vertexAt G zc mc k = some vk →
      (candidateDistances F G nDim zc mc target)[k]? = some (sqDistance F nDim vk target)) ∧
    ∀ d, d ∈ candidateDistances F G nDim zc mc target →
      ∃ k vk, vertexAt G zc mc k = some vk ∧ d = sqDistance F nDim vk target := by
  unfold GetnVertex at hn
  cases hg : G[zc]? with
  | none => simp [hg] at hn
  | some g =>
    cases hvs : g.vertex[mc]? with
    | none => simp [hg, hvs] at hn
    | some vs =>
      simp only [hg, hvs, Option.some.injEq] at hn
      have hcd : candidateDistances F G nDim zc mc target =
          vs.map (fun vj => sqDistance F nDim vj target) := by
        simp [candidateDistances, hg, hvs]
      have hva : ∀ k, vertexAt G zc mc k = vs[k]? := by
        intro k
        simp [vertexAt, hg, hvs]
      rw [hcd]
      refine ⟨by simp [hn], ?_, ?_⟩
      · intro k vk hk
        rw [hva] at hk
        simp [List.getElem?_map, hk]
      · intro d hd
        obtain ⟨vk, hvk, rfl⟩ := List.mem_map.mp hd
        obtain ⟨k, hk⟩ := List.getElem?_of_mem hvk
        exact ⟨k, vk, by rw [hva]; exact hk, rfl⟩

/-- The first nearest candidate is the first-minimum argmin of the candidate distances. -/
theorem firstArgmin_of_firstNearest {F : DoubleArith} {G : List CGeometry}
    {nDim zc mc n j : Nat} {target vj : CVertex} (hn : GetnVertex G zc mc = some n)
    (h : FirstNearest F G nDim zc mc target j vj) :
    firstArgmin (candidateDistances F G nDim zc mc target) = some j := by
  obtain ⟨hlen, hget, hmem⟩ := candidateDistances_spec F nDim target hn
  obtain ⟨hvj, hmin, hfirst⟩ := h
  have hj : j < n := vertexAt_lt_of_some hn hvj
  have hdj : (candidateDistances F G nDim zc mc target).getD j 0 =
      sqDistance F nDim vj target := by
    rw [List.getD_eq_getElem?_getD, hget j vj hvj]
    rfl
  unfold firstArgmin
  rw [hlen]
  apply find?_range_first _ n j hj
  · rw [List.all_eq_true]
    intro d hd
    obtain ⟨k, vk, hvk, rfl⟩ := hmem d hd
    rw [hdj]
    exact decide_eq_true (hmin k vk hvk)
  · intro k hk
    have hkn : k < n := lt_trans hk hj
    obtain ⟨vk, hvk⟩ := vertexAt_lt hn hkn
    have hdk : (candidateDistances F G nDim zc mc target).getD k 0 =
        sqDistance F nDim vk target := by
      rw [List.getD_eq_getElem?_getD, hget k vk hvk]
      rfl
    have hjmem : sqDistance F nDim vj target ∈ candidateDistances F G nDim zc mc target :=
      List.getElem?_mem (hget j vj hvj)
    rw [Bool.eq_false_iff]
    intro hall
    have := List.all_eq_true.mp hall _ hjmem
    rw [hdk] at this
    exact absurd (of_decide_eq_true this) (not_le.mpr (hfirst k vk hk hvk))

/-- The two search loops run in lockstep: after any number of candidates they are in the same
state, and from the first candidate on the stored distance is not negative, so that it never
equals the sentinel `-1.0`. -/
theorem scan_loops_lockstep (F : DoubleArith) (G : List CGeometry) (nDim zt zc mt mc i : Nat)
    (nn : Option (List Nat)) (n : Nat) :
    forLoop n (scanFEA F G nDim zt zc mt mc i) (sentinel, nn) =
        forLoop n (scanFlow F G nDim zc zt mc mt i) (sentinel, nn) ∧
      ∀ r, forLoop n (scanFEA F G nDim zt zc mt mc i) (sentinel, nn) = some r →
        (n = 0 → r.1 = sentinel) ∧ (0 < n → 0 ≤ r.1) := by
  induction n with
  | zero =>
    refine ⟨rfl, fun r hr => ⟨fun _ => ?_, fun h => absurd h (lt_irrefl 0)⟩⟩
    rw [forLoop_zero] at hr
    cases hr
    rfl
  | succ n ih =>
    obtain ⟨heq, hinv⟩ := ih
    rw [forLoop_succ, forLoop_succ, ← heq]
    cases hA : forLoop n (scanFEA F G nDim zt zc mt mc i) (sentinel, nn) with
    | none => exact ⟨rfl, fun r hr => by simp at hr⟩
    | some s =>
      obtain ⟨h0, hpos⟩ := hinv s hA
      have hsent : s.1 = sentinel ↔ n = 0 := by
        constructor
        · intro hs
          rcases Nat.eq_zero_or_pos n with h | h
          · exact h
          · exact absurd hs (ne_sentinel_of_nonneg (hpos h))
        · exact h0
      simp only [Option.bind]
      cases hvj : vertexAt G zc mc n with
      | none => simp [scanFEA, scanFlow, hvj]
      | some vj =>
        cases hvi : vertexAt G zt mt i with
        | none => simp [scanFEA, scanFlow, hvj, hvi]
        | some vi =>
          simp only [scanFEA, scanFlow, hvj, hvi, hsent]
          refine ⟨trivial, ?_⟩
          intro r hr
          refine ⟨fun h => absurd h (Nat.succ_ne_zero n), fun _ => ?_⟩
          split_ifs at hr with hc
          · cases hr
            exact sqDistance_nonneg F nDim vj vi
          · cases hr
            rcases Nat.eq_zero_or_pos n with h | h
            · exact absurd (Or.inl h) hc
            · exact hpos h

/-- Where the computed distances of a marker are the exact ones, the list of computed
distances is the list of exact distances. -/
theorem candidateDistances_exact {F : DoubleArith} {G : List CGeometry} {nDim zc mc : Nat}
    {target : CVertex}
    (hexact : ∀ k vk, vertexAt G zc mc k = some vk →
      sqDistance F nDim vk target = ((exactSqDistance nDim vk target : ℚ) : WithTop ℚ)) :
    candidateDistances F G nDim zc mc target = exactDistances G nDim zc mc target := by
  unfold candidateDistances exactDistances
  cases hg : G[zc]? with
  | none => simp
  | some g =>
    cases hvs : g.vertex[mc]? with
    | none => simp [hvs]
    | some vs =>
      simp only [hvs]
      refine List.map_congr_left (fun vk hvk => ?_)
      obtain ⟨k, hk⟩ := List.getElem?_of_mem hvk
      exact hexact k vk (by simp [vertexAt, hg, hvs, hk])

/-- C21: on a non-empty marker of candidates, in any `double` arithmetic, the inner loop of
the fluid-side pass (accept when `last_distance == -1.0` or `distance < last_distance`) and
the inner loop of the structure-side pass (accept when `jVertex == 0` or
`distance < last_distance`), given the same candidates and the same target vertex, end in the
same state, and the candidate index they select is the first-minimum argmin of the squared
distances of the candidates as the loops compute them; where the computed distances are the
exact ones, it is the first-minimum argmin of the exact squared distances. -/
theorem search_loops_select_first_argmin (F : DoubleArith) (G : List CGeometry)
    (nDim zt zc mt mc i n : Nat) (nn : Option (List Nat)) (vi : CVertex)
    (hn : GetnVertex G zc mc = some n) (hpos : 0 < n) (hvi : vertexAt G zt mt i = some vi) :
    ∃ d j vj, vertexAt G zc mc j = some vj ∧
      forLoop n (scanFEA F G nDim zt zc mt mc i) (sentinel, nn) =
        some (d, some [zc, vj.GetNode, mc, j]) ∧
      forLoop n (scanFlow F G nDim zc zt mc mt i) (sentinel, nn) =
        some (d, some [zc, vj.GetNode, mc, j]) ∧
      firstArgmin (candidateDistances F G nDim zc mc vi) = some j ∧
      ((∀ k vk, vertexAt G zc mc k = some vk →
          sqDistance F nDim vk vi = ((exactSqDistance nDim vk vi : ℚ) : WithTop ℚ)) →
        firstArgmin (exactDistances G nDim zc mc vi) = some j) := by
  obtain ⟨r, hrun, -, hrec⟩ := scanFEA_loop F G nDim zt zc mt mc i n nn vi hn hvi
  obtain ⟨j, vj, hfn, hr2⟩ := hrec hpos
  have hr : r = (r.1, some [zc, vj.GetNode, mc, j]) := Prod.ext rfl hr2
  have harg := firstArgmin_of_firstNearest hn hfn
  refine ⟨r.1, j, vj, hfn.1, ?_, ?_, harg, fun hexact => ?_⟩
  · rw [hrun]
    exact congrArg some hr
  · rw [← (scan_loops_lockstep F G nDim zt zc mt mc i nn n).1, hrun]
    exact congrArg some hr
  · rw [← candidateDistances_exact hexact]
    exact harg

/-- Witness for C21 in binary64, on candidates whose squares overflow: the vertex `(0,0)`
against the vertices `(2^513, 0)` and `(2^512, 0)`. Both computed distances are `+∞`, both
loops keep candidate 0, and candidate 0 is the first-minimum argmin of the computed
distances. -/
theorem search_loops_select_first_argmin_witness :
    (∃ d j vj, vertexAt [meshRoundY, meshHuge] 1 0 j = some vj ∧
      forLoop 2 (scanFEA binary64 [meshRoundY, meshHuge] 2 0 1 0 0 0) (sentinel, none) =
        some (d, some [1, vj.GetNode, 0, j]) ∧
      forLoop 2 (scanFlow binary64 [meshRoundY, meshHuge] 2 1 0 0 0 0) (sentinel, none) =
        some (d, some [1, vj.GetNode, 0, j]) ∧
      firstArgmin (candidateDistances binary64 [meshRoundY, meshHuge] 2 1 0
        (mkVertex 0 [0, 0])) = some j ∧
      ((∀ k vk, vertexAt [meshRoundY, meshHuge] 1 0 k = some vk →
          sqDistance binary64 2 vk (mkVertex 0 [0, 0]) =
            ((exactSqDistance 2 vk (mkVertex 0 [0, 0]) : ℚ) : WithTop ℚ)) →
        firstArgmin (exactDistances [meshRoundY, meshHuge] 2 1 0 (mkVertex 0 [0, 0])) =
          some j)) ∧
    candidateDistances binary64 [meshRoundY, meshHuge] 2 1 0 (mkVertex 0 [0, 0]) = [⊤, ⊤] ∧
    forLoop 2 (scanFEA binary64 [meshRoundY, meshHuge] 2 0 1 0 0 0) (sentinel, none) =
      some (⊤, some [1, 0, 0, 0]) ∧
    forLoop 2 (scanFlow binary64 [meshRoundY, meshHuge] 2 1 0 0 0 0) (sentinel, none) =
      some (⊤, some [1, 0, 0, 0]) :=
  ⟨search_loops_select_first_argmin binary64 [meshRoundY, meshHuge] 2 0 1 0 0 0 2 none
    (mkVertex 0 [0, 0]) (by decide) (by decide) (by decide!), by decide!, by decide!,
    by decide!⟩

/-! ## The marker pairing rule -/

/-- A scan returns the highest-numbered marker of the interface index. -/
theorem scanMarker_last_match (cfg : CConfig) (K : Nat) (mark : Option Nat) (m : Nat)
    (hm : m < cfg.GetnMarker_All) (hK : cfg.GetMarker_All_FSIinterface m = K)
    (hlast : ∀ m', m < m' → m' < cfg.GetnMarker_All → cfg.GetMarker_All_FSIinterface m' ≠ K) :
    scanMarker cfg K mark = some m := by
  unfold scanMarker
  generalize cfg.GetnMarker_All = n at hm hlast
  induction n with
  | zero => exact absurd hm (Nat.not_lt_zero m)
  | succ n ih =>
    rw [List.range_succ, List.foldl_append]
    rcases Nat.lt_succ_iff_lt_or_eq.mp hm with h | h
    · rw [ih h (fun m' h1 h2 => hlast m' h1 (Nat.lt_succ_of_lt h2))]
      simp [hlast n h (Nat.lt_succ_self n)]
    · subst h
      simp [hK]

/-- C22: the marker scan of `Set_TransferCoeff` for an interface index returns the
highest-numbered marker of the zone that carries this index, whichever markers of lower number
carry it too and whatever the variable held before; when no marker of the zone carries the
index, the scan returns what the variable held, so that the marker of the previous interface
index is reused. -/
theorem markAt_pairing_rule (cfg : CConfig) (K : Nat) (mark : Option Nat) :
    (∀ m, m < cfg.GetnMarker_All → cfg.GetMarker_All_FSIinterface m = K + 1 →
      (∀ m', m < m' → m' < cfg.GetnMarker_All →
        cfg.GetMarker_All_FSIinterface m' ≠ K + 1) →
      scanMarker cfg (K + 1) mark = some m ∧ markAt cfg (K + 1) = some m) ∧
    ((∀ m, m < cfg.GetnMarker_All → cfg.GetMarker_All_FSIinterface m ≠ K + 1) →
      scanMarker cfg (K + 1) mark = mark ∧ markAt cfg (K + 1) = markAt cfg K) :=
  ⟨fun m hm hK hlast => ⟨scanMarker_last_match cfg (K + 1) mark m hm hK hlast,
      scanMarker_last_match cfg (K + 1) (markAt cfg K) m hm hK hlast⟩,
    fun hno => ⟨scanMarker_no_match cfg (K + 1) mark hno,
      scanMarker_no_match cfg (K + 1) (markAt cfg K) hno⟩⟩

/-- Witness for C22: with two markers of interface index 1 the scan takes marker 1, not
marker 0; without a marker of interface index 2 the marker of index 1 is reused. -/
theorem markAt_pairing_rule_witness :
    (scanMarker cfgJunction (0 + 1) none = some 1 ∧ markAt cfgJunction (0 + 1) = some 1) ∧
    (scanMarker cfgSkip (1 + 1) (some 0) = some 0 ∧
      markAt cfgSkip (1 + 1) = markAt cfgSkip 1) :=
  ⟨(markAt_pairing_rule cfgJunction 0 none).1 1 (by decide) (by decide)
      (fun m' h1 h2 => by
        have : m' < 2 := h2
        omega),
    (markAt_pairing_rule cfgSkip 1 (some 0)).2 (by decide)⟩

end SU2
